import Mathlib

/-!
# filament-sync: normalization, conversion and store merge

A shallow embedding of the profile pipeline of the repository:
`NormalizeSlicerProfile`, the pre-check of `LoadCustomProfiles` and
`UnmarshalJSON` (`profiles/profiles.go`), `ConvertToCrealityFormat`,
`AddProfileToDatabase` and `UpdateOptions` (`creality/creality.go`), together
with the record types they work on, followed by the properties established
about them.

Modelling conventions

* Go `string` values are Lean `String`s. The strings handled here come out of
  JSON decoding and are valid UTF-8; splitting on the one-byte separator
  `"\n"` and comparing with `==` then agree with the same operations on
  characters.
* Go `int` is `Int`. `len` of a slice stays far from the 64-bit range; where
  the range matters (`strconv.Atoi`) it is the 64-bit one and is checked
  explicitly.
* Go `float64` is carried by its IEEE-754 bit pattern (`Float64`).
* A Go `map[string]V` is an association list with `mapGet` (first binding of a
  key) and `mapSet` (overwrite the binding of a key, or add one). A map that
  may be `nil` is an `Option` of such a list, `none` being the nil map. A list
  that stands for a map ranged over (`RawData`) binds each key once.
* A run-time panic, or a returned error, is the result `none` of a function
  returning `Option`; each function says which.
* Pointers to records are passed as values; the callers in `cli/main.go` hand
  over freshly built, non-nil records.
* Standard-library functions whose behaviour is not part of the repository are
  parameters of the model (`StdLib`). For the embedded notes, `goLib` fills
  the JSON and quoting functions with models written after the documented
  behaviour of `encoding/json` and `strconv`.
-/

namespace FilamentSync

/-! ## Data model -/

/-- Go `float64`, carried by its IEEE-754 binary64 bit pattern. The zero value
is the pattern `0`. -/
structure Float64 where
  bits : Nat := 0
  deriving DecidableEq, Repr

/-- Go `profiles.FilamentNotes` (profiles/profiles.go): the metadata block
embedded in a slicer profile. The Go field `Type` is written `Type_`. -/
structure FilamentNotes where
  ID : String := ""
  Vendor : String := ""
  Type_ : String := ""
  Name : String := ""
  deriving DecidableEq, Repr

/-- Go `creality.KVParam`: the flat parameter record, one string per field,
in the order of the source declaration. -/
structure KVParam where
  ActivateAirFiltration : String := ""
  ActivateChamberTempControl : String := ""
  AdditionalCoolingFanSpeed : String := ""
  ChamberTemperature : String := ""
  CloseFanTheFirstXLayers : String := ""
  CompatiblePrinters : String := ""
  CompatiblePrintersCondition : String := ""
  CompatiblePrints : String := ""
  CompatiblePrintsCondition : String := ""
  CompletePrintExhaustFanSpeed : String := ""
  CoolCdsFanStartAtHeight : String := ""
  CoolPlateTemp : String := ""
  CoolPlateTempInitialLayer : String := ""
  CoolSpecialCdsFanSpeed : String := ""
  DefaultFilamentColour : String := ""
  DuringPrintExhaustFanSpeed : String := ""
  EnableOverhangBridgeFan : String := ""
  EnablePressureAdvance : String := ""
  EnableSpecialAreaAdditionalCoolingFan : String := ""
  EngPlateTemp : String := ""
  EngPlateTempInitialLayer : String := ""
  EpoxyResinPlateTemp : String := ""
  EpoxyResinPlateTempInitialLayer : String := ""
  FanCoolingLayerTime : String := ""
  FanMaxSpeed : String := ""
  FanMinSpeed : String := ""
  FilamentCoolingFinalSpeed : String := ""
  FilamentCoolingInitialSpeed : String := ""
  FilamentCoolingMoves : String := ""
  FilamentCost : String := ""
  FilamentDensity : String := ""
  FilamentDeretractionSpeed : String := ""
  FilamentDiameter : String := ""
  FilamentEndGcode : String := ""
  FilamentFlowRatio : String := ""
  FilamentIsSupport : String := ""
  FilamentLoadTime : String := ""
  FilamentLoadingSpeed : String := ""
  FilamentLoadingSpeedStart : String := ""
  FilamentMaxVolumetricSpeed : String := ""
  FilamentMinimalPurgeOnWipeTower : String := ""
  FilamentMultitoolRamming : String := ""
  FilamentMultitoolRammingFlow : String := ""
  FilamentMultitoolRammingVolume : String := ""
  FilamentNotes : String := ""
  FilamentRammingParameters : String := ""
  FilamentRetractBeforeWipe : String := ""
  FilamentRetractLiftAbove : String := ""
  FilamentRetractLiftBelow : String := ""
  FilamentRetractLiftEnforce : String := ""
  FilamentRetractRestartExtra : String := ""
  FilamentRetractWhenChangingLayer : String := ""
  FilamentRetractionLength : String := ""
  FilamentRetractionMinimumTravel : String := ""
  FilamentRetractionSpeed : String := ""
  FilamentShrink : String := ""
  FilamentShrinkageCompensationZ : String := ""
  FilamentSoluble : String := ""
  FilamentStartGcode : String := ""
  FilamentToolchangeDelay : String := ""
  FilamentType : String := ""
  FilamentUnloadTime : String := ""
  FilamentUnloadingSpeed : String := ""
  FilamentUnloadingSpeedStart : String := ""
  FilamentVendor : String := ""
  FilamentWipe : String := ""
  FilamentWipeDistance : String := ""
  FilamentZHop : String := ""
  FilamentZHopTypes : String := ""
  FullFanSpeedLayer : String := ""
  HotPlateTemp : String := ""
  HotPlateTempInitialLayer : String := ""
  Inherits : String := ""
  MaterialFlowDependentTemperature : String := ""
  MaterialFlowTempGraph : String := ""
  NozzleTemperature : String := ""
  NozzleTemperatureInitialLayer : String := ""
  NozzleTemperatureRangeHigh : String := ""
  NozzleTemperatureRangeLow : String := ""
  OverhangFanSpeed : String := ""
  OverhangFanThreshold : String := ""
  PressureAdvance : String := ""
  ReduceFanStopStartFreq : String := ""
  RequiredNozzleHRC : String := ""
  SlowDownForLayerCooling : String := ""
  WarmupStartLayer : String := ""
  SlowDownLayerTime : String := ""
  SlowDownMinSpeed : String := ""
  SupportMaterialInterfaceFanSpeed : String := ""
  TemperatureVitrification : String := ""
  TexturedPlateTemp : String := ""
  TexturedPlateTempInitialLayer : String := ""
  deriving DecidableEq, Repr

/-- Go `creality.BaseInfo`: identity and coerced numeric fields. -/
structure BaseInfo where
  ID : String := ""
  Brand : String := ""
  Name : String := ""
  MaterialType : String := ""
  Colors : List String := []
  Density : Float64 := {}
  Diameter : String := ""
  CostPerMeter : Int := 0
  WeightPerMeter : Int := 0
  Rank : Int := 0
  MinTemp : Int := 0
  MaxTemp : Int := 0
  IsSoluble : Bool := false
  IsSupport : Bool := false
  ShrinkageRate : Int := 0
  SofteningTemp : Int := 0
  DryingTemp : Int := 0
  DryingTime : Int := 0
  deriving DecidableEq, Repr

/-- Go `creality.FilamentProfileEntry`: one entry of the database list. -/
structure FilamentProfileEntry where
  EngineVersion : String := ""
  PrinterIntName : String := ""
  NozzleDiameter : List String := []
  KVParam : KVParam := {}
  Base : BaseInfo := {}
  deriving DecidableEq, Repr

/-- The anonymous `Result` struct of Go `creality.MaterialDatabase`: the entry
list, the count and the version stamp. -/
structure MaterialDatabaseResult where
  List : List FilamentProfileEntry := []
  Count : Int := 0
  Version : String := ""
  deriving DecidableEq, Repr

/-- Go `creality.MaterialDatabase`: the top-level document of
`material_database.json`. -/
structure MaterialDatabase where
  Code : Int := 0
  Msg : String := ""
  ReqID : String := ""
  Result : MaterialDatabaseResult := {}
  deriving DecidableEq, Repr

/-! ## AddProfileToDatabase -/

/-- The `for i, entry := range db.Result.List` loop of `AddProfileToDatabase`:
walks the list from the front, overwrites the first entry whose `Base.ID`
equals that of `newProfile` and stops there (`break`). Returns the list after
the loop and the final value of `found`. -/
def replaceLoop (newProfile : FilamentProfileEntry) :
    List FilamentProfileEntry → List FilamentProfileEntry × Bool
  | [] => ([], false)
  | entry :: rest =>
    if entry.Base.ID = newProfile.Base.ID then
      (newProfile :: rest, true)
    else
      ((replaceLoop newProfile rest).1.cons entry, (replaceLoop newProfile rest).2)

/-- Go `AddProfileToDatabase(db, newProfile, version)`: replace the first entry
with the same ID, otherwise append and set `Count` to the new length; in both
cases store `version`. Returns the database after the call. -/
def AddProfileToDatabase (db : MaterialDatabase) (newProfile : FilamentProfileEntry)
    (version : String) : MaterialDatabase :=
  let looped := replaceLoop newProfile db.Result.List
  let afterLoop : MaterialDatabaseResult := { db.Result with List := looped.1 }
  let afterAppend : MaterialDatabaseResult :=
    if looped.2 then afterLoop
    else { afterLoop with
            List := afterLoop.List ++ [newProfile],
            Count := ((afterLoop.List ++ [newProfile]).length : Int) }
  { db with Result := { afterAppend with Version := version } }

/-! ## UpdateOptions -/

/-- Lookup `m[k]` in a Go map: the value bound to `k`, or `none` when the key
is absent (the `ok == false` case of the two-value form). -/
def mapGet {V : Type} : List (String × V) → String → Option V
  | [], _ => none
  | (k', v) :: rest, k => if k' = k then some v else mapGet rest k

/-- Assignment `m[k] = v` in a Go map: overwrites the binding of `k` when there
is one, adds a binding otherwise. -/
def mapSet {V : Type} : List (String × V) → String → V → List (String × V)
  | [], k, v => [(k, v)]
  | (k', v') :: rest, k, v =>
    if k' = k then (k, v) :: rest else (k', v') :: mapSet rest k v

/-- Go `strings.Split(s, "\n")` on the characters of `s`: the pieces between
consecutive newlines; a text without newline gives one piece, the empty text
gives one empty piece. -/
def splitNewline : List Char → List (List Char)
  | [] => [[]]
  | c :: cs =>
    if c = '\n' then [] :: splitNewline cs
    else
      match splitNewline cs with
      | [] => [[c]]
      | piece :: pieces => (c :: piece) :: pieces

/-- Go `strings.Split(s, "\n")`. -/
def Split (s : String) : List String :=
  (splitNewline s.data).map String.mk

/-- Go `map[string]string` as held inside `MaterialOptions`; `none` is the nil
map (what JSON `null` decodes to). -/
abbrev TypeMap := Option (List (String × String))

instance instDecidableEqTypeMap : DecidableEq TypeMap := inferInstance

/-- Go `creality.MaterialOptions`, `map[string]map[string]string`: vendor, then
material type, then the newline-joined names; `none` is the nil map. -/
abbrev MaterialOptions := Option (List (String × TypeMap))

instance instDecidableEqMaterialOptions : DecidableEq MaterialOptions := inferInstance

/-- Go `UpdateOptions(options, notes)`. Returns the options after the call, or
`none` when the call panics (assignment to an entry of a nil inner map). The
inner maps are updated through the vendor key, as the Go code does through
`options[vendor]`. -/
def UpdateOptions (options : MaterialOptions) (notes : FilamentNotes) :
    Option MaterialOptions :=
  match options with
  | none => some none
  | some opts =>
    let vendor := if notes.Vendor = "" then "Generic" else notes.Vendor
    let filamentType := if notes.Type_ = "" then "PLA" else notes.Type_
    let name := if notes.Name = "" then "Custom Filament" else notes.Name
    let withVendor : List (String × TypeMap) × TypeMap :=
      match mapGet opts vendor with
      | none => (mapSet opts vendor (some []), some [])
      | some inner => (opts, inner)
    match withVendor.2 with
    | none => none
    | some inner =>
      match mapGet inner filamentType with
      | some existingNames =>
        if name ∈ Split existingNames then
          some (some withVendor.1)
        else
          some (some (mapSet withVendor.1 vendor
            (some (mapSet inner filamentType (existingNames ++ "\n" ++ name)))))
      | none =>
        some (some (mapSet withVendor.1 vendor (some (mapSet inner filamentType name))))

/-! ## Library functions

Calls into the Go standard library. `fmt`'s float formatting, `encoding/json`
and `strconv.Quote` / `strconv.ParseFloat` are parameters of the model
(`StdLib`); `strings.Trim`, `strings.TrimSuffix`, `strconv.Atoi` and the `%v`
form of the other JSON values are written out. -/

/-- The standard-library functions taken as parameters. -/
structure StdLib where
  /-- Go `fmt.Sprintf("%v", f)` for a `float64`. -/
  formatFloat : Float64 → String
  /-- Go `json.Unmarshal([]byte(s), &notes)` into a zero `FilamentNotes`:
  the decoded block, or `none` when an error is returned. -/
  jsonUnmarshalNotes : String → Option FilamentNotes
  /-- Go `json.Marshal(notes)`: the bytes as a string, or `none` when an error
  is returned. -/
  jsonMarshalNotes : FilamentNotes → Option String
  /-- Go `strconv.Quote`. -/
  Quote : String → String
  /-- Go `strconv.ParseFloat(s, 64)`: the value, or `none` when an error is
  returned. -/
  ParseFloat : String → Option Float64

/-- A value decoded by `encoding/json` into `interface{}`: `nil`, `bool`,
`float64`, `string`, `[]interface{}` or `map[string]interface{}`. -/
inductive JSON where
  | null : JSON
  | bool (b : Bool) : JSON
  | number (f : Float64) : JSON
  | string (s : String) : JSON
  | array (elems : List JSON) : JSON
  | object (members : List (String × JSON)) : JSON

/-- Insertion of a rendered map member into a list sorted by key. -/
def insertMember (kv : String × String) : List (String × String) → List (String × String)
  | [] => [kv]
  | kv' :: rest => if kv.1 ≤ kv'.1 then kv :: kv' :: rest else kv' :: insertMember kv rest

/-- Rendered map members in increasing key order, as `fmt` prints a map. -/
def sortMembers : List (String × String) → List (String × String)
  | [] => []
  | kv :: rest => insertMember kv (sortMembers rest)

mutual
/-- Go `fmt.Sprintf("%v", x)` for a decoded JSON value: `<nil>`, `true` /
`false`, the float form, the string itself, `[a b c]` for a slice and
`map[k:v k:v]` with sorted keys for a map. -/
def SprintfV (lib : StdLib) : JSON → String
  | .null => "<nil>"
  | .bool b => if b then "true" else "false"
  | .number f => lib.formatFloat f
  | .string s => s
  | .array elems => "[" ++ " ".intercalate (SprintfVElems lib elems) ++ "]"
  | .object members =>
    "map[" ++ " ".intercalate
      ((sortMembers (SprintfVMembers lib members)).map (fun kv => kv.1 ++ ":" ++ kv.2)) ++ "]"
/-- The `%v` forms of the elements of a slice. -/
def SprintfVElems (lib : StdLib) : List JSON → List String
  | [] => []
  | x :: xs => SprintfV lib x :: SprintfVElems lib xs
/-- The keys of a map with the `%v` forms of their values. -/
def SprintfVMembers (lib : StdLib) : List (String × JSON) → List (String × String)
  | [] => []
  | (k, v) :: rest => (k, SprintfV lib v) :: SprintfVMembers lib rest
end

/-- Go `strings.Trim(s, cutset)`: `s` without the leading and trailing
characters that occur in `cutset`. -/
def Trim (s cutset : String) : String :=
  String.mk (((s.data.dropWhile (fun c => decide (c ∈ cutset.data))).reverse.dropWhile
    (fun c => decide (c ∈ cutset.data))).reverse)

/-- Go `strings.TrimSuffix(s, suffix)`: `s` without the trailing `suffix` when
it ends with it, `s` otherwise. -/
def TrimSuffix (s suffix : String) : String :=
  if suffix.data.isSuffixOf s.data then
    String.mk (s.data.take (s.data.length - suffix.data.length))
  else s

/-- The value of a run of ASCII decimal digits read from the left with
accumulator `acc`; `none` at the first character that is not a digit. -/
def parseDigits (acc : Nat) : List Char → Option Nat
  | [] => some acc
  | c :: cs =>
    if '0' ≤ c ∧ c ≤ '9' then parseDigits (acc * 10 + (c.toNat - '0'.toNat)) cs
    else none

/-- Go `strconv.Atoi(s)` with a 64-bit `int`: an optional sign, then one or
more decimal digits, the value within `-2^63 .. 2^63 - 1`; `none` when an
error (syntax or range) is returned. -/
def Atoi (s : String) : Option Int :=
  let signed : Bool × List Char :=
    match s.data with
    | [] => (false, [])
    | c :: rest =>
      if c = '+' then (false, rest)
      else if c = '-' then (true, rest)
      else (false, c :: rest)
  if signed.2 = [] then none
  else
    match parseDigits 0 signed.2 with
    | none => none
    | some n =>
      if signed.1 then
        if n ≤ 2 ^ 63 then some (-(n : Int)) else none
      else
        if n < 2 ^ 63 then some (n : Int) else none

/-! ## NormalizeSlicerProfile -/

/-- Go `profiles.SlicerFilamentProfile`: the typed top-level fields and the
raw document (`RawData`, one binding per key). -/
structure SlicerFilamentProfile where
  Name : String := ""
  Version : String := ""
  FilamentNotes : List String := []
  RawData : List (String × JSON) := []

/-- The string `NormalizeSlicerProfile` stores for one raw value (body of the
loop, lines 75-96): the first element of a non-empty array, else the value
itself, a string as it is and anything else through `%v`. An empty array is
not `len(arr) > 0` and takes the second branch. -/
def flattenValue (lib : StdLib) (value : JSON) : String :=
  match value with
  | .array (first :: _) =>
    match first with
    | .string strVal => strVal
    | .number numVal => lib.formatFloat numVal
    | .bool boolVal => SprintfV lib (.bool boolVal)
    | other => SprintfV lib other
  | other =>
    match other with
    | .string strVal => strVal
    | .number numVal => lib.formatFloat numVal
    | .bool boolVal => SprintfV lib (.bool boolVal)
    | other => SprintfV lib other

/-- One round of the loop `for key, value := range slicerProfile.RawData`. -/
def flattenStep (lib : StdLib) (normalizedData : List (String × String))
    (kv : String × JSON) : List (String × String) :=
  if kv.1 = "name" ∨ kv.1 = "version" ∨ kv.1 = "filament_notes" then normalizedData
  else mapSet normalizedData kv.1 (flattenValue lib kv.2)

/-- Go `NormalizeSlicerProfile(slicerProfile)`: the normalized map and the
parsed notes, or `none` when an error is returned (the Go results are then
`nil, nil, err`). -/
def NormalizeSlicerProfile (lib : StdLib) (slicerProfile : SlicerFilamentProfile) :
    Option (List (String × String) × FilamentNotes) :=
  let flattened := slicerProfile.RawData.foldl (flattenStep lib) []
  let named := mapSet (mapSet flattened "name" slicerProfile.Name)
    "version" slicerProfile.Version
  match slicerProfile.FilamentNotes with
  | [] => none
  | first :: _ =>
    if first = "" then none
    else
      match lib.jsonUnmarshalNotes (Trim first "\"") with
      | none => none
      | some notes =>
        some (mapSet (mapSet (mapSet (mapSet named
          "filament_notes.id" notes.ID)
          "filament_notes.vendor" notes.Vendor)
          "filament_notes.type" notes.Type_)
          "filament_notes.name" notes.Name, notes)

/-! ## ConvertToCrealityFormat -/

/-- The closure `assignKVParam` of `ConvertToCrealityFormat`: the value under
`key`, or the empty string when the key is absent. -/
def assignKVParam (slicerProfileData : List (String × String)) (key : String) : String :=
  match mapGet slicerProfileData key with
  | some val => val
  | none => ""

/-- The update `if v, err := strconv.Atoi(s); err == nil { field = v }` of a
field that holds its zero value. -/
def atoiOrZero (s : String) : Int :=
  match Atoi s with
  | some v => v
  | none => 0

/-- Go `ConvertToCrealityFormat(slicerProfileData, notes)`: the converted
entry, or `none` when an error is returned (marshalling the notes failed).
Each field is given the value it holds at the `return`: the struct literals
of lines 213-328 followed by the conditional updates of lines 330-369.
`slicerProfileData["version"]` and `slicerProfileData["filament_diameter"]`
read the empty string for an absent key, as `assignKVParam` does. `notes` is
not nil (line 219 dereferences it), so of the two branches at lines 330-340
the first is the one taken. -/
def ConvertToCrealityFormat (lib : StdLib) (slicerProfileData : List (String × String))
    (notes : FilamentNotes) : Option FilamentProfileEntry :=
  match lib.jsonMarshalNotes notes with
  | none => none
  | some notesBytes =>
    let quotedNotes := lib.Quote notesBytes
    some {
      EngineVersion := assignKVParam slicerProfileData "version"
      PrinterIntName := "F008"
      NozzleDiameter := ["0.4"]
      KVParam := {
        ActivateAirFiltration := assignKVParam slicerProfileData "activate_air_filtration"
        ActivateChamberTempControl := assignKVParam slicerProfileData "activate_chamber_temp_control"
        AdditionalCoolingFanSpeed := assignKVParam slicerProfileData "additional_cooling_fan_speed"
        ChamberTemperature := assignKVParam slicerProfileData "chamber_temperature"
        CloseFanTheFirstXLayers := assignKVParam slicerProfileData "close_fan_the_first_x_layers"
        CompatiblePrinters := assignKVParam slicerProfileData "compatible_printers"
        CompatiblePrintersCondition := assignKVParam slicerProfileData "compatible_printers_condition"
        CompatiblePrints := assignKVParam slicerProfileData "compatible_prints"
        CompatiblePrintsCondition := assignKVParam slicerProfileData "compatible_prints_condition"
        CompletePrintExhaustFanSpeed := assignKVParam slicerProfileData "complete_print_exhaust_fan_speed"
        CoolCdsFanStartAtHeight := assignKVParam slicerProfileData "cool_cds_fan_start_at_height"
        CoolPlateTemp := assignKVParam slicerProfileData "cool_plate_temp"
        CoolPlateTempInitialLayer := assignKVParam slicerProfileData "cool_plate_temp_initial_layer"
        CoolSpecialCdsFanSpeed := assignKVParam slicerProfileData "cool_special_cds_fan_speed"
        DefaultFilamentColour := assignKVParam slicerProfileData "default_filament_colour"
        DuringPrintExhaustFanSpeed := assignKVParam slicerProfileData "during_print_exhaust_fan_speed"
        EnableOverhangBridgeFan := assignKVParam slicerProfileData "enable_overhang_bridge_fan"
        EnablePressureAdvance := assignKVParam slicerProfileData "enable_pressure_advance"
        EnableSpecialAreaAdditionalCoolingFan := assignKVParam slicerProfileData "enable_special_area_additional_cooling_fan"
        EngPlateTemp := assignKVParam slicerProfileData "eng_plate_temp"
        EngPlateTempInitialLayer := assignKVParam slicerProfileData "eng_plate_temp_initial_layer"
        EpoxyResinPlateTemp := assignKVParam slicerProfileData "epoxy_resin_plate_temp"
        EpoxyResinPlateTempInitialLayer := assignKVParam slicerProfileData "epoxy_resin_plate_initial_layer"
        FanCoolingLayerTime := assignKVParam slicerProfileData "fan_cooling_layer_time"
        FanMaxSpeed := assignKVParam slicerProfileData "fan_max_speed"
        FanMinSpeed := assignKVParam slicerProfileData "fan_min_speed"
        FilamentCoolingFinalSpeed := assignKVParam slicerProfileData "filament_cooling_final_speed"
        FilamentCoolingInitialSpeed := assignKVParam slicerProfileData "filament_cooling_initial_initial"
        FilamentCoolingMoves := assignKVParam slicerProfileData "filament_cooling_moves"
        FilamentCost := assignKVParam slicerProfileData "filament_cost"
        FilamentDensity := assignKVParam slicerProfileData "filament_density"
        FilamentDeretractionSpeed := assignKVParam slicerProfileData "filament_deretraction_speed"
        FilamentDiameter := assignKVParam slicerProfileData "filament_diameter"
        FilamentEndGcode := assignKVParam slicerProfileData "filament_end_gcode"
        FilamentFlowRatio := assignKVParam slicerProfileData "filament_flow_ratio"
        FilamentIsSupport := assignKVParam slicerProfileData "filament_is_support"
        FilamentLoadTime := assignKVParam slicerProfileData "filament_load_time"
        FilamentLoadingSpeed := assignKVParam slicerProfileData "filament_loading_speed"
        FilamentLoadingSpeedStart := assignKVParam slicerProfileData "filament_loading_speed_start"
        FilamentMaxVolumetricSpeed := assignKVParam slicerProfileData "filament_max_volumetric_speed"
        FilamentMinimalPurgeOnWipeTower := assignKVParam slicerProfileData "filament_minimal_purge_on_wipe_tower"
        FilamentMultitoolRamming := assignKVParam slicerProfileData "filament_multitool_ramming"
        FilamentMultitoolRammingFlow := assignKVParam slicerProfileData "filament_multitool_ramming_flow"
        FilamentMultitoolRammingVolume := assignKVParam slicerProfileData "filament_multitool_ramming_volume"
        FilamentNotes := quotedNotes
        FilamentRammingParameters := assignKVParam slicerProfileData "filament_ramming_parameters"
        FilamentRetractBeforeWipe := assignKVParam slicerProfileData "filament_retract_before_wipe"
        FilamentRetractLiftAbove := assignKVParam slicerProfileData "filament_retract_lift_above"
        FilamentRetractLiftBelow := assignKVParam slicerProfileData "filament_retract_lift_below"
        FilamentRetractLiftEnforce := assignKVParam slicerProfileData "filament_retract_lift_enforce"
        FilamentRetractRestartExtra := assignKVParam slicerProfileData "filament_retract_restart_extra"
        FilamentRetractWhenChangingLayer := assignKVParam slicerProfileData "filament_retract_when_changing_layer"
        FilamentRetractionLength := assignKVParam slicerProfileData "filament_retraction_length"
        FilamentRetractionMinimumTravel := assignKVParam slicerProfileData "filament_retraction_minimum_travel"
        FilamentRetractionSpeed := assignKVParam slicerProfileData "filament_retraction_speed"
        FilamentShrink := assignKVParam slicerProfileData "filament_shrink"
        FilamentShrinkageCompensationZ := assignKVParam slicerProfileData "filament_shrinkage_compensation_z"
        FilamentSoluble := assignKVParam slicerProfileData "filament_soluble"
        FilamentStartGcode := assignKVParam slicerProfileData "filament_start_gcode"
        FilamentToolchangeDelay := assignKVParam slicerProfileData "filament_toolchange_delay"
        FilamentType :=
          if notes.Type_ ≠ "" then notes.Type_
          else assignKVParam slicerProfileData "filament_type"
        FilamentUnloadTime := assignKVParam slicerProfileData "filament_unload_time"
        FilamentUnloadingSpeed := assignKVParam slicerProfileData "filament_unloading_speed"
        FilamentUnloadingSpeedStart := assignKVParam slicerProfileData "filament_unloading_speed_start"
        FilamentVendor :=
          if notes.Vendor ≠ "" then notes.Vendor
          else assignKVParam slicerProfileData "filament_vendor"
        FilamentWipe := assignKVParam slicerProfileData "filament_wipe"
        FilamentWipeDistance := assignKVParam slicerProfileData "filament_wipe_distance"
        FilamentZHop := assignKVParam slicerProfileData "filament_z_hop"
        FilamentZHopTypes := assignKVParam slicerProfileData "filament_z_hop_types"
        FullFanSpeedLayer := assignKVParam slicerProfileData "full_fan_speed_layer"
        HotPlateTemp := assignKVParam slicerProfileData "hot_plate_temp"
        HotPlateTempInitialLayer := assignKVParam slicerProfileData "hot_plate_temp_initial_layer"
        Inherits := assignKVParam slicerProfileData "inherits"
        MaterialFlowDependentTemperature := assignKVParam slicerProfileData "material_flow_dependent_temperature"
        MaterialFlowTempGraph := assignKVParam slicerProfileData "material_flow_temp_graph"
        NozzleTemperature := assignKVParam slicerProfileData "nozzle_temperature"
        NozzleTemperatureInitialLayer := assignKVParam slicerProfileData "nozzle_temperature_initial_layer"
        NozzleTemperatureRangeHigh := assignKVParam slicerProfileData "nozzle_temperature_range_high"
        NozzleTemperatureRangeLow := assignKVParam slicerProfileData "nozzle_temperature_range_low"
        OverhangFanSpeed := assignKVParam slicerProfileData "overhang_fan_speed"
        OverhangFanThreshold := assignKVParam slicerProfileData "overhang_fan_threshold"
        PressureAdvance := assignKVParam slicerProfileData "pressure_advance"
        ReduceFanStopStartFreq := assignKVParam slicerProfileData "reduce_fan_stop_start_freq"
        RequiredNozzleHRC := assignKVParam slicerProfileData "required_nozzle_HRC"
        SlowDownForLayerCooling := assignKVParam slicerProfileData "slow_down_for_layer_cooling"
        WarmupStartLayer := assignKVParam slicerProfileData "warmup_start_layer"
        SlowDownLayerTime := assignKVParam slicerProfileData "slow_down_layer_time"
        SlowDownMinSpeed := assignKVParam slicerProfileData "slow_down_min_speed"
        SupportMaterialInterfaceFanSpeed := assignKVParam slicerProfileData "support_material_interface_fan_speed"
        TemperatureVitrification := assignKVParam slicerProfileData "temperature_vitrification"
        TexturedPlateTemp := assignKVParam slicerProfileData "textured_plate_temp"
        TexturedPlateTempInitialLayer := assignKVParam slicerProfileData "textured_plate_temp_initial_layer"
      }
      Base := {
        ID := notes.ID
        Brand := notes.Vendor
        Name := notes.Name
        MaterialType := notes.Type_
        Colors := ["#ffffff"]
        Diameter := assignKVParam slicerProfileData "filament_diameter"
        IsSoluble := decide (assignKVParam slicerProfileData "filament_soluble" = "1")
        IsSupport := decide (assignKVParam slicerProfileData "filament_is_support" = "1")
        Density :=
          match lib.ParseFloat (assignKVParam slicerProfileData "filament_density") with
          | some density => density
          | none => {}
        CostPerMeter := atoiOrZero (assignKVParam slicerProfileData "filament_cost")
        MinTemp := atoiOrZero (assignKVParam slicerProfileData "nozzle_temperature_range_low")
        MaxTemp := atoiOrZero (assignKVParam slicerProfileData "nozzle_temperature_range_high")
        ShrinkageRate :=
          atoiOrZero (TrimSuffix (assignKVParam slicerProfileData "filament_shrink") "%")
        SofteningTemp :=
          atoiOrZero (assignKVParam slicerProfileData "temperature_vitrification")
        DryingTemp := atoiOrZero (assignKVParam slicerProfileData "hot_plate_temp")
        DryingTime := atoiOrZero (assignKVParam slicerProfileData "slow_down_layer_time")
      }
    }

/-! ## The per-profile step of `main` -/

/-- One round of the loop over `slicerProfilePaths` in `main` (cli/main.go,
lines 89-113) on the two in-memory stores. `readResult` is what
`ReadSlicerProfile(path)` returned (`none` for a read error) and
`currentTimestamp` the formatted `time.Now().Unix()`. Each of the three error
tests ends the round with `continue`. The result is the two stores after
the round, or `none` when `UpdateOptions` panics. -/
def processProfile (lib : StdLib) (currentTimestamp : String)
    (materialDB : MaterialDatabase) (materialOptions : MaterialOptions)
    (readResult : Option SlicerFilamentProfile) :
    Option (MaterialDatabase × MaterialOptions) :=
  match readResult with
  | none => some (materialDB, materialOptions)
  | some slicerProfile =>
    match NormalizeSlicerProfile lib slicerProfile with
    | none => some (materialDB, materialOptions)
    | some (normalizedData, filamentNotes) =>
      match ConvertToCrealityFormat lib normalizedData filamentNotes with
      | none => some (materialDB, materialOptions)
      | some crealityEntry =>
        match UpdateOptions materialOptions filamentNotes with
        | none => none
        | some options =>
          some (AddProfileToDatabase materialDB crealityEntry currentTimestamp, options)

/-! ## Vocabulary for the properties -/

/-- The identifiers of a list of entries, in list order. -/
def entryIDs (l : List FilamentProfileEntry) : List String :=
  l.map (fun e => e.Base.ID)

/-- A sequence of merges applied to a database, first to last, as the
per-profile loop of `main` does. -/
def mergeAll (db : MaterialDatabase) (merges : List (FilamentProfileEntry × String)) :
    MaterialDatabase :=
  merges.foldl (fun d m => AddProfileToDatabase d m.1 m.2) db

/-- The vendor key `UpdateOptions` files a block under: `notes.Vendor`, or
`"Generic"` when that is empty. -/
def vendorKey (notes : FilamentNotes) : String :=
  if notes.Vendor = "" then "Generic" else notes.Vendor

/-- The type key `UpdateOptions` files a block under: `notes.Type`, or `"PLA"`
when that is empty. -/
def typeKey (notes : FilamentNotes) : String :=
  if notes.Type_ = "" then "PLA" else notes.Type_

/-- The name `UpdateOptions` inserts: `notes.Name`, or `"Custom Filament"` when
that is empty. -/
def displayName (notes : FilamentNotes) : String :=
  if notes.Name = "" then "Custom Filament" else notes.Name

/-- The read `options[vendor][filamentType]` in its two-value form: the
newline-joined names stored under the pair, `none` when there are none (reads
of a nil map find nothing). -/
def namesAt (options : MaterialOptions) (vendor filamentType : String) : Option String :=
  match options with
  | none => none
  | some opts =>
    match mapGet opts vendor with
    | some (some inner) => mapGet inner filamentType
    | _ => none

/-- The newline-separated names stored under a pair; no names when nothing is
stored. -/
def nameList (options : MaterialOptions) (vendor filamentType : String) : List String :=
  match namesAt options vendor filamentType with
  | none => []
  | some s => Split s

/-- The uniqueness invariant of the option index: under every (vendor, type)
pair the newline-separated names are pairwise distinct. -/
def UniqueNames (options : MaterialOptions) : Prop :=
  ∀ vendor filamentType : String, (nameList options vendor filamentType).Nodup

/-- Whether the index binds `vendor` to a nil inner map, the one situation in
which `UpdateOptions` panics for that vendor. -/
def hasNilTypeMap (options : MaterialOptions) (vendor : String) : Bool :=
  match options with
  | none => false
  | some opts => decide (mapGet opts vendor = some none)

/-- The string `UpdateOptions` leaves under the addressed pair, from what was
there before and the inserted name. -/
def joinedWith (before : Option String) (name : String) : String :=
  match before with
  | none => name
  | some s => if name ∈ Split s then s else s ++ "\n" ++ name

/-- The block `UpdateOptions` works with: each empty field of `notes` replaced
by its default string. -/
def withDefaults (notes : FilamentNotes) : FilamentNotes :=
  { notes with
    Vendor := if notes.Vendor = "" then "Generic" else notes.Vendor
    Type_ := if notes.Type_ = "" then "PLA" else notes.Type_
    Name := if notes.Name = "" then "Custom Filament" else notes.Name }

/-- The keys `NormalizeSlicerProfile` writes after the loop with the fields of
the parsed notes. -/
def notesKeys : List String :=
  ["filament_notes.id", "filament_notes.vendor", "filament_notes.type",
   "filament_notes.name"]

/-- The keys the loop of `NormalizeSlicerProfile` skips. -/
def reservedKeys : List String := ["name", "version", "filament_notes"]

/-- The parameter fields `ConvertToCrealityFormat` fills by lookup, each with
the source key of its `assignKVParam` call (lines 236-327, without
`FilamentNotes`, `FilamentType` and `FilamentVendor`). -/
def kvParamSourceKeys : List ((KVParam → String) × String) :=
  [
    (fun kv => KVParam.ActivateAirFiltration kv, "activate_air_filtration"),
    (fun kv => KVParam.ActivateChamberTempControl kv, "activate_chamber_temp_control"),
    (fun kv => KVParam.AdditionalCoolingFanSpeed kv, "additional_cooling_fan_speed"),
    (fun kv => KVParam.ChamberTemperature kv, "chamber_temperature"),
    (fun kv => KVParam.CloseFanTheFirstXLayers kv, "close_fan_the_first_x_layers"),
    (fun kv => KVParam.CompatiblePrinters kv, "compatible_printers"),
    (fun kv => KVParam.CompatiblePrintersCondition kv, "compatible_printers_condition"),
    (fun kv => KVParam.CompatiblePrints kv, "compatible_prints"),
    (fun kv => KVParam.CompatiblePrintsCondition kv, "compatible_prints_condition"),
    (fun kv => KVParam.CompletePrintExhaustFanSpeed kv, "complete_print_exhaust_fan_speed"),
    (fun kv => KVParam.CoolCdsFanStartAtHeight kv, "cool_cds_fan_start_at_height"),
    (fun kv => KVParam.CoolPlateTemp kv, "cool_plate_temp"),
    (fun kv => KVParam.CoolPlateTempInitialLayer kv, "cool_plate_temp_initial_layer"),
    (fun kv => KVParam.CoolSpecialCdsFanSpeed kv, "cool_special_cds_fan_speed"),
    (fun kv => KVParam.DefaultFilamentColour kv, "default_filament_colour"),
    (fun kv => KVParam.DuringPrintExhaustFanSpeed kv, "during_print_exhaust_fan_speed"),
    (fun kv => KVParam.EnableOverhangBridgeFan kv, "enable_overhang_bridge_fan"),
    (fun kv => KVParam.EnablePressureAdvance kv, "enable_pressure_advance"),
    (fun kv => KVParam.EnableSpecialAreaAdditionalCoolingFan kv, "enable_special_area_additional_cooling_fan"),
    (fun kv => KVParam.EngPlateTemp kv, "eng_plate_temp"),
    (fun kv => KVParam.EngPlateTempInitialLayer kv, "eng_plate_temp_initial_layer"),
    (fun kv => KVParam.EpoxyResinPlateTemp kv, "epoxy_resin_plate_temp"),
    (fun kv => KVParam.EpoxyResinPlateTempInitialLayer kv, "epoxy_resin_plate_initial_layer"),
    (fun kv => KVParam.FanCoolingLayerTime kv, "fan_cooling_layer_time"),
    (fun kv => KVParam.FanMaxSpeed kv, "fan_max_speed"),
    (fun kv => KVParam.FanMinSpeed kv, "fan_min_speed"),
    (fun kv => KVParam.FilamentCoolingFinalSpeed kv, "filament_cooling_final_speed"),
    (fun kv => KVParam.FilamentCoolingInitialSpeed kv, "filament_cooling_initial_initial"),
    (fun kv => KVParam.FilamentCoolingMoves kv, "filament_cooling_moves"),
    (fun kv => KVParam.FilamentCost kv, "filament_cost"),
    (fun kv => KVParam.FilamentDensity kv, "filament_density"),
    (fun kv => KVParam.FilamentDeretractionSpeed kv, "filament_deretraction_speed"),
    (fun kv => KVParam.FilamentDiameter kv, "filament_diameter"),
    (fun kv => KVParam.FilamentEndGcode kv, "filament_end_gcode"),
    (fun kv => KVParam.FilamentFlowRatio kv, "filament_flow_ratio"),
    (fun kv => KVParam.FilamentIsSupport kv, "filament_is_support"),
    (fun kv => KVParam.FilamentLoadTime kv, "filament_load_time"),
    (fun kv => KVParam.FilamentLoadingSpeed kv, "filament_loading_speed"),
    (fun kv => KVParam.FilamentLoadingSpeedStart kv, "filament_loading_speed_start"),
    (fun kv => KVParam.FilamentMaxVolumetricSpeed kv, "filament_max_volumetric_speed"),
    (fun kv => KVParam.FilamentMinimalPurgeOnWipeTower kv, "filament_minimal_purge_on_wipe_tower"),
    (fun kv => KVParam.FilamentMultitoolRamming kv, "filament_multitool_ramming"),
    (fun kv => KVParam.FilamentMultitoolRammingFlow kv, "filament_multitool_ramming_flow"),
    (fun kv => KVParam.FilamentMultitoolRammingVolume kv, "filament_multitool_ramming_volume"),
    (fun kv => KVParam.FilamentRammingParameters kv, "filament_ramming_parameters"),
    (fun kv => KVParam.FilamentRetractBeforeWipe kv, "filament_retract_before_wipe"),
    (fun kv => KVParam.FilamentRetractLiftAbove kv, "filament_retract_lift_above"),
    (fun kv => KVParam.FilamentRetractLiftBelow kv, "filament_retract_lift_below"),
    (fun kv => KVParam.FilamentRetractLiftEnforce kv, "filament_retract_lift_enforce"),
    (fun kv => KVParam.FilamentRetractRestartExtra kv, "filament_retract_restart_extra"),
    (fun kv => KVParam.FilamentRetractWhenChangingLayer kv, "filament_retract_when_changing_layer"),
    (fun kv => KVParam.FilamentRetractionLength kv, "filament_retraction_length"),
    (fun kv => KVParam.FilamentRetractionMinimumTravel kv, "filament_retraction_minimum_travel"),
    (fun kv => KVParam.FilamentRetractionSpeed kv, "filament_retraction_speed"),
    (fun kv => KVParam.FilamentShrink kv, "filament_shrink"),
    (fun kv => KVParam.FilamentShrinkageCompensationZ kv, "filament_shrinkage_compensation_z"),
    (fun kv => KVParam.FilamentSoluble kv, "filament_soluble"),
    (fun kv => KVParam.FilamentStartGcode kv, "filament_start_gcode"),
    (fun kv => KVParam.FilamentToolchangeDelay kv, "filament_toolchange_delay"),
    (fun kv => KVParam.FilamentUnloadTime kv, "filament_unload_time"),
    (fun kv => KVParam.FilamentUnloadingSpeed kv, "filament_unloading_speed"),
    (fun kv => KVParam.FilamentUnloadingSpeedStart kv, "filament_unloading_speed_start"),
    (fun kv => KVParam.FilamentWipe kv, "filament_wipe"),
    (fun kv => KVParam.FilamentWipeDistance kv, "filament_wipe_distance"),
    (fun kv => KVParam.FilamentZHop kv, "filament_z_hop"),
    (fun kv => KVParam.FilamentZHopTypes kv, "filament_z_hop_types"),
    (fun kv => KVParam.FullFanSpeedLayer kv, "full_fan_speed_layer"),
    (fun kv => KVParam.HotPlateTemp kv, "hot_plate_temp"),
    (fun kv => KVParam.HotPlateTempInitialLayer kv, "hot_plate_temp_initial_layer"),
    (fun kv => KVParam.Inherits kv, "inherits"),
    (fun kv => KVParam.MaterialFlowDependentTemperature kv, "material_flow_dependent_temperature"),
    (fun kv => KVParam.MaterialFlowTempGraph kv, "material_flow_temp_graph"),
    (fun kv => KVParam.NozzleTemperature kv, "nozzle_temperature"),
    (fun kv => KVParam.NozzleTemperatureInitialLayer kv, "nozzle_temperature_initial_layer"),
    (fun kv => KVParam.NozzleTemperatureRangeHigh kv, "nozzle_temperature_range_high"),
    (fun kv => KVParam.NozzleTemperatureRangeLow kv, "nozzle_temperature_range_low"),
    (fun kv => KVParam.OverhangFanSpeed kv, "overhang_fan_speed"),
    (fun kv => KVParam.OverhangFanThreshold kv, "overhang_fan_threshold"),
    (fun kv => KVParam.PressureAdvance kv, "pressure_advance"),
    (fun kv => KVParam.ReduceFanStopStartFreq kv, "reduce_fan_stop_start_freq"),
    (fun kv => KVParam.RequiredNozzleHRC kv, "required_nozzle_HRC"),
    (fun kv => KVParam.SlowDownForLayerCooling kv, "slow_down_for_layer_cooling"),
    (fun kv => KVParam.WarmupStartLayer kv, "warmup_start_layer"),
    (fun kv => KVParam.SlowDownLayerTime kv, "slow_down_layer_time"),
    (fun kv => KVParam.SlowDownMinSpeed kv, "slow_down_min_speed"),
    (fun kv => KVParam.SupportMaterialInterfaceFanSpeed kv, "support_material_interface_fan_speed"),
    (fun kv => KVParam.TemperatureVitrification kv, "temperature_vitrification"),
    (fun kv => KVParam.TexturedPlateTemp kv, "textured_plate_temp"),
    (fun kv => KVParam.TexturedPlateTempInitialLayer kv, "textured_plate_temp_initial_layer")
  ]

/-- A library for concrete examples. It answers as Go does on the inputs the
examples use: it decodes three small notes documents, serializes a block
whose fields need no escaping, quotes a text whose only characters in need of
escaping are double quotes, and reads and prints the floats `0` and `1.24`. -/
def exampleLib : StdLib where
  formatFloat := fun f =>
    if f.bits = 0 then "0" else if f.bits = 4608263282710586327 then "1.24" else ""
  jsonUnmarshalNotes := fun s =>
    if s = "\x7b\"id\":\"F1\"\x7d" then some { ID := "F1" }
    else if s = "\x7b\"vendor\":\"Acme\"\x7d" then some { Vendor := "Acme" }
    else if s = "\x7b\"id\":\"F1\",\"vendor\":\"Acme\",\"type\":\"PLA\",\"name\":\"RedPLA\"\x7d"
      then some { ID := "F1", Vendor := "Acme", Type_ := "PLA", Name := "RedPLA" }
    else none
  jsonMarshalNotes := fun notes =>
    some ("\x7b\"id\":\"" ++ notes.ID ++ "\",\"vendor\":\"" ++ notes.Vendor
      ++ "\",\"type\":\"" ++ notes.Type_ ++ "\",\"name\":\"" ++ notes.Name ++ "\"\x7d")
  Quote := fun s => "\"" ++ s.replace "\"" "\\\"" ++ "\""
  ParseFloat := fun s =>
    if s = "0" then some { bits := 0 }
    else if s = "1.24" then some { bits := 4608263282710586327 }
    else none

/-- Whether a text is a decimal integer: an optional sign followed by one or
more ASCII digits. -/
def isDecimalInteger (s : String) : Bool :=
  match s.data with
  | [] => false
  | c :: rest =>
    if c = '+' ∨ c = '-' then
      decide (rest ≠ []) && rest.all (fun d => decide ('0' ≤ d ∧ d ≤ '9'))
    else
      (c :: rest).all (fun d => decide ('0' ≤ d ∧ d ≤ '9'))

/-- The fields of `KVParam` with the names of their `json` struct tags, in the
order of the declaration (creality.go, lines 36-127). -/
def kvParamJSONNames : List ((KVParam → String) × String) :=
  [
    (fun kv => KVParam.ActivateAirFiltration kv, "activate_air_filtration"),
    (fun kv => KVParam.ActivateChamberTempControl kv, "activate_chamber_temp_control"),
    (fun kv => KVParam.AdditionalCoolingFanSpeed kv, "additional_cooling_fan_speed"),
    (fun kv => KVParam.ChamberTemperature kv, "chamber_temperature"),
    (fun kv => KVParam.CloseFanTheFirstXLayers kv, "close_fan_the_first_x_layers"),
    (fun kv => KVParam.CompatiblePrinters kv, "compatible_printers"),
    (fun kv => KVParam.CompatiblePrintersCondition kv, "compatible_printers_condition"),
    (fun kv => KVParam.CompatiblePrints kv, "compatible_prints"),
    (fun kv => KVParam.CompatiblePrintsCondition kv, "compatible_prints_condition"),
    (fun kv => KVParam.CompletePrintExhaustFanSpeed kv, "complete_print_exhaust_fan_speed"),
    (fun kv => KVParam.CoolCdsFanStartAtHeight kv, "cool_cds_fan_start_at_height"),
    (fun kv => KVParam.CoolPlateTemp kv, "cool_plate_temp"),
    (fun kv => KVParam.CoolPlateTempInitialLayer kv, "cool_plate_temp_initial_layer"),
    (fun kv => KVParam.CoolSpecialCdsFanSpeed kv, "cool_special_cds_fan_speed"),
    (fun kv => KVParam.DefaultFilamentColour kv, "default_filament_colour"),
    (fun kv => KVParam.DuringPrintExhaustFanSpeed kv, "during_print_exhaust_fan_speed"),
    (fun kv => KVParam.EnableOverhangBridgeFan kv, "enable_overhang_bridge_fan"),
    (fun kv => KVParam.EnablePressureAdvance kv, "enable_pressure_advance"),
    (fun kv => KVParam.EnableSpecialAreaAdditionalCoolingFan kv, "enable_special_area_additional_cooling_fan"),
    (fun kv => KVParam.EngPlateTemp kv, "eng_plate_temp"),
    (fun kv => KVParam.EngPlateTempInitialLayer kv, "eng_plate_temp_initial_layer"),
    (fun kv => KVParam.EpoxyResinPlateTemp kv, "epoxy_resin_plate_temp"),
    (fun kv => KVParam.EpoxyResinPlateTempInitialLayer kv, "epoxy_resin_plate_initial_layer"),
    (fun kv => KVParam.FanCoolingLayerTime kv, "fan_cooling_layer_time"),
    (fun kv => KVParam.FanMaxSpeed kv, "fan_max_speed"),
    (fun kv => KVParam.FanMinSpeed kv, "fan_min_speed"),
    (fun kv => KVParam.FilamentCoolingFinalSpeed kv, "filament_cooling_final_speed"),
    (fun kv => KVParam.FilamentCoolingInitialSpeed kv, "filament_cooling_initial_initial"),
    (fun kv => KVParam.FilamentCoolingMoves kv, "filament_cooling_moves"),
    (fun kv => KVParam.FilamentCost kv, "filament_cost"),
    (fun kv => KVParam.FilamentDensity kv, "filament_density"),
    (fun kv => KVParam.FilamentDeretractionSpeed kv, "filament_deretraction_speed"),
    (fun kv => KVParam.FilamentDiameter kv, "filament_diameter"),
    (fun kv => KVParam.FilamentEndGcode kv, "filament_end_gcode"),
    (fun kv => KVParam.FilamentFlowRatio kv, "filament_flow_ratio"),
    (fun kv => KVParam.FilamentIsSupport kv, "filament_is_support"),
    (fun kv => KVParam.FilamentLoadTime kv, "filament_load_time"),
    (fun kv => KVParam.FilamentLoadingSpeed kv, "filament_loading_speed"),
    (fun kv => KVParam.FilamentLoadingSpeedStart kv, "filament_loading_speed_start"),
    (fun kv => KVParam.FilamentMaxVolumetricSpeed kv, "filament_max_volumetric_speed"),
    (fun kv => KVParam.FilamentMinimalPurgeOnWipeTower kv, "filament_minimal_purge_on_wipe_tower"),
    (fun kv => KVParam.FilamentMultitoolRamming kv, "filament_multitool_ramming"),
    (fun kv => KVParam.FilamentMultitoolRammingFlow kv, "filament_multitool_ramming_flow"),
    (fun kv => KVParam.FilamentMultitoolRammingVolume kv, "filament_multitool_ramming_volume"),
    (fun kv => KVParam.FilamentNotes kv, "filament_notes"),
    (fun kv => KVParam.FilamentRammingParameters kv, "filament_ramming_parameters"),
    (fun kv => KVParam.FilamentRetractBeforeWipe kv, "filament_retract_before_wipe"),
    (fun kv => KVParam.FilamentRetractLiftAbove kv, "filament_retract_lift_above"),
    (fun kv => KVParam.FilamentRetractLiftBelow kv, "filament_retract_lift_below"),
    (fun kv => KVParam.FilamentRetractLiftEnforce kv, "filament_retract_lift_enforce"),
    (fun kv => KVParam.FilamentRetractRestartExtra kv, "filament_retract_restart_extra"),
    (fun kv => KVParam.FilamentRetractWhenChangingLayer kv, "filament_retract_when_changing_layer"),
    (fun kv => KVParam.FilamentRetractionLength kv, "filament_retraction_length"),
    (fun kv => KVParam.FilamentRetractionMinimumTravel kv, "filament_retraction_minimum_travel"),
    (fun kv => KVParam.FilamentRetractionSpeed kv, "filament_retraction_speed"),
    (fun kv => KVParam.FilamentShrink kv, "filament_shrink"),
    (fun kv => KVParam.FilamentShrinkageCompensationZ kv, "filament_shrinkage_compensation_z"),
    (fun kv => KVParam.FilamentSoluble kv, "filament_soluble"),
    (fun kv => KVParam.FilamentStartGcode kv, "filament_start_gcode"),
    (fun kv => KVParam.FilamentToolchangeDelay kv, "filament_toolchange_delay"),
    (fun kv => KVParam.FilamentType kv, "filament_type"),
    (fun kv => KVParam.FilamentUnloadTime kv, "filament_unload_time"),
    (fun kv => KVParam.FilamentUnloadingSpeed kv, "filament_unloading_speed"),
    (fun kv => KVParam.FilamentUnloadingSpeedStart kv, "filament_unloading_speed_start"),
    (fun kv => KVParam.FilamentVendor kv, "filament_vendor"),
    (fun kv => KVParam.FilamentWipe kv, "filament_wipe"),
    (fun kv => KVParam.FilamentWipeDistance kv, "filament_wipe_distance"),
    (fun kv => KVParam.FilamentZHop kv, "filament_z_hop"),
    (fun kv => KVParam.FilamentZHopTypes kv, "filament_z_hop_types"),
    (fun kv => KVParam.FullFanSpeedLayer kv, "full_fan_speed_layer"),
    (fun kv => KVParam.HotPlateTemp kv, "hot_plate_temp"),
    (fun kv => KVParam.HotPlateTempInitialLayer kv, "hot_plate_temp_initial_layer"),
    (fun kv => KVParam.Inherits kv, "inherits"),
    (fun kv => KVParam.MaterialFlowDependentTemperature kv, "material_flow_dependent_temperature"),
    (fun kv => KVParam.MaterialFlowTempGraph kv, "material_flow_temp_graph"),
    (fun kv => KVParam.NozzleTemperature kv, "nozzle_temperature"),
    (fun kv => KVParam.NozzleTemperatureInitialLayer kv, "nozzle_temperature_initial_layer"),
    (fun kv => KVParam.NozzleTemperatureRangeHigh kv, "nozzle_temperature_range_high"),
    (fun kv => KVParam.NozzleTemperatureRangeLow kv, "nozzle_temperature_range_low"),
    (fun kv => KVParam.OverhangFanSpeed kv, "overhang_fan_speed"),
    (fun kv => KVParam.OverhangFanThreshold kv, "overhang_fan_threshold"),
    (fun kv => KVParam.PressureAdvance kv, "pressure_advance"),
    (fun kv => KVParam.ReduceFanStopStartFreq kv, "reduce_fan_stop_start_freq"),
    (fun kv => KVParam.RequiredNozzleHRC kv, "required_nozzle_HRC"),
    (fun kv => KVParam.SlowDownForLayerCooling kv, "slow_down_for_layer_cooling"),
    (fun kv => KVParam.WarmupStartLayer kv, "warmup_start_layer"),
    (fun kv => KVParam.SlowDownLayerTime kv, "slow_down_layer_time"),
    (fun kv => KVParam.SlowDownMinSpeed kv, "slow_down_min_speed"),
    (fun kv => KVParam.SupportMaterialInterfaceFanSpeed kv, "support_material_interface_fan_speed"),
    (fun kv => KVParam.TemperatureVitrification kv, "temperature_vitrification"),
    (fun kv => KVParam.TexturedPlateTemp kv, "textured_plate_temp"),
    (fun kv => KVParam.TexturedPlateTempInitialLayer kv, "textured_plate_temp_initial_layer")
  ]

/-- The three parameter fields `ConvertToCrealityFormat` does not leave to the
lookup alone, by JSON name. -/
def overriddenNames : List String :=
  ["filament_notes", "filament_type", "filament_vendor"]

/-! ## Models of `encoding/json` and `strconv.Quote`

The serialization of a notes block, its quoting, and the two inverse
readings. They are written after the documented behaviour of the Go library
(Go 1.22 and later), on valid UTF-8 text. `goLib` packs them into a `StdLib`;
the float functions and `unicode.IsPrint` beyond Latin-1 stay parameters. -/

/-- The value of a hexadecimal digit, `none` for any other character. -/
def hexValue (c : Char) : Option Nat :=
  if '0' ≤ c ∧ c ≤ '9' then some (c.toNat - '0'.toNat)
  else if 'a' ≤ c ∧ c ≤ 'f' then some (c.toNat - 'a'.toNat + 10)
  else if 'A' ≤ c ∧ c ≤ 'F' then some (c.toNat - 'A'.toNat + 10)
  else none

/-- The value of a run of hexadecimal digits read from the left with
accumulator `acc`; `none` at a character that is no hexadecimal digit. -/
def hexRun (acc : Nat) : List Char → Option Nat
  | [] => some acc
  | c :: cs =>
    match hexValue c with
    | some d => hexRun (acc * 16 + d) cs
    | none => none

/-- The `width` lower-case hexadecimal digits of `n`, most significant
first. -/
def hexDigits : Nat → Nat → List Char
  | 0, _ => []
  | width + 1, n => hexDigits width (n / 16) ++ [Nat.digitChar (n % 16)]

/-- Modelled from the spec: the text `encoding/json` writes for one character
of a string (`appendString` with HTML escaping, which `json.Marshal` uses; the
library is not part of the sources). The quote and the backslash get a
backslash; backspace, form feed, newline, carriage return and tab their
short forms; the other characters below U+0020 and `<`, `>`, `&` the form
`\u00XX`; U+2028 and U+2029 the form `\u202X`; every other character stands
for itself. -/
def jsonEscapeChar (c : Char) : List Char :=
  if c = '"' then ['\\', '"']
  else if c = '\\' then ['\\', '\\']
  else if c = Char.ofNat 8 then ['\\', 'b']
  else if c = Char.ofNat 12 then ['\\', 'f']
  else if c = '\n' then ['\\', 'n']
  else if c = '\r' then ['\\', 'r']
  else if c = '\t' then ['\\', 't']
  else if c.toNat < 32 ∨ c = '<' ∨ c = '>' ∨ c = '&' then
    '\\' :: 'u' :: hexDigits 4 c.toNat
  else if c = Char.ofNat 8232 ∨ c = Char.ofNat 8233 then
    '\\' :: 'u' :: hexDigits 4 c.toNat
  else [c]

/-- Modelled from the spec: the JSON string literal `encoding/json` writes for
a Go string: the escaped characters between double quotes. -/
def jsonQuoteChars (cs : List Char) : List Char :=
  '"' :: (cs.flatMap jsonEscapeChar ++ ['"'])

/-- Modelled from the spec: Go `json.Marshal(notes)` for a `FilamentNotes`
(the library is not part of the sources): the object with the members `id`,
`vendor`, `type`, `name`, in the order of the struct fields, without
spaces. It returns no error for this type. -/
def goMarshalNotes (notes : FilamentNotes) : String :=
  String.mk ("\x7b\"id\":".data ++ jsonQuoteChars notes.ID.data
    ++ ",\"vendor\":".data ++ jsonQuoteChars notes.Vendor.data
    ++ ",\"type\":".data ++ jsonQuoteChars notes.Type_.data
    ++ ",\"name\":".data ++ jsonQuoteChars notes.Name.data ++ "\x7d".data)

/-- Go `unicode.IsPrint` up to U+00FF, where it is given by ranges; beyond, the
parameter `isPrint`. -/
def goIsPrint (isPrint : Char → Bool) (c : Char) : Bool :=
  if c.toNat ≤ 255 then
    (decide (32 ≤ c.toNat) && decide (c.toNat < 127))
      || (decide (161 ≤ c.toNat) && decide (c.toNat ≠ 173))
  else isPrint c

/-- Modelled from the spec: the text `strconv.Quote` writes for one character
(`appendEscapedRune` with the double quote; the library is not part of the
sources). -/
def goQuoteChar (isPrint : Char → Bool) (c : Char) : List Char :=
  if c = '"' ∨ c = '\\' then ['\\', c]
  else if goIsPrint isPrint c = true then [c]
  else if c = Char.ofNat 7 then ['\\', 'a']
  else if c = Char.ofNat 8 then ['\\', 'b']
  else if c = Char.ofNat 12 then ['\\', 'f']
  else if c = '\n' then ['\\', 'n']
  else if c = '\r' then ['\\', 'r']
  else if c = '\t' then ['\\', 't']
  else if c = Char.ofNat 11 then ['\\', 'v']
  else if c.toNat < 32 ∨ c.toNat = 127 then '\\' :: 'x' :: hexDigits 2 c.toNat
  else if c.toNat < 65536 then '\\' :: 'u' :: hexDigits 4 c.toNat
  else '\\' :: 'U' :: hexDigits 8 c.toNat

/-- Modelled from the spec: Go `strconv.Quote(s)`: a double-quoted Go string
literal for `s`. -/
def goQuote (isPrint : Char → Bool) (s : String) : String :=
  String.mk ('"' :: (s.data.flatMap (goQuoteChar isPrint) ++ ['"']))

/-- The character with code `n` when `n` is a Unicode scalar value. -/
def scalarChar (n : Nat) : Option Char :=
  if h : n.isValidChar then some (Char.ofNatAux n h) else none

/-- Where the reading of a Go string literal stands: between characters,
right after a backslash, or inside the digits of a `\x`, `\u`, `\U` escape
(`byte` for `\x`) or of an octal escape, with the digits still to come and
the value read so far. -/
inductive UnquoteState where
  | plain : UnquoteState
  | escape : UnquoteState
  | hex (left acc : Nat) (byte : Bool) : UnquoteState
  | octal (left acc : Nat) : UnquoteState

/-- The body of a double-quoted Go string literal read up to the closing
quote (`strconv.UnquoteChar` in a loop): the text it denotes and what follows
the closing quote. `none` for a syntax error, and for a `\x` or octal escape
that denotes a byte above `0x7f`, whose result is not valid UTF-8. -/
def unquoteRun : UnquoteState → List Char → Option (List Char × List Char)
  | _, [] => none
  | .plain, c :: cs =>
    if c = '"' then some ([], cs)
    else if c = '\n' then none
    else if c = '\\' then unquoteRun .escape cs
    else (unquoteRun .plain cs).map (fun p => (c :: p.1, p.2))
  | .escape, e :: cs =>
    if e = 'a' then (unquoteRun .plain cs).map (fun p => (Char.ofNat 7 :: p.1, p.2))
    else if e = 'b' then (unquoteRun .plain cs).map (fun p => (Char.ofNat 8 :: p.1, p.2))
    else if e = 'f' then (unquoteRun .plain cs).map (fun p => (Char.ofNat 12 :: p.1, p.2))
    else if e = 'n' then (unquoteRun .plain cs).map (fun p => ('\n' :: p.1, p.2))
    else if e = 'r' then (unquoteRun .plain cs).map (fun p => ('\r' :: p.1, p.2))
    else if e = 't' then (unquoteRun .plain cs).map (fun p => ('\t' :: p.1, p.2))
    else if e = 'v' then (unquoteRun .plain cs).map (fun p => (Char.ofNat 11 :: p.1, p.2))
    else if e = '\\' then (unquoteRun .plain cs).map (fun p => ('\\' :: p.1, p.2))
    else if e = '"' then (unquoteRun .plain cs).map (fun p => ('"' :: p.1, p.2))
    else if e = 'x' then unquoteRun (.hex 2 0 true) cs
    else if e = 'u' then unquoteRun (.hex 4 0 false) cs
    else if e = 'U' then unquoteRun (.hex 8 0 false) cs
    else if '0' ≤ e ∧ e ≤ '7' then unquoteRun (.octal 2 (e.toNat - 48)) cs
    else none
  | .hex left acc byte, h :: cs =>
    match hexValue h with
    | none => none
    | some d =>
      if left ≤ 1 then
        if byte = true then
          if acc * 16 + d < 128 then
            (unquoteRun .plain cs).map (fun p => (Char.ofNat (acc * 16 + d) :: p.1, p.2))
          else none
        else
          match scalarChar (acc * 16 + d) with
          | some ch => (unquoteRun .plain cs).map (fun p => (ch :: p.1, p.2))
          | none => none
      else unquoteRun (.hex (left - 1) (acc * 16 + d) byte) cs
  | .octal left acc, o :: cs =>
    if '0' ≤ o ∧ o ≤ '7' then
      if left ≤ 1 then
        if acc * 8 + (o.toNat - 48) < 128 then
          (unquoteRun .plain cs).map (fun p =>
            (Char.ofNat (acc * 8 + (o.toNat - 48)) :: p.1, p.2))
        else none
      else unquoteRun (.octal (left - 1) (acc * 8 + (o.toNat - 48))) cs
    else none

/-- Modelled from the spec: Go `strconv.Unquote(s)` on a double-quoted
literal, the form `strconv.Quote` writes (the library is not part of the
sources): the text the literal denotes; `none` when an error is returned.
The back-quoted and single-quoted forms are not modelled and give `none`. -/
def goUnquote (s : String) : Option String :=
  match s.data with
  | [] => none
  | c :: body =>
    if c = '"' then
      match unquoteRun .plain body with
      | some (out, []) => some (String.mk out)
      | _ => none
    else none


/-- The kinds of JSON value the decoder tells apart when it fills a string
field; a string comes with the text it denotes. -/
inductive Scalar where
  | null : Scalar
  | bool : Scalar
  | number : Scalar
  | string (s : String) : Scalar
  | array : Scalar
  | object : Scalar
  deriving DecidableEq, Repr

/-- A scanned JSON value: its kind, and for an object its members in the order
of the text, each with the kind of its value. -/
structure Scanned where
  kind : Scalar
  members : List (String × Scalar) := []
  deriving DecidableEq, Repr

/-- The text without its leading JSON white space (space, tab, carriage
return, newline). -/
def skipSpace : List Char → List Char
  | [] => []
  | c :: cs => if c = ' ' ∨ c = '\t' ∨ c = '\r' ∨ c = '\n' then skipSpace cs else c :: cs

/-- A run of decimal digits at the front of the text: how many there are and
what follows them. -/
def spanDigits : List Char → Nat × List Char
  | [] => (0, [])
  | c :: cs =>
    if '0' ≤ c ∧ c ≤ '9' then ((spanDigits cs).1 + 1, (spanDigits cs).2) else (0, c :: cs)

/-- A JSON number at the front of the text (an optional `-`, then `0` or a run
of digits not starting with `0`, an optional fraction, an optional exponent):
what follows it; `none` when the text does not start with a number. -/
def scanNumber (cs : List Char) : Option (List Char) :=
  let unsigned := match cs with
    | [] => []
    | c :: rest => if c = '-' then rest else c :: rest
  let afterInt : Option (List Char) := match unsigned with
    | [] => none
    | d :: rest =>
      if d = '0' then some rest
      else if '1' ≤ d ∧ d ≤ '9' then some (spanDigits rest).2
      else none
  let afterFrac : Option (List Char) := match afterInt with
    | none => none
    | some [] => some []
    | some (c :: rest) =>
      if c = '.' then
        if (spanDigits rest).1 = 0 then none else some (spanDigits rest).2
      else some (c :: rest)
  match afterFrac with
  | none => none
  | some [] => some []
  | some (c :: rest) =>
    if c = 'e' ∨ c = 'E' then
      let digits := match rest with
        | [] => []
        | s :: rest' => if s = '+' ∨ s = '-' then rest' else s :: rest'
      if (spanDigits digits).1 = 0 then none else some (spanDigits digits).2
    else some (c :: rest)

/-- The body of a JSON string read up to the closing quote, as code units:
a character of the text, or of a short escape, by its code, and the value of
a `\uXXXX` escape marked as such; with what follows the closing quote. A
character below U+0020 or an unknown escape is an error. -/
def scanStringUnits : List Char → Option (List (Bool × Nat) × List Char)
  | [] => none
  | c :: cs =>
    if c = '"' then some ([], cs)
    else if c = '\\' then
      match cs with
      | [] => none
      | e :: r =>
        if e = '"' then (scanStringUnits r).map (fun p => ((false, 34) :: p.1, p.2))
        else if e = '\\' then (scanStringUnits r).map (fun p => ((false, 92) :: p.1, p.2))
        else if e = '/' then (scanStringUnits r).map (fun p => ((false, 47) :: p.1, p.2))
        else if e = 'b' then (scanStringUnits r).map (fun p => ((false, 8) :: p.1, p.2))
        else if e = 'f' then (scanStringUnits r).map (fun p => ((false, 12) :: p.1, p.2))
        else if e = 'n' then (scanStringUnits r).map (fun p => ((false, 10) :: p.1, p.2))
        else if e = 'r' then (scanStringUnits r).map (fun p => ((false, 13) :: p.1, p.2))
        else if e = 't' then (scanStringUnits r).map (fun p => ((false, 9) :: p.1, p.2))
        else if e = 'u' then
          match r with
          | h1 :: h2 :: h3 :: h4 :: r' =>
            match hexRun 0 [h1, h2, h3, h4] with
            | some v => (scanStringUnits r').map (fun p => ((true, v) :: p.1, p.2))
            | none => none
          | _ => none
        else none
    else if c.toNat < 32 then none
    else (scanStringUnits cs).map (fun p => ((false, c.toNat) :: p.1, p.2))

/-- The replacement character for a surrogate escape left without its
partner. -/
def flushSurrogate (pending : Option Nat) : List Char :=
  match pending with
  | some _ => [Char.ofNat 65533]
  | none => []

/-- The characters the code units denote. An escaped high surrogate followed
at once by an escaped low surrogate gives the character of the pair; any
other surrogate escape gives U+FFFD. `pending` is a high surrogate read just
before. -/
def decodeUnits (pending : Option Nat) : List (Bool × Nat) → List Char
  | [] => flushSurrogate pending
  | unit :: rest =>
    if unit.1 = true ∧ 55296 ≤ unit.2 ∧ unit.2 < 56320 then
      flushSurrogate pending ++ decodeUnits (some unit.2) rest
    else if unit.1 = true ∧ 56320 ≤ unit.2 ∧ unit.2 < 57344 then
      match pending with
      | some high =>
        Char.ofNat (65536 + (high - 55296) * 1024 + (unit.2 - 56320)) :: decodeUnits none rest
      | none => Char.ofNat 65533 :: decodeUnits none rest
    else flushSurrogate pending ++ Char.ofNat unit.2 :: decodeUnits none rest

/-- The body of a JSON string read up to the closing quote: the text it
denotes and what follows the closing quote; `none` for a syntax error. -/
def scanString (cs : List Char) : Option (List Char × List Char) :=
  (scanStringUnits cs).map (fun p => (decodeUnits none p.1, p.2))

/-- The text after the literal `word` when the text starts with it. -/
def scanWord (word : List Char) (cs : List Char) : Option (List Char) :=
  if word.isPrefixOf cs then some (cs.drop word.length) else none

mutual
/-- A JSON value at the front of the text, after optional white space: what
was scanned and what follows. `fuel` bounds the number of nested calls (the
length of the text is enough), `depth` counts the enclosing arrays and
objects, of which `encoding/json` allows 10000. -/
def scanValue : Nat → Nat → List Char → Option (Scanned × List Char)
  | 0, _, _ => none
  | fuel + 1, depth, cs =>
    match skipSpace cs with
    | [] => none
    | c :: rest =>
      if c = '\x7b' then
        if 10000 ≤ depth then none
        else
          match skipSpace rest with
          | [] => none
          | k :: rest' =>
            if k = '\x7d' then some ({ kind := .object }, rest')
            else
              match scanMembers fuel (depth + 1) (k :: rest') with
              | some (members, after) => some ({ kind := .object, members := members }, after)
              | none => none
      else if c = '[' then
        if 10000 ≤ depth then none
        else
          match skipSpace rest with
          | [] => none
          | k :: rest' =>
            if k = ']' then some ({ kind := .array }, rest')
            else
              match scanElements fuel (depth + 1) (k :: rest') with
              | some after => some ({ kind := .array }, after)
              | none => none
      else if c = '"' then
        match scanString rest with
        | some (s, after) => some ({ kind := .string (String.mk s) }, after)
        | none => none
      else if c = 't' then
        (scanWord ['r', 'u', 'e'] rest).map (fun after => ({ kind := .bool }, after))
      else if c = 'f' then
        (scanWord ['a', 'l', 's', 'e'] rest).map (fun after => ({ kind := .bool }, after))
      else if c = 'n' then
        (scanWord ['u', 'l', 'l'] rest).map (fun after => ({ kind := .null }, after))
      else
        (scanNumber (c :: rest)).map (fun after => ({ kind := .number }, after))
/-- The members of an object from its first key on, up to the closing brace:
a key string, a colon, a value, then a comma and another member or the
brace. -/
def scanMembers : Nat → Nat → List Char → Option (List (String × Scalar) × List Char)
  | 0, _, _ => none
  | fuel + 1, depth, cs =>
    match cs with
    | [] => none
    | q :: rest =>
      if q = '"' then
        match scanString rest with
        | none => none
        | some (key, afterKey) =>
          match skipSpace afterKey with
          | [] => none
          | colon :: afterColon =>
            if colon = ':' then
              match scanValue fuel depth afterColon with
              | none => none
              | some (value, afterValue) =>
                match skipSpace afterValue with
                | [] => none
                | sep :: afterSep =>
                  if sep = ',' then
                    match scanMembers fuel depth (skipSpace afterSep) with
                    | some (members, after) =>
                      some ((String.mk key, value.kind) :: members, after)
                    | none => none
                  else if sep = '\x7d' then some ([(String.mk key, value.kind)], afterSep)
                  else none
            else none
      else none
/-- The elements of an array from its first value on, up to the closing
bracket: what follows the bracket. -/
def scanElements : Nat → Nat → List Char → Option (List Char)
  | 0, _, _ => none
  | fuel + 1, depth, cs =>
    match scanValue fuel depth cs with
    | none => none
    | some (_, afterValue) =>
      match skipSpace afterValue with
      | [] => none
      | sep :: afterSep =>
        if sep = ',' then scanElements fuel depth afterSep
        else if sep = ']' then some afterSep
        else none
end

/-- The key with its ASCII letters in lower case: `encoding/json` matches a
key with a field name exactly or, failing that, without regard to case. -/
def foldKey (key : String) : String :=
  String.mk (key.data.map (fun c => if 'A' ≤ c ∧ c ≤ 'Z' then Char.ofNat (c.toNat + 32) else c))

/-- The effect of one object member on the block being filled: a string sets
the field its key names, `null` and unknown keys change nothing, any other
value for one of the four fields is a type error (`none`). -/
def assignMember (notes : FilamentNotes) (member : String × Scalar) : Option FilamentNotes :=
  if foldKey member.1 = "id" ∨ foldKey member.1 = "vendor" ∨ foldKey member.1 = "type"
      ∨ foldKey member.1 = "name" then
    match member.2 with
    | .string v =>
      if foldKey member.1 = "id" then some { notes with ID := v }
      else if foldKey member.1 = "vendor" then some { notes with Vendor := v }
      else if foldKey member.1 = "type" then some { notes with Type_ := v }
      else some { notes with Name := v }
    | .null => some notes
    | _ => none
  else some notes

/-- The members of an object applied in order to a block. -/
def assignMembers : FilamentNotes → List (String × Scalar) → Option FilamentNotes
  | notes, [] => some notes
  | notes, member :: rest =>
    match assignMember notes member with
    | some notes' => assignMembers notes' rest
    | none => none

/-- Modelled from the spec: Go `json.Unmarshal([]byte(s), &notes)` into a zero
`FilamentNotes` (the library is not part of the sources): the text must be
one JSON value with nothing but white space around it; an object fills the
fields named by its keys, `null` leaves the zero block, anything else is an
error. `none` when an error is returned. -/
def goUnmarshalNotes (s : String) : Option FilamentNotes :=
  match scanValue (s.data.length + 1) 0 s.data with
  | none => none
  | some (value, after) =>
    if skipSpace after = [] then
      match value.kind with
      | .object => assignMembers {} value.members
      | .null => some {}
      | _ => none
    else none

/-- The JSON string literal of `v` followed by `tail`. -/
def quotedThen (v tail : List Char) : List Char :=
  '"' :: (v.flatMap jsonEscapeChar ++ '"' :: tail)

/-- The library as the models above give it: `json.Unmarshal`, `json.Marshal`
and `strconv.Quote` are `goUnmarshalNotes`, `goMarshalNotes` and `goQuote`;
the float functions and `unicode.IsPrint` beyond Latin-1 are parameters. -/
def goLib (formatFloat : Float64 → String) (ParseFloat : String → Option Float64)
    (isPrint : Char → Bool) : StdLib where
  formatFloat := formatFloat
  jsonUnmarshalNotes := goUnmarshalNotes
  jsonMarshalNotes := fun notes => some (goMarshalNotes notes)
  Quote := goQuote isPrint
  ParseFloat := ParseFloat

/-! ## LoadCustomProfiles and the decoding of a profile document

The pre-check of `LoadCustomProfiles` (profiles/profiles.go, lines 204-221)
and `SlicerFilamentProfile.UnmarshalJSON` (lines 31-45). A document is given
by the members of its top-level object in the order of the text, a key
possibly more than once, with the values as `encoding/json` decodes them into
`interface{}`. -/

/-- Whether `sub` occurs in the text as a run of consecutive characters. -/
def containsChars (sub : List Char) : List Char → Bool
  | [] => sub.isEmpty
  | c :: cs => sub.isPrefixOf (c :: cs) || containsChars sub cs

/-- Go `strings.Contains(s, substr)`. -/
def Contains (s substr : String) : Bool :=
  containsChars substr.data s.data

/-- Go `unicode.IsSpace`: the white space characters of Latin-1 and those with
the Unicode property White_Space beyond. -/
def isSpace (c : Char) : Bool :=
  decide (c = '\t' ∨ c = '\n' ∨ c = Char.ofNat 11 ∨ c = Char.ofNat 12 ∨ c = '\r' ∨ c = ' '
    ∨ c = Char.ofNat 133 ∨ c = Char.ofNat 160 ∨ c = Char.ofNat 5760
    ∨ (8192 ≤ c.toNat ∧ c.toNat ≤ 8202) ∨ c = Char.ofNat 8232 ∨ c = Char.ofNat 8233
    ∨ c = Char.ofNat 8239 ∨ c = Char.ofNat 8287 ∨ c = Char.ofNat 12288)

/-- Go `strings.TrimSpace(s)`: `s` without its leading and trailing white
space. -/
def TrimSpace (s : String) : String :=
  String.mk (((s.data.dropWhile isSpace).reverse.dropWhile isSpace).reverse)

/-- Go `strings.HasSuffix(s, suffix)`. -/
def HasSuffix (s suffix : String) : Bool :=
  suffix.data.isSuffixOf s.data

/-- The test `LoadCustomProfiles` applies to the decoded document `rawProfile`
(lines 204-221): whether the path of the file is appended to the result. -/
def acceptsProfile (lib : StdLib) (rawProfile : List (String × JSON)) : Bool :=
  match mapGet rawProfile "filament_notes" with
  | none => false
  | some notesVal =>
    match notesVal with
    | .array (first :: _) =>
      match first with
      | .string noteStr =>
        if TrimSpace noteStr ≠ "" ∧ Contains noteStr "\"id\":" = true then
          match lib.jsonUnmarshalNotes (Trim noteStr "\"") with
          | some tempNotes => decide (tempNotes.ID ≠ "")
          | none => false
        else false
      | _ => false
    | _ => false

/-- An entry of the directory `LoadCustomProfiles` lists: its name, whether it
is a directory, and what `json.Unmarshal(data, &rawProfile)` decodes from its
content (`none` when the file cannot be read or the decoding returns an
error). -/
structure FileInfo where
  Name : String
  IsDir : Bool
  rawProfile : Option (List (String × JSON))

/-- Go `LoadCustomProfiles(dir)` on the listing `files` of the directory: the
paths of the `.json` files that pass the test, in the order of the listing.
`join` is `filepath.Join`. -/
def LoadCustomProfiles (lib : StdLib) (join : String → String → String) (dir : String)
    (files : List FileInfo) : List String :=
  files.filterMap (fun file =>
    if file.IsDir = true ∨ HasSuffix file.Name ".json" = false then none
    else
      match file.rawProfile with
      | none => none
      | some rawProfile =>
        if acceptsProfile lib rawProfile = true then some (join dir file.Name) else none)

/-- Modelled from the spec: how `encoding/json` matches an object key with a
struct field of ASCII name when the key is not the name itself (the library
is not part of the sources): letters match without regard to case, and the
two characters that fold to ASCII letters, U+017F to `s` and U+212A to `k`,
match those. The key matches when its image here is the field name. -/
def foldFieldKey (key : String) : String :=
  String.mk (key.data.map (fun c =>
    if 'A' ≤ c ∧ c ≤ 'Z' then Char.ofNat (c.toNat + 32)
    else if c = Char.ofNat 383 then 's'
    else if c = Char.ofNat 8490 then 'k'
    else c))

/-- Modelled from the spec: the elements of a JSON array decoded into a
`[]string` from index `i` on. A string is stored, `null` leaves the element
as it is (what the array behind the slice held there before, `backing`, the
empty string when nothing), any other value is a type error (`none`). -/
def decodeStringElems (backing : List String) : Nat → List JSON → Option (List String)
  | _, [] => some []
  | i, elem :: rest =>
    match decodeStringElems backing (i + 1) rest with
    | none => none
    | some tail =>
      match elem with
      | .string s => some (s :: tail)
      | .null => some (backing.getD i "" :: tail)
      | _ => none

/-- Modelled from the spec: the effect of one member of the document on the
typed fields of a `SlicerFilamentProfile` being decoded (`json.Unmarshal` into
the alias struct, line 38). The state is the profile and the array behind
`FilamentNotes`. A key that matches `name` or `version` stores a string,
`null` changes nothing there; a key that matches `filament_notes` stores the
strings of an array and `null` resets the slice; a value of another kind is a
type error (`none`); other keys change nothing. -/
def assignProfileMember (st : SlicerFilamentProfile × List String) (member : String × JSON) :
    Option (SlicerFilamentProfile × List String) :=
  if foldFieldKey member.1 = "name" then
    match member.2 with
    | .string v => some ({ st.1 with Name := v }, st.2)
    | .null => some st
    | _ => none
  else if foldFieldKey member.1 = "version" then
    match member.2 with
    | .string v => some ({ st.1 with Version := v }, st.2)
    | .null => some st
    | _ => none
  else if foldFieldKey member.1 = "filament_notes" then
    match member.2 with
    | .array [] => some ({ st.1 with FilamentNotes := [] }, [])
    | .array (elem :: elems) =>
      match decodeStringElems st.2 0 (elem :: elems) with
      | some strs => some ({ st.1 with FilamentNotes := strs }, strs ++ st.2.drop strs.length)
      | none => none
    | .null => some ({ st.1 with FilamentNotes := [] }, [])
    | _ => none
  else some st

/-- The members of a document applied in order to the typed fields. -/
def assignProfileMembers :
    SlicerFilamentProfile × List String → List (String × JSON) →
      Option (SlicerFilamentProfile × List String)
  | st, [] => some st
  | st, member :: rest =>
    match assignProfileMember st member with
    | some st' => assignProfileMembers st' rest
    | none => none

/-- Modelled from the spec: `json.Unmarshal` of a document into a nil
`map[string]interface{}`: each member is stored under its key, a later
member replacing an earlier one with the same key. -/
def decodeObject (members : List (String × JSON)) : List (String × JSON) :=
  members.foldl (fun m kv => mapSet m kv.1 kv.2) []

/-- Go `(*SlicerFilamentProfile).UnmarshalJSON(data)` on a zero profile, `data`
being a document with the given members: the typed fields through the alias
struct (line 38), then `RawData` (line 41); `none` when an error is
returned. -/
def UnmarshalJSON (members : List (String × JSON)) : Option SlicerFilamentProfile :=
  match assignProfileMembers ({}, []) members with
  | none => none
  | some st => some { st.1 with RawData := decodeObject members }

/-- Whether a decoded value is an array all of whose elements are strings. -/
def isStringArray : JSON → Bool
  | .array elems => elems.all (fun e => match e with | .string _ => true | _ => false)
  | _ => false

/-- The library of the models above for concrete examples, which do not reach
the float functions. -/
def goExampleLib : StdLib :=
  goLib (fun _ => "") (fun _ => none) (fun _ => true)

/-! ## Further vocabulary -/

/-- The keys `ConvertToCrealityFormat` reads in the normalized map:
`"version"` and the source keys of the parameter literal (lines 236-327),
those of `filament_type` and `filament_vendor` included. -/
def consultedKeys : List String :=
  "version" :: "filament_type" :: "filament_vendor" :: kvParamSourceKeys.map (fun fk => fk.2)

/-- Keys the normalized map holds that `ConvertToCrealityFormat` never
reads. -/
def unconsultedKeys : List String :=
  ["name", "filament_notes.id", "filament_notes.vendor", "filament_notes.type",
   "filament_notes.name"]

/-- The read `options[vendor]` in its two-value form, `none` when the vendor
has no entry (reads of a nil index find nothing). -/
def typesAt (options : MaterialOptions) (vendor : String) : Option TypeMap :=
  match options with
  | none => none
  | some opts => mapGet opts vendor

/-! ## Properties of AddProfileToDatabase -/

theorem replaceLoop_snd_iff (p : FilamentProfileEntry) (l : List FilamentProfileEntry) :
    (replaceLoop p l).2 = true ↔ ∃ e ∈ l, e.Base.ID = p.Base.ID := by
  induction l with
  | nil => simp [replaceLoop]
  | cons e rest ih =>
    by_cases he : e.Base.ID = p.Base.ID
    · simp [replaceLoop, he]
    · simp [replaceLoop, he, ih]

theorem replaceLoop_of_absent (p : FilamentProfileEntry) (l : List FilamentProfileEntry)
    (h : ∀ e ∈ l, e.Base.ID ≠ p.Base.ID) : replaceLoop p l = (l, false) := by
  induction l with
  | nil => rfl
  | cons e rest ih =>
    have he : e.Base.ID ≠ p.Base.ID := h e (List.mem_cons_self _ _)
    have hr := ih (fun x hx => h x (List.mem_cons_of_mem _ hx))
    simp [replaceLoop, he, hr]

theorem replaceLoop_fst_eq_set (p : FilamentProfileEntry) (l : List FilamentProfileEntry)
    (h : ∃ e ∈ l, e.Base.ID = p.Base.ID) :
    (replaceLoop p l).1 = l.set (l.findIdx (fun e => decide (e.Base.ID = p.Base.ID))) p := by
  induction l with
  | nil => simp at h
  | cons e rest ih =>
    by_cases he : e.Base.ID = p.Base.ID
    · simp [replaceLoop, he, List.findIdx_cons]
    · have hrest : ∃ x ∈ rest, x.Base.ID = p.Base.ID := by
        obtain ⟨x, hx, hxid⟩ := h
        rcases List.mem_cons.mp hx with rfl | hx
        · exact absurd hxid he
        · exact ⟨x, hx, hxid⟩
      simp [replaceLoop, he, List.findIdx_cons, ih hrest]

theorem replaceLoop_ids (p : FilamentProfileEntry) (l : List FilamentProfileEntry) :
    entryIDs (replaceLoop p l).1 = entryIDs l := by
  induction l with
  | nil => rfl
  | cons e rest ih =>
    by_cases he : e.Base.ID = p.Base.ID
    · simp [replaceLoop, he, entryIDs]
    · simpa [replaceLoop, he, entryIDs] using ih

theorem replaceLoop_again (p : FilamentProfileEntry) (l : List FilamentProfileEntry)
    (h : (replaceLoop p l).2 = true) :
    replaceLoop p (replaceLoop p l).1 = ((replaceLoop p l).1, true) := by
  induction l with
  | nil => simp [replaceLoop] at h
  | cons e rest ih =>
    by_cases he : e.Base.ID = p.Base.ID
    · simp [replaceLoop, he]
    · have hr : (replaceLoop p rest).2 = true := by simpa [replaceLoop, he] using h
      simp [replaceLoop, he, ih hr]

theorem replaceLoop_after_append (p : FilamentProfileEntry) (l : List FilamentProfileEntry)
    (h : ∀ e ∈ l, e.Base.ID ≠ p.Base.ID) :
    replaceLoop p (l ++ [p]) = (l ++ [p], true) := by
  induction l with
  | nil => simp [replaceLoop]
  | cons e rest ih =>
    have he : e.Base.ID ≠ p.Base.ID := h e (List.mem_cons_self _ _)
    have hr := ih (fun x hx => h x (List.mem_cons_of_mem _ hx))
    simp [replaceLoop, he, hr]

theorem AddProfileToDatabase_list (db : MaterialDatabase) (p : FilamentProfileEntry)
    (v : String) :
    (AddProfileToDatabase db p v).Result.List =
      if (replaceLoop p db.Result.List).2 = true then (replaceLoop p db.Result.List).1
      else (replaceLoop p db.Result.List).1 ++ [p] := by
  unfold AddProfileToDatabase
  by_cases hf : (replaceLoop p db.Result.List).2 = true <;> simp [hf]

theorem AddProfileToDatabase_count (db : MaterialDatabase) (p : FilamentProfileEntry)
    (v : String) :
    (AddProfileToDatabase db p v).Result.Count =
      if (replaceLoop p db.Result.List).2 = true then db.Result.Count
      else (((replaceLoop p db.Result.List).1 ++ [p]).length : Int) := by
  unfold AddProfileToDatabase
  by_cases hf : (replaceLoop p db.Result.List).2 = true <;> simp [hf]

theorem AddProfileToDatabase_ids_nodup (db : MaterialDatabase) (p : FilamentProfileEntry)
    (v : String) (h : (entryIDs db.Result.List).Nodup) :
    (entryIDs (AddProfileToDatabase db p v).Result.List).Nodup := by
  rw [AddProfileToDatabase_list]
  by_cases hf : (replaceLoop p db.Result.List).2 = true
  · rw [if_pos hf, replaceLoop_ids]
    exact h
  · rw [if_neg hf]
    have habs : ∀ e ∈ db.Result.List, e.Base.ID ≠ p.Base.ID := by
      intro e he hid
      exact hf ((replaceLoop_snd_iff p _).mpr ⟨e, he, hid⟩)
    rw [replaceLoop_of_absent p _ habs]
    have hnot : p.Base.ID ∉ entryIDs db.Result.List := by
      intro hmem
      obtain ⟨e, he, hid⟩ := List.mem_map.mp hmem
      exact habs e he hid
    simp only [entryIDs, List.map_append, List.map_cons, List.map_nil]
    rw [List.nodup_append]
    refine ⟨h, List.nodup_singleton _, ?_⟩
    intro x hx hx1
    rw [List.mem_singleton] at hx1
    subst hx1
    exact hnot hx

theorem mergeAll_ids_nodup (merges : List (FilamentProfileEntry × String)) :
    ∀ db : MaterialDatabase, (entryIDs db.Result.List).Nodup →
      (entryIDs (mergeAll db merges).Result.List).Nodup := by
  induction merges with
  | nil => intro db h; exact h
  | cons m rest ih =>
    intro db h
    exact ih _ (AddProfileToDatabase_ids_nodup db m.1 m.2 h)

/-! ## Lemmas on maps and splitting -/

theorem mapGet_mapSet_self {V : Type} (m : List (String × V)) (k : String) (v : V) :
    mapGet (mapSet m k v) k = some v := by
  induction m with
  | nil => simp [mapSet, mapGet]
  | cons kv rest ih =>
    obtain ⟨k', v'⟩ := kv
    by_cases hk : k' = k
    · simp [mapSet, mapGet, hk]
    · simp [mapSet, mapGet, hk, ih]

theorem mapGet_mapSet_of_ne {V : Type} (m : List (String × V)) (k k' : String) (v : V)
    (h : k' ≠ k) : mapGet (mapSet m k v) k' = mapGet m k' := by
  induction m with
  | nil => simp [mapSet, mapGet, Ne.symm h]
  | cons kv rest ih =>
    obtain ⟨k0, v0⟩ := kv
    by_cases hk : k0 = k
    · subst hk
      simp [mapSet, mapGet, Ne.symm h]
    · by_cases hk' : k0 = k'
      · subst hk'
        simp [mapSet, mapGet, hk]
      · simp [mapSet, mapGet, hk, hk', ih]

theorem splitNewline_ne_nil (cs : List Char) : splitNewline cs ≠ [] := by
  cases cs with
  | nil => simp [splitNewline]
  | cons c cs =>
    by_cases hc : c = '\n'
    · simp [splitNewline, hc]
    · cases hsp : splitNewline cs <;> simp [splitNewline, hc, hsp]

theorem splitNewline_of_no_newline (cs : List Char) (h : '\n' ∉ cs) :
    splitNewline cs = [cs] := by
  induction cs with
  | nil => rfl
  | cons c cs ih =>
    have hc : c ≠ '\n' := fun hc => h (by simp [hc])
    have hcs : '\n' ∉ cs := fun hm => h (List.mem_cons_of_mem _ hm)
    simp [splitNewline, hc, ih hcs]

theorem splitNewline_append (s n : List Char) (h : '\n' ∉ n) :
    splitNewline (s ++ '\n' :: n) = splitNewline s ++ [n] := by
  induction s with
  | nil => simp [splitNewline, splitNewline_of_no_newline n h]
  | cons c cs ih =>
    by_cases hc : c = '\n'
    · simp [splitNewline, hc, ih]
    · cases hsp : splitNewline cs with
      | nil => exact absurd hsp (splitNewline_ne_nil cs)
      | cons piece pieces =>
        simp [splitNewline, hc, ih, hsp]

theorem Split_of_no_newline (name : String) (h : '\n' ∉ name.data) :
    Split name = [name] := by
  simp [Split, splitNewline_of_no_newline name.data h]

theorem Split_append (s name : String) (h : '\n' ∉ name.data) :
    Split (s ++ "\n" ++ name) = Split s ++ [name] := by
  have hd : (s ++ "\n" ++ name).data = s.data ++ '\n' :: name.data := by
    simp [String.data_append]
  simp [Split, hd, splitNewline_append s.data name.data h]

/-! ## Lemmas on UpdateOptions -/

theorem UpdateOptions_nil (notes : FilamentNotes) : UpdateOptions none notes = some none := rfl

theorem UpdateOptions_some (opts : List (String × TypeMap)) (notes : FilamentNotes) :
    UpdateOptions (some opts) notes =
      match mapGet opts (vendorKey notes) with
      | none =>
        some (some (mapSet (mapSet opts (vendorKey notes) (some [])) (vendorKey notes)
          (some (mapSet [] (typeKey notes) (displayName notes)))))
      | some none => none
      | some (some inner) =>
        match mapGet inner (typeKey notes) with
        | some s =>
          if displayName notes ∈ Split s then some (some opts)
          else some (some (mapSet opts (vendorKey notes)
            (some (mapSet inner (typeKey notes) (s ++ "\n" ++ displayName notes)))))
        | none =>
          some (some (mapSet opts (vendorKey notes)
            (some (mapSet inner (typeKey notes) (displayName notes))))) := by
  unfold UpdateOptions vendorKey typeKey displayName
  generalize (if notes.Vendor = "" then "Generic" else notes.Vendor) = v
  generalize (if notes.Type_ = "" then "PLA" else notes.Type_) = t
  generalize (if notes.Name = "" then "Custom Filament" else notes.Name) = n
  cases hv : mapGet opts v with
  | none => simp [hv, mapGet]
  | some tm =>
    cases tm with
    | none => simp [hv]
    | some inner => simp [hv]

theorem namesAt_mapSet (opts : List (String × TypeMap)) (v : String)
    (inner : List (String × String)) (v' t' : String) :
    namesAt (some (mapSet opts v (some inner))) v' t' =
      if v' = v then mapGet inner t' else namesAt (some opts) v' t' := by
  by_cases hv : v' = v
  · subst hv
    simp [namesAt, mapGet_mapSet_self]
  · simp [namesAt, mapGet_mapSet_of_ne _ _ _ _ hv, hv]

theorem mapGet_mapSet {V : Type} (m : List (String × V)) (k k' : String) (v : V) :
    mapGet (mapSet m k v) k' = if k' = k then some v else mapGet m k' := by
  by_cases h : k' = k
  · subst h
    simp [mapGet_mapSet_self]
  · simp [h, mapGet_mapSet_of_ne _ _ _ _ h]

/-- What `UpdateOptions` does to a non-nil index whose vendor is not bound to a
nil map: the call completes with a non-nil index, the addressed pair holds
`joinedWith` of its old content and the name, every other pair reads as
before. -/
theorem UpdateOptions_namesAt (opts : List (String × TypeMap)) (notes : FilamentNotes)
    (hnil : hasNilTypeMap (some opts) (vendorKey notes) = false) :
    ∃ o, UpdateOptions (some opts) notes = some (some o) ∧
      ∀ v' t', namesAt (some o) v' t' =
        if v' = vendorKey notes ∧ t' = typeKey notes then
          some (joinedWith (namesAt (some opts) (vendorKey notes) (typeKey notes))
            (displayName notes))
        else namesAt (some opts) v' t' := by
  rw [UpdateOptions_some]
  cases hv : mapGet opts (vendorKey notes) with
  | none =>
    dsimp only
    refine ⟨_, rfl, ?_⟩
    intro v' t'
    rw [namesAt_mapSet, namesAt_mapSet, mapGet_mapSet]
    by_cases h1 : v' = vendorKey notes
    · by_cases h2 : t' = typeKey notes
      · simp [h1, h2, namesAt, hv, joinedWith]
      · simp [h1, h2, namesAt, hv, mapGet]
    · simp [h1]
  | some tm =>
    cases tm with
    | none => simp [hasNilTypeMap, hv] at hnil
    | some inner =>
      dsimp only
      cases ht : mapGet inner (typeKey notes) with
      | none =>
        refine ⟨_, rfl, ?_⟩
        intro v' t'
        rw [namesAt_mapSet, mapGet_mapSet]
        by_cases h1 : v' = vendorKey notes
        · by_cases h2 : t' = typeKey notes
          · simp [h1, h2, namesAt, hv, ht, joinedWith]
          · simp [h1, h2, namesAt, hv]
        · simp [h1]
      | some s =>
        by_cases hmem : displayName notes ∈ Split s
        · refine ⟨opts, by simp [hmem], ?_⟩
          intro v' t'
          by_cases h1 : v' = vendorKey notes
          · by_cases h2 : t' = typeKey notes
            · simp [h1, h2, namesAt, hv, ht, joinedWith, hmem]
            · simp [h1, h2]
          · simp [h1]
        · refine ⟨mapSet opts (vendorKey notes)
              (some (mapSet inner (typeKey notes) (s ++ "\n" ++ displayName notes))),
              by simp [hmem], ?_⟩
          intro v' t'
          rw [namesAt_mapSet, mapGet_mapSet]
          by_cases h1 : v' = vendorKey notes
          · by_cases h2 : t' = typeKey notes
            · simp [h1, h2, namesAt, hv, ht, joinedWith, hmem]
            · simp [h1, h2, namesAt, hv]
          · simp [h1]

theorem UpdateOptions_eq_none_iff (options : MaterialOptions) (notes : FilamentNotes) :
    UpdateOptions options notes = none ↔ hasNilTypeMap options (vendorKey notes) = true := by
  cases options with
  | none => simp [UpdateOptions_nil, hasNilTypeMap]
  | some opts =>
    constructor
    · intro h
      by_contra hn
      have hn' : hasNilTypeMap (some opts) (vendorKey notes) = false := by simpa using hn
      obtain ⟨o, ho, _⟩ := UpdateOptions_namesAt opts notes hn'
      rw [ho] at h
      exact Option.noConfusion h
    · intro h
      have hv : mapGet opts (vendorKey notes) = some none := by
        simpa [hasNilTypeMap] using h
      rw [UpdateOptions_some, hv]

theorem Split_joinedWith (before : Option String) (name : String)
    (h : '\n' ∉ name.data) :
    Split (joinedWith before name) =
      match before with
      | none => [name]
      | some s => if name ∈ Split s then Split s else Split s ++ [name] := by
  cases before with
  | none => simp [joinedWith, Split_of_no_newline name h]
  | some s =>
    by_cases hmem : name ∈ Split s
    · simp [joinedWith, hmem]
    · simp [joinedWith, hmem, Split_append s name h]

theorem name_mem_Split_joinedWith (before : Option String) (name : String)
    (h : '\n' ∉ name.data) : name ∈ Split (joinedWith before name) := by
  rw [Split_joinedWith before name h]
  cases before with
  | none => simp
  | some s =>
    by_cases hmem : name ∈ Split s
    · simp [hmem]
    · simp [hmem]

/-- A second call with the same block is a no-op once the name is among the
stored names. -/
theorem UpdateOptions_of_mem (opts : List (String × TypeMap)) (notes : FilamentNotes)
    (s : String) (hs : namesAt (some opts) (vendorKey notes) (typeKey notes) = some s)
    (hmem : displayName notes ∈ Split s) :
    UpdateOptions (some opts) notes = some (some opts) := by
  rw [UpdateOptions_some]
  cases hv : mapGet opts (vendorKey notes) with
  | none => simp [namesAt, hv] at hs
  | some tm =>
    cases tm with
    | none => simp [namesAt, hv] at hs
    | some inner =>
      have ht : mapGet inner (typeKey notes) = some s := by simpa [namesAt, hv] using hs
      simp [ht, hmem]

theorem UpdateOptions_twice_eq (options : MaterialOptions) (notes : FilamentNotes)
    (h : '\n' ∉ (displayName notes).data) :
    (UpdateOptions options notes).bind (fun o => UpdateOptions o notes)
      = UpdateOptions options notes := by
  cases options with
  | none => rfl
  | some opts =>
    cases hnil : hasNilTypeMap (some opts) (vendorKey notes) with
    | true =>
      rw [(UpdateOptions_eq_none_iff _ _).mpr hnil]
      rfl
    | false =>
      obtain ⟨o, ho, hread⟩ := UpdateOptions_namesAt opts notes hnil
      rw [ho, Option.some_bind]
      have hs := hread (vendorKey notes) (typeKey notes)
      rw [if_pos ⟨rfl, rfl⟩] at hs
      exact UpdateOptions_of_mem o notes _ hs (name_mem_Split_joinedWith _ _ h)

/-- C1. Replace case of `AddProfileToDatabase`: when the list holds an entry with
the ID of the new entry, the result list has the same length, the new entry
stands at the index `i` of the first entry with that ID, every other index
keeps its entry, and `Count` is unchanged. -/
theorem AddProfileToDatabase_replace (db : MaterialDatabase)
    (newProfile : FilamentProfileEntry) (version : String)
    (h : ∃ entry ∈ db.Result.List, entry.Base.ID = newProfile.Base.ID) :
    (AddProfileToDatabase db newProfile version).Result.List.length
        = db.Result.List.length ∧
    (∃ i, i < db.Result.List.length ∧
      (∃ e, db.Result.List[i]? = some e ∧ e.Base.ID = newProfile.Base.ID) ∧
      (∀ j e, j < i → db.Result.List[j]? = some e → e.Base.ID ≠ newProfile.Base.ID) ∧
      (AddProfileToDatabase db newProfile version).Result.List[i]? = some newProfile ∧
      (∀ j, j ≠ i →
        (AddProfileToDatabase db newProfile version).Result.List[j]?
          = db.Result.List[j]?)) ∧
    (AddProfileToDatabase db newProfile version).Result.Count = db.Result.Count := by
  have hf : (replaceLoop newProfile db.Result.List).2 = true :=
    (replaceLoop_snd_iff newProfile _).mpr h
  have hex : ∃ x ∈ db.Result.List,
      (fun e : FilamentProfileEntry => decide (e.Base.ID = newProfile.Base.ID)) x = true := by
    obtain ⟨x, hx, hid⟩ := h
    exact ⟨x, hx, by simpa using hid⟩
  have hlt := List.findIdx_lt_length_of_exists hex
  rw [AddProfileToDatabase_list, AddProfileToDatabase_count, if_pos hf, if_pos hf,
    replaceLoop_fst_eq_set newProfile _ h]
  refine ⟨List.length_set _ _ _, ⟨_, hlt, ?_, ?_, ?_, ?_⟩, rfl⟩
  · refine ⟨db.Result.List[_], List.getElem?_eq_getElem hlt, ?_⟩
    have := @List.findIdx_getElem _ (fun e : FilamentProfileEntry =>
      decide (e.Base.ID = newProfile.Base.ID)) db.Result.List hlt
    simpa using this
  · intro j e hj hje
    obtain ⟨hjl, hje⟩ := List.getElem?_eq_some.mp hje
    have := List.not_of_lt_findIdx hj
    rw [hje] at this
    simpa using this
  · exact List.getElem?_set_self hlt
  · intro j hj
    exact List.getElem?_set_ne (Ne.symm hj)

/-- Witness for C1: a two-entry store whose second entry carries the ID. -/
theorem AddProfileToDatabase_replace_witness :
    (∃ entry ∈ ({ Result := { List := [{ Base := { ID := "A" } }, { Base := { ID := "B" } }],
                              Count := 2 } } : MaterialDatabase).Result.List,
        entry.Base.ID = ({ Base := { ID := "B", Name := "new" } } : FilamentProfileEntry).Base.ID) ∧
    (AddProfileToDatabase
        { Result := { List := [{ Base := { ID := "A" } }, { Base := { ID := "B" } }],
                      Count := 2 } }
        { Base := { ID := "B", Name := "new" } } "v2").Result.Count = 2 :=
  ⟨by decide,
   (AddProfileToDatabase_replace
      { Result := { List := [{ Base := { ID := "A" } }, { Base := { ID := "B" } }],
                    Count := 2 } }
      { Base := { ID := "B", Name := "new" } } "v2" (by decide)).2.2⟩

/-- C2. Append case of `AddProfileToDatabase`: when no entry of the list has the
ID of the new entry, the result list is the old list followed by the new
entry, and `Count` is the length of the result list. -/
theorem AddProfileToDatabase_append (db : MaterialDatabase)
    (newProfile : FilamentProfileEntry) (version : String)
    (h : ∀ entry ∈ db.Result.List, entry.Base.ID ≠ newProfile.Base.ID) :
    (AddProfileToDatabase db newProfile version).Result.List
        = db.Result.List ++ [newProfile] ∧
    (AddProfileToDatabase db newProfile version).Result.Count
        = ((AddProfileToDatabase db newProfile version).Result.List.length : Int) := by
  have hr := replaceLoop_of_absent newProfile _ h
  rw [AddProfileToDatabase_list, AddProfileToDatabase_count, hr]
  simp

/-- Witness for C2: a one-entry store and an entry with another ID. -/
theorem AddProfileToDatabase_append_witness :
    (∀ entry ∈ ({ Result := { List := [{ Base := { ID := "A" } }], Count := 1 } }
        : MaterialDatabase).Result.List,
        entry.Base.ID ≠ ({ Base := { ID := "B" } } : FilamentProfileEntry).Base.ID) ∧
    (AddProfileToDatabase
        { Result := { List := [{ Base := { ID := "A" } }], Count := 1 } }
        { Base := { ID := "B" } } "v2").Result.List
      = [{ Base := { ID := "A" } }, { Base := { ID := "B" } }] :=
  ⟨by decide,
   (AddProfileToDatabase_append
      { Result := { List := [{ Base := { ID := "A" } }], Count := 1 } }
      { Base := { ID := "B" } } "v2" (by decide)).1⟩

/-- C3 as stated fails: a store with an empty list and `Count = 5` receives an
entry with a new ID and ends with `Count = 1`, not `6`. -/
theorem AddProfileToDatabase_count_not_incremented :
    (∀ entry ∈ ({ Result := { List := [], Count := 5 } } : MaterialDatabase).Result.List,
        entry.Base.ID ≠ ({ Base := { ID := "F1" } } : FilamentProfileEntry).Base.ID) ∧
    (AddProfileToDatabase { Result := { List := [], Count := 5 } }
        { Base := { ID := "F1" } } "v").Result.Count = 1 ∧
    (AddProfileToDatabase { Result := { List := [], Count := 5 } }
        { Base := { ID := "F1" } } "v").Result.Count
      ≠ ({ Result := { List := [], Count := 5 } } : MaterialDatabase).Result.Count + 1 := by
  decide

/-- C3, amended. For an entry whose ID is not in the list, `Count` after the
merge is the old list length plus one; hence it is exactly one more than
`Count` before whenever `Count` equalled the list length before. -/
theorem AddProfileToDatabase_count_incremented (db : MaterialDatabase)
    (newProfile : FilamentProfileEntry) (version : String)
    (h : ∀ entry ∈ db.Result.List, entry.Base.ID ≠ newProfile.Base.ID)
    (hcount : db.Result.Count = (db.Result.List.length : Int)) :
    (AddProfileToDatabase db newProfile version).Result.Count = db.Result.Count + 1 ∧
    (AddProfileToDatabase db newProfile version).Result.Count
      = (db.Result.List.length : Int) + 1 := by
  have hr := replaceLoop_of_absent newProfile _ h
  rw [AddProfileToDatabase_count, hr, hcount]
  simp

/-- Witness for the amended C3. -/
theorem AddProfileToDatabase_count_incremented_witness :
    (∀ entry ∈ ({ Result := { List := [{ Base := { ID := "A" } }], Count := 1 } }
        : MaterialDatabase).Result.List,
        entry.Base.ID ≠ ({ Base := { ID := "B" } } : FilamentProfileEntry).Base.ID) ∧
    (AddProfileToDatabase
        { Result := { List := [{ Base := { ID := "A" } }], Count := 1 } }
        { Base := { ID := "B" } } "v2").Result.Count = 1 + 1 :=
  ⟨by decide,
   (AddProfileToDatabase_count_incremented
      { Result := { List := [{ Base := { ID := "A" } }], Count := 1 } }
      { Base := { ID := "B" } } "v2" (by decide) (by decide)).1⟩

/-- C4. `AddProfileToDatabase` always stores the provided version stamp, on a
replace as on an append. -/
theorem AddProfileToDatabase_version (db : MaterialDatabase)
    (newProfile : FilamentProfileEntry) (version : String) :
    (AddProfileToDatabase db newProfile version).Result.Version = version := by
  rfl

/-- C5. Merging the same entry a second time changes nothing but the version
stamp: list, count and the other fields are those after the first merge. -/
theorem AddProfileToDatabase_idempotent (db : MaterialDatabase)
    (e : FilamentProfileEntry) (v1 v2 : String) :
    (AddProfileToDatabase (AddProfileToDatabase db e v1) e v2).Result.List
        = (AddProfileToDatabase db e v1).Result.List ∧
    (AddProfileToDatabase (AddProfileToDatabase db e v1) e v2).Result.Count
        = (AddProfileToDatabase db e v1).Result.Count ∧
    AddProfileToDatabase (AddProfileToDatabase db e v1) e v2
        = { AddProfileToDatabase db e v1 with
            Result := { (AddProfileToDatabase db e v1).Result with Version := v2 } } := by
  have key : replaceLoop e (AddProfileToDatabase db e v1).Result.List
      = ((AddProfileToDatabase db e v1).Result.List, true) := by
    rw [AddProfileToDatabase_list]
    by_cases hf : (replaceLoop e db.Result.List).2 = true
    · rw [if_pos hf]
      exact replaceLoop_again e _ hf
    · rw [if_neg hf]
      have habs : ∀ x ∈ db.Result.List, x.Base.ID ≠ e.Base.ID := by
        intro x hx hid
        exact hf ((replaceLoop_snd_iff e _).mpr ⟨x, hx, hid⟩)
      rw [replaceLoop_of_absent e _ habs]
      exact replaceLoop_after_append e _ habs
  have hl : (AddProfileToDatabase (AddProfileToDatabase db e v1) e v2).Result.List
      = (AddProfileToDatabase db e v1).Result.List := by
    rw [AddProfileToDatabase_list (AddProfileToDatabase db e v1), key]
    simp
  have hc : (AddProfileToDatabase (AddProfileToDatabase db e v1) e v2).Result.Count
      = (AddProfileToDatabase db e v1).Result.Count := by
    rw [AddProfileToDatabase_count (AddProfileToDatabase db e v1), key]
    simp
  refine ⟨hl, hc, ?_⟩
  generalize hd : AddProfileToDatabase db e v1 = d at key hl hc ⊢
  unfold AddProfileToDatabase
  simp [key]

/-- C6. `AddProfileToDatabase` keeps the identifiers of the list pairwise
distinct, and every store obtained from a store with an empty list by a
sequence of merges has pairwise distinct identifiers. -/
theorem AddProfileToDatabase_unique_ids (db : MaterialDatabase)
    (newProfile : FilamentProfileEntry) (version : String)
    (h : (entryIDs db.Result.List).Nodup) :
    (entryIDs (AddProfileToDatabase db newProfile version).Result.List).Nodup ∧
    (∀ (start : MaterialDatabase) (merges : List (FilamentProfileEntry × String)),
      start.Result.List = [] →
      (entryIDs (mergeAll start merges).Result.List).Nodup) := by
  refine ⟨AddProfileToDatabase_ids_nodup db newProfile version h, ?_⟩
  intro start merges hs
  apply mergeAll_ids_nodup
  rw [hs]
  exact List.nodup_nil

/-- Witness for C6: a store with two distinct identifiers. -/
theorem AddProfileToDatabase_unique_ids_witness :
    (entryIDs ({ Result := { List := [{ Base := { ID := "A" } }, { Base := { ID := "B" } }],
                             Count := 2 } } : MaterialDatabase).Result.List).Nodup ∧
    (entryIDs (AddProfileToDatabase
        { Result := { List := [{ Base := { ID := "A" } }, { Base := { ID := "B" } }],
                      Count := 2 } }
        { Base := { ID := "B", Name := "new" } } "v2").Result.List).Nodup :=
  ⟨by decide,
   (AddProfileToDatabase_unique_ids
      { Result := { List := [{ Base := { ID := "A" } }, { Base := { ID := "B" } }],
                    Count := 2 } }
      { Base := { ID := "B", Name := "new" } } "v2" (by decide)).1⟩

/-- C7 as stated fails: on the empty index, the block (V, T, "a\nb"), whose
name holds a newline, is stored as `"a\nb"` by one call and as
`"a\nb\na\nb"` by two, and the name is then none of the stored pieces. -/
theorem UpdateOptions_twice_differs :
    UpdateOptions (some []) { ID := "x", Vendor := "V", Type_ := "T", Name := "a\nb" }
      = some (some [("V", some [("T", "a\nb")])]) ∧
    (UpdateOptions (some []) { ID := "x", Vendor := "V", Type_ := "T", Name := "a\nb" }).bind
        (fun o => UpdateOptions o { ID := "x", Vendor := "V", Type_ := "T", Name := "a\nb" })
      = some (some [("V", some [("T", "a\nb\na\nb")])]) ∧
    (UpdateOptions (some []) { ID := "x", Vendor := "V", Type_ := "T", Name := "a\nb" }).bind
        (fun o => UpdateOptions o { ID := "x", Vendor := "V", Type_ := "T", Name := "a\nb" })
      ≠ UpdateOptions (some []) { ID := "x", Vendor := "V", Type_ := "T", Name := "a\nb" } ∧
    (nameList (some [("V", some [("T", "a\nb")])]) "V" "T").count "a\nb" = 0 := by
  decide

/-- C7, amended. For a name without newline, a second `UpdateOptions` with the
same block gives what the first gave; and when the index is non-nil, does not
bind the vendor to a nil map and held the name at most once under the pair,
the call completes and the name is there exactly once afterwards. -/
theorem UpdateOptions_dedup (options : MaterialOptions) (notes : FilamentNotes)
    (h : '\n' ∉ (displayName notes).data) :
    (UpdateOptions options notes).bind (fun o => UpdateOptions o notes)
      = UpdateOptions options notes ∧
    (∀ opts, options = some opts →
      hasNilTypeMap options (vendorKey notes) = false →
      (nameList options (vendorKey notes) (typeKey notes)).count (displayName notes) ≤ 1 →
      ∃ o, UpdateOptions options notes = some o ∧
        (nameList o (vendorKey notes) (typeKey notes)).count (displayName notes) = 1) := by
  refine ⟨UpdateOptions_twice_eq options notes h, ?_⟩
  intro opts hopts hnil hcount
  subst hopts
  obtain ⟨o, ho, hread⟩ := UpdateOptions_namesAt opts notes hnil
  refine ⟨some o, ho, ?_⟩
  have hs := hread (vendorKey notes) (typeKey notes)
  rw [if_pos ⟨rfl, rfl⟩] at hs
  simp only [nameList, hs]
  rw [Split_joinedWith _ _ h]
  cases hb : namesAt (some opts) (vendorKey notes) (typeKey notes) with
  | none => simp
  | some s =>
    have hcount' : (Split s).count (displayName notes) ≤ 1 := by
      simpa [nameList, hb] using hcount
    by_cases hmem : displayName notes ∈ Split s
    · have hpos : 0 < (Split s).count (displayName notes) := List.count_pos_iff.mpr hmem
      simp only [hmem, if_true]
      omega
    · simp only [hmem, if_false]
      rw [List.count_append, List.count_eq_zero_of_not_mem hmem]
      simp

/-- Witness for the amended C7: a second name for an existing pair. -/
theorem UpdateOptions_dedup_witness :
    '\n' ∉ (displayName { ID := "x", Vendor := "V", Type_ := "T", Name := "b" }).data ∧
    (UpdateOptions (some [("V", some [("T", "a")])])
        { ID := "x", Vendor := "V", Type_ := "T", Name := "b" }).bind
        (fun o => UpdateOptions o { ID := "x", Vendor := "V", Type_ := "T", Name := "b" })
      = UpdateOptions (some [("V", some [("T", "a")])])
          { ID := "x", Vendor := "V", Type_ := "T", Name := "b" } :=
  ⟨by decide,
   (UpdateOptions_dedup (some [("V", some [("T", "a")])])
      { ID := "x", Vendor := "V", Type_ := "T", Name := "b" } (by decide)).1⟩

/-- C8 as stated fails: on the empty index, inserting (V, T, "a\nb") and then
(V, T, "a") leaves `"a\nb"`, since `"a"` is already one of the pieces. -/
theorem UpdateOptions_second_name_dropped :
    namesAt (some []) "V" "T" = none ∧
    ("a\nb" : String) ≠ "a" ∧
    (UpdateOptions (some []) { ID := "x", Vendor := "V", Type_ := "T", Name := "a\nb" }).bind
        (fun o => UpdateOptions o { ID := "y", Vendor := "V", Type_ := "T", Name := "a" })
      = some (some [("V", some [("T", "a\nb")])]) ∧
    namesAt (some [("V", some [("T", "a\nb")])]) "V" "T" ≠ some ("a\nb" ++ "\n" ++ "a") := by
  decide

/-- C8, amended. On a non-nil index with nothing under the pair and no nil map
under the vendor, inserting `name1` and then `name2` for the same pair, where
`name2` is not one of the newline-separated pieces of `name1`, completes and
leaves `name1`, a newline, `name2` under the pair. -/
theorem UpdateOptions_insertion_order (opts : List (String × TypeMap))
    (notes1 notes2 : FilamentNotes)
    (hv : vendorKey notes2 = vendorKey notes1) (ht : typeKey notes2 = typeKey notes1)
    (hnone : namesAt (some opts) (vendorKey notes1) (typeKey notes1) = none)
    (hnil : hasNilTypeMap (some opts) (vendorKey notes1) = false)
    (hpieces : displayName notes2 ∉ Split (displayName notes1)) :
    ∃ o1 o2, UpdateOptions (some opts) notes1 = some o1 ∧
      UpdateOptions o1 notes2 = some o2 ∧
      namesAt o2 (vendorKey notes1) (typeKey notes1)
        = some (displayName notes1 ++ "\n" ++ displayName notes2) := by
  obtain ⟨o1, ho1, hread1⟩ := UpdateOptions_namesAt opts notes1 hnil
  have hs1 := hread1 (vendorKey notes1) (typeKey notes1)
  rw [if_pos ⟨rfl, rfl⟩, hnone] at hs1
  have hnil1 : hasNilTypeMap (some o1) (vendorKey notes2) = false := by
    rw [hv]
    cases hg : mapGet o1 (vendorKey notes1) with
    | none => simp [hasNilTypeMap, hg]
    | some tm =>
      cases tm with
      | none => simp [namesAt, hg] at hs1
      | some inner => simp [hasNilTypeMap, hg]
  obtain ⟨o2, ho2, hread2⟩ := UpdateOptions_namesAt o1 notes2 hnil1
  refine ⟨some o1, some o2, ho1, ho2, ?_⟩
  have hs2 := hread2 (vendorKey notes1) (typeKey notes1)
  rw [if_pos ⟨hv.symm, ht.symm⟩, hv, ht, hs1] at hs2
  rw [hs2]
  simp [joinedWith, hpieces]

/-- Witness for the amended C8: two plain names on the empty index. -/
theorem UpdateOptions_insertion_order_witness :
    vendorKey { ID := "y", Vendor := "V", Type_ := "T", Name := "name2" }
      = vendorKey { ID := "x", Vendor := "V", Type_ := "T", Name := "name1" } ∧
    namesAt (some []) "V" "T" = none ∧
    displayName { ID := "y", Vendor := "V", Type_ := "T", Name := "name2" }
      ∉ Split (displayName { ID := "x", Vendor := "V", Type_ := "T", Name := "name1" }) ∧
    ∃ o1 o2,
      UpdateOptions (some []) { ID := "x", Vendor := "V", Type_ := "T", Name := "name1" }
        = some o1 ∧
      UpdateOptions o1 { ID := "y", Vendor := "V", Type_ := "T", Name := "name2" } = some o2 ∧
      namesAt o2 (vendorKey { ID := "x", Vendor := "V", Type_ := "T", Name := "name1" })
          (typeKey { ID := "x", Vendor := "V", Type_ := "T", Name := "name1" })
        = some (displayName { ID := "x", Vendor := "V", Type_ := "T", Name := "name1" } ++ "\n"
            ++ displayName { ID := "y", Vendor := "V", Type_ := "T", Name := "name2" }) :=
  ⟨by decide, by decide, by decide,
   UpdateOptions_insertion_order []
      { ID := "x", Vendor := "V", Type_ := "T", Name := "name1" }
      { ID := "y", Vendor := "V", Type_ := "T", Name := "name2" }
      (by decide) (by decide) (by decide) (by decide) (by decide)⟩

/-- C9. When the index holds `s` under the addressed pair and the inserted name
is not one of the newline-separated pieces of `s`, `UpdateOptions` completes
and the pair then holds `s`, a newline, the name. -/
theorem UpdateOptions_appends (options : MaterialOptions) (notes : FilamentNotes)
    (s : String)
    (hs : namesAt options (vendorKey notes) (typeKey notes) = some s)
    (hnew : displayName notes ∉ Split s) :
    ∃ o, UpdateOptions options notes = some o ∧
      namesAt o (vendorKey notes) (typeKey notes) = some (s ++ "\n" ++ displayName notes) := by
  cases options with
  | none => simp [namesAt] at hs
  | some opts =>
    have hnil : hasNilTypeMap (some opts) (vendorKey notes) = false := by
      cases hg : mapGet opts (vendorKey notes) with
      | none => simp [hasNilTypeMap, hg]
      | some tm =>
        cases tm with
        | none => simp [namesAt, hg] at hs
        | some inner => simp [hasNilTypeMap, hg]
    obtain ⟨o, ho, hread⟩ := UpdateOptions_namesAt opts notes hnil
    refine ⟨some o, ho, ?_⟩
    have h2 := hread (vendorKey notes) (typeKey notes)
    rw [if_pos ⟨rfl, rfl⟩, hs] at h2
    rw [h2]
    simp [joinedWith, hnew]

/-- Witness for C9: a third name after two stored ones. -/
theorem UpdateOptions_appends_witness :
    namesAt (some [("V", some [("T", "a\nb")])])
        (vendorKey { ID := "x", Vendor := "V", Type_ := "T", Name := "c" })
        (typeKey { ID := "x", Vendor := "V", Type_ := "T", Name := "c" }) = some "a\nb" ∧
    displayName { ID := "x", Vendor := "V", Type_ := "T", Name := "c" } ∉ Split "a\nb" ∧
    ∃ o, UpdateOptions (some [("V", some [("T", "a\nb")])])
          { ID := "x", Vendor := "V", Type_ := "T", Name := "c" } = some o ∧
      namesAt o (vendorKey { ID := "x", Vendor := "V", Type_ := "T", Name := "c" })
          (typeKey { ID := "x", Vendor := "V", Type_ := "T", Name := "c" })
        = some ("a\nb" ++ "\n" ++ displayName { ID := "x", Vendor := "V", Type_ := "T", Name := "c" }) :=
  ⟨by decide, by decide,
   UpdateOptions_appends (some [("V", some [("T", "a\nb")])])
      { ID := "x", Vendor := "V", Type_ := "T", Name := "c" } "a\nb" (by decide) (by decide)⟩

/-- C10 as stated fails: the empty index satisfies the invariant, and inserting
the block (V, T, "a\na") leaves the pieces `"a"`, `"a"` under (V, T). -/
theorem UpdateOptions_breaks_unique_names :
    UniqueNames (some []) ∧
    UpdateOptions (some []) { ID := "x", Vendor := "V", Type_ := "T", Name := "a\na" }
      = some (some [("V", some [("T", "a\na")])]) ∧
    ¬ UniqueNames (some [("V", some [("T", "a\na")])]) := by
  refine ⟨?_, by decide, ?_⟩
  · intro v t
    simp [nameList, namesAt, mapGet]
  · intro hu
    have h := hu "V" "T"
    revert h
    decide

/-- C10, amended. When the inserted name holds no newline and the vendor is not
bound to a nil map, `UpdateOptions` completes and keeps the names under every
(vendor, type) pair pairwise distinct. -/
theorem UpdateOptions_unique_names (options : MaterialOptions) (notes : FilamentNotes)
    (hinv : UniqueNames options)
    (hname : '\n' ∉ (displayName notes).data)
    (hnil : hasNilTypeMap options (vendorKey notes) = false) :
    ∃ o, UpdateOptions options notes = some o ∧ UniqueNames o := by
  cases options with
  | none => exact ⟨none, rfl, hinv⟩
  | some opts =>
    obtain ⟨o, ho, hread⟩ := UpdateOptions_namesAt opts notes hnil
    refine ⟨some o, ho, ?_⟩
    intro v t
    have hvt := hread v t
    by_cases hc : v = vendorKey notes ∧ t = typeKey notes
    · obtain ⟨rfl, rfl⟩ := hc
      rw [if_pos ⟨rfl, rfl⟩] at hvt
      have hold := hinv (vendorKey notes) (typeKey notes)
      simp only [nameList, hvt]
      rw [Split_joinedWith _ _ hname]
      cases hb : namesAt (some opts) (vendorKey notes) (typeKey notes) with
      | none => simp
      | some s =>
        have hs : (Split s).Nodup := by simpa [nameList, hb] using hold
        by_cases hmem : displayName notes ∈ Split s
        · simpa [hmem] using hs
        · simp only [hmem, if_false]
          rw [List.nodup_append]
          refine ⟨hs, List.nodup_singleton _, ?_⟩
          intro x hx hx1
          rw [List.mem_singleton] at hx1
          subst hx1
          exact hmem hx
    · rw [if_neg hc] at hvt
      have hold := hinv v t
      simpa [nameList, hvt] using hold

/-- Witness for the amended C10: the empty index and a plain name. -/
theorem UpdateOptions_unique_names_witness :
    UniqueNames (some []) ∧
    '\n' ∉ (displayName { ID := "x", Vendor := "V", Type_ := "T", Name := "a" }).data ∧
    hasNilTypeMap (some []) (vendorKey { ID := "x", Vendor := "V", Type_ := "T", Name := "a" })
      = false ∧
    ∃ o, UpdateOptions (some []) { ID := "x", Vendor := "V", Type_ := "T", Name := "a" }
        = some o ∧ UniqueNames o :=
  ⟨fun v t => by simp [nameList, namesAt, mapGet], by decide, by decide,
   UpdateOptions_unique_names (some [])
      { ID := "x", Vendor := "V", Type_ := "T", Name := "a" }
      (fun v t => by simp [nameList, namesAt, mapGet]) (by decide) (by decide)⟩

/-! ## Lemmas on Atoi -/

theorem digitChar_is_digit : ∀ d : Nat, d < 10 →
    ('0' ≤ Nat.digitChar d ∧ Nat.digitChar d ≤ '9') ∧
    (Nat.digitChar d).toNat - '0'.toNat = d ∧
    Nat.digitChar d ≠ '+' ∧ Nat.digitChar d ≠ '-' := by
  decide

theorem parseDigits_toDigitsCore : ∀ (fuel n : Nat) (ds : List Char), n < fuel →
    parseDigits 0 (Nat.toDigitsCore 10 fuel n ds) = parseDigits n ds := by
  intro fuel
  induction fuel with
  | zero => intro n ds h; omega
  | succ fuel ih =>
    intro n ds h
    have hd := digitChar_is_digit (n % 10) (Nat.mod_lt _ (by decide))
    by_cases h0 : n / 10 = 0
    · have hn : n % 10 = n := Nat.mod_eq_of_lt (by omega)
      simp only [Nat.toDigitsCore, h0, if_true, parseDigits, hd.1, and_self, hd.2.1]
      rw [hn]
      simp
    · have hlt : n / 10 < fuel := by omega
      simp only [Nat.toDigitsCore, h0, if_false]
      rw [ih (n / 10) _ hlt]
      simp only [parseDigits, hd.1, and_self, if_true, hd.2.1]
      congr 1
      omega

theorem toDigitsCore_head : ∀ (fuel n : Nat) (ds : List Char), n < fuel →
    ∃ d rest, d < 10 ∧ Nat.toDigitsCore 10 fuel n ds = Nat.digitChar d :: rest := by
  intro fuel
  induction fuel with
  | zero => intro n ds h; omega
  | succ fuel ih =>
    intro n ds h
    by_cases h0 : n / 10 = 0
    · exact ⟨n % 10, ds, Nat.mod_lt _ (by decide), by simp [Nat.toDigitsCore, h0]⟩
    · have hlt : n / 10 < fuel := by omega
      obtain ⟨d, rest, hd, hr⟩ := ih (n / 10) (Nat.digitChar (n % 10) :: ds) hlt
      exact ⟨d, rest, hd, by simp [Nat.toDigitsCore, h0, hr]⟩

theorem parseDigits_toDigits (n : Nat) : parseDigits 0 (Nat.toDigits 10 n) = some n := by
  rw [Nat.toDigits, parseDigits_toDigitsCore _ _ _ (Nat.lt_succ_self n)]
  rfl

theorem Atoi_toString_nat (n : Nat) (h : n < 2 ^ 63) : Atoi (toString n) = some (n : Int) := by
  obtain ⟨d, rest, hd, hr⟩ := toDigitsCore_head (n + 1) n [] (Nat.lt_succ_self n)
  have hdata : (toString n).data = Nat.digitChar d :: rest := by
    show (Nat.toDigits 10 n) = _
    exact hr
  have hp : parseDigits 0 (Nat.digitChar d :: rest) = some n := by
    rw [← hr]
    exact parseDigits_toDigits n
  have hc := digitChar_is_digit d hd
  unfold Atoi
  simp only [hdata, hc.2.2.1, hc.2.2.2, if_false, hp]
  have h' : n < 9223372036854775808 := by norm_num at h; exact h
  simp [h']

theorem Atoi_toString_neg (m : Nat) (h : m + 1 ≤ 2 ^ 63) :
    Atoi (toString (Int.negSucc m)) = some (Int.negSucc m) := by
  have hdata : (toString (Int.negSucc m)).data = '-' :: Nat.toDigits 10 (m + 1) := by
    show ("-" ++ toString (m + 1)).data = _
    rw [String.data_append]
    rfl
  have hne : Nat.toDigits 10 (m + 1) ≠ [] := by
    obtain ⟨d, rest, _, hr⟩ := toDigitsCore_head (m + 1 + 1) (m + 1) [] (Nat.lt_succ_self _)
    rw [Nat.toDigits, hr]
    exact List.cons_ne_nil _ _
  unfold Atoi
  simp only [hdata]
  have h' : m ≤ 9223372036854775807 := by norm_num at h; omega
  simp [hne, parseDigits_toDigits, h', Int.negSucc_eq]

theorem Atoi_toString (n : Int) (hlo : -(2 ^ 63) ≤ n) (hhi : n < 2 ^ 63) :
    Atoi (toString n) = some n := by
  cases n with
  | ofNat m =>
    have hm : m < 2 ^ 63 := by
      have : (m : Int) < 2 ^ 63 := hhi
      exact_mod_cast this
    exact Atoi_toString_nat m hm
  | negSucc m =>
    have hm : m + 1 ≤ 2 ^ 63 := by
      have h1 : -(2 ^ 63 : Int) ≤ Int.negSucc m := hlo
      rw [Int.negSucc_eq] at h1
      have h2 : ((m : Int) + 1) ≤ 2 ^ 63 := by linarith
      exact_mod_cast h2
    exact Atoi_toString_neg m hm

/-! ## Lemmas on NormalizeSlicerProfile -/

theorem flattenValue_array_cons (lib : StdLib) (first : JSON) (rest : List JSON) :
    flattenValue lib (.array (first :: rest)) = SprintfV lib first := by
  cases first <;> simp [flattenValue, SprintfV]

theorem foldl_flattenStep_of_absent (lib : StdLib) (raw : List (String × JSON)) :
    ∀ (acc : List (String × String)) (key : String), key ∉ raw.map Prod.fst →
      mapGet (raw.foldl (flattenStep lib) acc) key = mapGet acc key := by
  induction raw with
  | nil => intro acc key _; rfl
  | cons kv rest ih =>
    intro acc key h
    have hk : key ≠ kv.1 := fun hk => h (by simp [hk])
    have hrest : key ∉ rest.map Prod.fst := fun hm => h (by simp at hm ⊢; exact Or.inr hm)
    rw [List.foldl_cons, ih _ key hrest]
    unfold flattenStep
    split
    · rfl
    · exact mapGet_mapSet_of_ne _ _ _ _ hk

theorem foldl_flattenStep_of_mem (lib : StdLib) (raw : List (String × JSON)) :
    ∀ (acc : List (String × String)) (key : String) (value : JSON),
      (raw.map Prod.fst).Nodup → (key, value) ∈ raw → key ∉ reservedKeys →
      mapGet (raw.foldl (flattenStep lib) acc) key = some (flattenValue lib value) := by
  induction raw with
  | nil => intro acc key value _ hmem; simp at hmem
  | cons kv rest ih =>
    intro acc key value hnd hmem hres
    rw [List.map_cons, List.nodup_cons] at hnd
    rw [List.foldl_cons]
    rcases List.mem_cons.mp hmem with heq | hin
    · subst heq
      rw [foldl_flattenStep_of_absent lib rest _ key hnd.1]
      have hr : ¬ (key = "name" ∨ key = "version" ∨ key = "filament_notes") := by
        simpa [reservedKeys] using hres
      simp only [flattenStep, hr, if_false]
      exact mapGet_mapSet_self _ _ _
    · exact ih _ key value hnd.2 hin hres

theorem NormalizeSlicerProfile_eq_some (lib : StdLib) (p : SlicerFilamentProfile)
    (m : List (String × String)) (n : FilamentNotes)
    (h : NormalizeSlicerProfile lib p = some (m, n)) :
    ∃ first rest, p.FilamentNotes = first :: rest ∧ first ≠ "" ∧
      lib.jsonUnmarshalNotes (Trim first "\"") = some n ∧
      m = mapSet (mapSet (mapSet (mapSet (mapSet (mapSet
            (p.RawData.foldl (flattenStep lib) []) "name" p.Name) "version" p.Version)
            "filament_notes.id" n.ID) "filament_notes.vendor" n.Vendor)
            "filament_notes.type" n.Type_) "filament_notes.name" n.Name := by
  unfold NormalizeSlicerProfile at h
  cases hfn : p.FilamentNotes with
  | nil => simp [hfn] at h
  | cons first rest =>
    simp only [hfn] at h
    by_cases hf : first = ""
    · simp [hf] at h
    · simp only [hf, if_false] at h
      cases hu : lib.jsonUnmarshalNotes (Trim first "\"") with
      | none => simp [hu] at h
      | some notes =>
        simp only [hu, Option.some.injEq, Prod.mk.injEq] at h
        obtain ⟨hm, hn⟩ := h
        subst hn
        exact ⟨first, rest, rfl, hf, hu, hm.symm⟩

theorem NormalizeSlicerProfile_of_parse (lib : StdLib) (p : SlicerFilamentProfile)
    (first : String) (rest : List String) (n : FilamentNotes)
    (hcar : p.FilamentNotes = first :: rest) (hne : first ≠ "")
    (hparse : lib.jsonUnmarshalNotes (Trim first "\"") = some n) :
    NormalizeSlicerProfile lib p = some
      (mapSet (mapSet (mapSet (mapSet (mapSet (mapSet
            (p.RawData.foldl (flattenStep lib) []) "name" p.Name) "version" p.Version)
            "filament_notes.id" n.ID) "filament_notes.vendor" n.Vendor)
            "filament_notes.type" n.Type_) "filament_notes.name" n.Name, n) := by
  unfold NormalizeSlicerProfile
  simp only [hcar, hne, if_false, hparse]

theorem ConvertToCrealityFormat_of_marshal (lib : StdLib) (m : List (String × String))
    (notes : FilamentNotes) (bytes : String) (hm : lib.jsonMarshalNotes notes = some bytes) :
    ∃ entry, ConvertToCrealityFormat lib m notes = some entry ∧
      entry.EngineVersion = assignKVParam m "version" ∧
      entry.PrinterIntName = "F008" ∧
      entry.NozzleDiameter = ["0.4"] ∧
      entry.Base.ID = notes.ID ∧
      entry.Base.Brand = notes.Vendor ∧
      entry.Base.Name = notes.Name ∧
      entry.Base.MaterialType = notes.Type_ ∧
      entry.Base.CostPerMeter = atoiOrZero (assignKVParam m "filament_cost") ∧
      entry.Base.MinTemp = atoiOrZero (assignKVParam m "nozzle_temperature_range_low") ∧
      entry.Base.MaxTemp = atoiOrZero (assignKVParam m "nozzle_temperature_range_high") ∧
      entry.Base.SofteningTemp = atoiOrZero (assignKVParam m "temperature_vitrification") ∧
      entry.Base.DryingTemp = atoiOrZero (assignKVParam m "hot_plate_temp") ∧
      entry.Base.DryingTime = atoiOrZero (assignKVParam m "slow_down_layer_time") ∧
      entry.KVParam.FilamentNotes = lib.Quote bytes ∧
      entry.KVParam.FilamentType
        = (if notes.Type_ ≠ "" then notes.Type_ else assignKVParam m "filament_type") ∧
      entry.KVParam.FilamentVendor
        = (if notes.Vendor ≠ "" then notes.Vendor else assignKVParam m "filament_vendor") ∧
      ∀ fk ∈ kvParamSourceKeys, fk.1 entry.KVParam = assignKVParam m fk.2 := by
  unfold ConvertToCrealityFormat
  rw [hm]
  refine ⟨_, rfl, rfl, rfl, rfl, rfl, rfl, rfl, rfl, rfl, rfl, rfl, rfl, rfl, rfl, rfl, rfl,
    rfl, ?_⟩
  intro fk hfk
  simp only [kvParamSourceKeys, List.mem_cons, List.mem_singleton, List.not_mem_nil,
    or_false] at hfk
  repeat' rcases hfk with hfk | hfk
  all_goals rfl

/-! ## Properties of the defaults, the normalizer and the converter -/

theorem withDefaults_keys (notes : FilamentNotes) :
    vendorKey (withDefaults notes) = vendorKey notes ∧
    typeKey (withDefaults notes) = typeKey notes ∧
    displayName (withDefaults notes) = displayName notes := by
  refine ⟨?_, ?_, ?_⟩
  · by_cases h : notes.Vendor = "" <;> simp [vendorKey, withDefaults, h]
  · by_cases h : notes.Type_ = "" <;> simp [typeKey, withDefaults, h]
  · by_cases h : notes.Name = "" <;> simp [displayName, withDefaults, h]

/-- On an index that binds "Generic" to a nil inner map the call panics, for
the block with empty vendor, type and name and for the block with the three
defaults written out alike: the panic comes with the index, not with the
empty fields. -/
theorem UpdateOptions_panics_on_nil_vendor_map :
    UpdateOptions (some [("Generic", none)]) { ID := "x", Vendor := "", Type_ := "", Name := "" }
      = none ∧
    UpdateOptions (some [("Generic", none)])
        { ID := "x", Vendor := "Generic", Type_ := "PLA", Name := "Custom Filament" }
      = none := by
  decide

/-- C11: for every index and every metadata block, `UpdateOptions` treats an
empty vendor, type or name as "Generic", "PLA" or "Custom Filament": the call
on a block is the call on the same index with each empty field of the block
replaced by its default. No block is turned away for an empty field: the call
on the block returns exactly when the call on the block with the defaults
written out does, and whether it returns is decided by the index and the
vendor key alone. -/
theorem UpdateOptions_defaults (options : MaterialOptions) (notes : FilamentNotes) :
    UpdateOptions options notes = UpdateOptions options (withDefaults notes) ∧
    (withDefaults notes).Vendor = (if notes.Vendor = "" then "Generic" else notes.Vendor) ∧
    (withDefaults notes).Type_ = (if notes.Type_ = "" then "PLA" else notes.Type_) ∧
    (withDefaults notes).Name = (if notes.Name = "" then "Custom Filament" else notes.Name) ∧
    (UpdateOptions options notes).isSome = (UpdateOptions options (withDefaults notes)).isSome ∧
    (UpdateOptions options notes).isSome = !hasNilTypeMap options (vendorKey notes) := by
  obtain ⟨hv, ht, hn⟩ := withDefaults_keys notes
  have heq : UpdateOptions options notes = UpdateOptions options (withDefaults notes) := by
    cases options with
    | none => rfl
    | some opts => rw [UpdateOptions_some, UpdateOptions_some, hv, ht, hn]
  refine ⟨heq, rfl, rfl, rfl, congrArg Option.isSome heq, ?_⟩
  · cases hnil : hasNilTypeMap options (vendorKey notes) with
    | true => simp [(UpdateOptions_eq_none_iff options notes).mpr hnil]
    | false =>
      cases hu : UpdateOptions options notes with
      | none =>
        rw [(UpdateOptions_eq_none_iff options notes).mp hu] at hnil
        exact Bool.noConfusion hnil
      | some o => rfl

/-- C12 as stated fails for the keys written after the loop: a raw field
`filament_notes.id` holding `["zzz"]` ends as the parsed block's ID. -/
theorem NormalizeSlicerProfile_array_overwritten :
    (NormalizeSlicerProfile exampleLib
        { Name := "P", Version := "1",
          FilamentNotes := ["\x7b\"id\":\"F1\"\x7d"],
          RawData := [("filament_notes", .array [.string "\x7b\"id\":\"F1\"\x7d"]),
                      ("filament_notes.id", .array [.string "zzz"])] }).map
        (fun r => mapGet r.1 "filament_notes.id") = some (some "F1") ∧
    SprintfV exampleLib (.string "zzz") = "zzz" ∧
    "filament_notes.id" ∉ reservedKeys := by
  decide

/-- C12, amended. Whenever normalization succeeds, a raw field whose key is
none of `name`, `version`, `filament_notes` and none of the four
`filament_notes.*` keys, and whose value is an array with first element
`first`, is stored as the `%v` form of `first` (the string itself when
`first` is a string), whatever the later elements are. -/
theorem NormalizeSlicerProfile_array_first (lib : StdLib) (p : SlicerFilamentProfile)
    (normalizedData : List (String × String)) (notes : FilamentNotes)
    (key : String) (first : JSON) (rest : List JSON)
    (hok : NormalizeSlicerProfile lib p = some (normalizedData, notes))
    (hkeys : (p.RawData.map Prod.fst).Nodup)
    (hmem : (key, JSON.array (first :: rest)) ∈ p.RawData)
    (hres : key ∉ reservedKeys) (hnk : key ∉ notesKeys) :
    mapGet normalizedData key = some (SprintfV lib first) ∧
    (∀ s, first = JSON.string s → mapGet normalizedData key = some s) := by
  obtain ⟨f, r, _, _, _, hm⟩ := NormalizeSlicerProfile_eq_some lib p normalizedData notes hok
  have h1 : key ≠ "name" := fun h => hres (by simp [reservedKeys, h])
  have h2 : key ≠ "version" := fun h => hres (by simp [reservedKeys, h])
  have h3 : key ≠ "filament_notes.id" := fun h => hnk (by simp [notesKeys, h])
  have h4 : key ≠ "filament_notes.vendor" := fun h => hnk (by simp [notesKeys, h])
  have h5 : key ≠ "filament_notes.type" := fun h => hnk (by simp [notesKeys, h])
  have h6 : key ≠ "filament_notes.name" := fun h => hnk (by simp [notesKeys, h])
  have hval : mapGet normalizedData key = some (SprintfV lib first) := by
    rw [hm, mapGet_mapSet_of_ne _ _ _ _ h6, mapGet_mapSet_of_ne _ _ _ _ h5,
      mapGet_mapSet_of_ne _ _ _ _ h4, mapGet_mapSet_of_ne _ _ _ _ h3,
      mapGet_mapSet_of_ne _ _ _ _ h2, mapGet_mapSet_of_ne _ _ _ _ h1,
      foldl_flattenStep_of_mem lib _ _ key _ hkeys hmem hres, flattenValue_array_cons]
  refine ⟨hval, ?_⟩
  intro s hs
  rw [hval, hs]
  rfl

/-- Witness for the amended C12: a two-element array under `filament_colour`. -/
theorem NormalizeSlicerProfile_array_first_witness :
    NormalizeSlicerProfile exampleLib
        { Name := "P", Version := "1",
          FilamentNotes := ["\x7b\"id\":\"F1\"\x7d"],
          RawData := [("filament_colour", .array [.string "#ff0000", .string "#00ff00"]),
                      ("name", .string "P")] }
      = some ([("filament_colour", "#ff0000"), ("name", "P"), ("version", "1"),
               ("filament_notes.id", "F1"), ("filament_notes.vendor", ""),
               ("filament_notes.type", ""), ("filament_notes.name", "")],
              { ID := "F1" }) ∧
    mapGet [("filament_colour", "#ff0000"), ("name", "P"), ("version", "1"),
            ("filament_notes.id", "F1"), ("filament_notes.vendor", ""),
            ("filament_notes.type", ""), ("filament_notes.name", "")] "filament_colour"
      = some (SprintfV exampleLib (.string "#ff0000")) :=
  ⟨by decide,
   (NormalizeSlicerProfile_array_first exampleLib
      { Name := "P", Version := "1",
        FilamentNotes := ["\x7b\"id\":\"F1\"\x7d"],
        RawData := [("filament_colour", .array [.string "#ff0000", .string "#00ff00"]),
                    ("name", .string "P")] }
      _ { ID := "F1" } "filament_colour" (.string "#ff0000") [.string "#00ff00"]
      (by decide) (by decide) (List.mem_cons_self _ _) (by decide) (by decide)).1⟩

/-- C13 fails on the code: a raw field holding the empty array is not dropped,
it falls into the branch for values that are not arrays and is stored as
`"[]"`. -/
theorem NormalizeSlicerProfile_empty_array_kept :
    (NormalizeSlicerProfile exampleLib
        { Name := "P", Version := "1",
          FilamentNotes := ["\x7b\"id\":\"F1\"\x7d"],
          RawData := [("name", .string "P"), ("version", .string "1"),
                      ("filament_notes", .array [.string "\x7b\"id\":\"F1\"\x7d"]),
                      ("filament_colour", .array [])] }).map
        (fun r => mapGet r.1 "filament_colour") = some (some "[]") := by
  decide

/-- C14. Whenever normalization succeeds, the normalized map holds the typed
`Name` under `name` and the typed `Version` under `version`, whatever
`RawData` holds under those keys. -/
theorem NormalizeSlicerProfile_name_version (lib : StdLib) (p : SlicerFilamentProfile)
    (normalizedData : List (String × String)) (notes : FilamentNotes)
    (hok : NormalizeSlicerProfile lib p = some (normalizedData, notes)) :
    mapGet normalizedData "name" = some p.Name ∧
    mapGet normalizedData "version" = some p.Version := by
  obtain ⟨f, r, _, _, _, hm⟩ := NormalizeSlicerProfile_eq_some lib p normalizedData notes hok
  subst hm
  constructor
  · rw [mapGet_mapSet_of_ne _ _ _ _ (by decide), mapGet_mapSet_of_ne _ _ _ _ (by decide),
      mapGet_mapSet_of_ne _ _ _ _ (by decide), mapGet_mapSet_of_ne _ _ _ _ (by decide),
      mapGet_mapSet_of_ne _ _ _ _ (by decide), mapGet_mapSet_self]
  · rw [mapGet_mapSet_of_ne _ _ _ _ (by decide), mapGet_mapSet_of_ne _ _ _ _ (by decide),
      mapGet_mapSet_of_ne _ _ _ _ (by decide), mapGet_mapSet_of_ne _ _ _ _ (by decide),
      mapGet_mapSet_self]

/-- Witness for C14: the raw document holds other values under `name` and
`version`. -/
theorem NormalizeSlicerProfile_name_version_witness :
    NormalizeSlicerProfile exampleLib
        { Name := "P", Version := "1",
          FilamentNotes := ["\x7b\"id\":\"F1\"\x7d"],
          RawData := [("name", .string "other"), ("version", .array [.string "9"])] }
      = some ([("name", "P"), ("version", "1"),
               ("filament_notes.id", "F1"), ("filament_notes.vendor", ""),
               ("filament_notes.type", ""), ("filament_notes.name", "")],
              { ID := "F1" }) ∧
    mapGet [("name", "P"), ("version", "1"),
            ("filament_notes.id", "F1"), ("filament_notes.vendor", ""),
            ("filament_notes.type", ""), ("filament_notes.name", "")] "name" = some "P" :=
  ⟨by decide,
   (NormalizeSlicerProfile_name_version exampleLib
      { Name := "P", Version := "1",
        FilamentNotes := ["\x7b\"id\":\"F1\"\x7d"],
        RawData := [("name", .string "other"), ("version", .array [.string "9"])] }
      _ { ID := "F1" } (by decide)).1⟩

/-- C15. A profile whose `FilamentNotes` list is empty, or whose first element
is the empty string, is rejected: an error is returned, and with it neither a
normalized map nor a metadata block. -/
theorem NormalizeSlicerProfile_missing_notes (lib : StdLib) (p : SlicerFilamentProfile)
    (h : p.FilamentNotes = [] ∨ p.FilamentNotes.head? = some "") :
    NormalizeSlicerProfile lib p = none := by
  unfold NormalizeSlicerProfile
  cases hfn : p.FilamentNotes with
  | nil => rfl
  | cons first rest =>
    rcases h with h | h
    · rw [hfn] at h
      exact absurd h (List.cons_ne_nil _ _)
    · rw [hfn] at h
      have hf : first = "" := by simpa using h
      simp [hf]

/-- Witness for C15: a profile whose first notes element is empty. -/
theorem NormalizeSlicerProfile_missing_notes_witness :
    (({ Name := "P", FilamentNotes := ["", "x"] } : SlicerFilamentProfile).FilamentNotes = [] ∨
      ({ Name := "P", FilamentNotes := ["", "x"] } : SlicerFilamentProfile).FilamentNotes.head?
        = some "") ∧
    NormalizeSlicerProfile exampleLib { Name := "P", FilamentNotes := ["", "x"] } = none :=
  ⟨by decide,
   NormalizeSlicerProfile_missing_notes exampleLib { Name := "P", FilamentNotes := ["", "x"] }
     (by decide)⟩

/-- C16 as stated fails: a carrier whose first element is a metadata document
without id is normalized with success and the returned block has an empty
ID. -/
theorem NormalizeSlicerProfile_empty_id_accepted :
    (NormalizeSlicerProfile exampleLib
        { Name := "P", Version := "1",
          FilamentNotes := ["\x7b\"vendor\":\"Acme\"\x7d"] }).map (fun r => r.2)
      = some { ID := "", Vendor := "Acme" } := by
  decide

/-- C16, amended. `NormalizeSlicerProfile` does not look at the identifier:
when the first element of the carrier is non-empty and, with its surrounding
quotes trimmed, decodes to a block, normalization succeeds and returns that
block, whatever its ID; any block it returns is the decoded one. -/
theorem NormalizeSlicerProfile_returns_parsed (lib : StdLib) (p : SlicerFilamentProfile)
    (first : String) (rest : List String) (parsed : FilamentNotes)
    (hcar : p.FilamentNotes = first :: rest) (hne : first ≠ "")
    (hparse : lib.jsonUnmarshalNotes (Trim first "\"") = some parsed) :
    (∃ normalizedData, NormalizeSlicerProfile lib p = some (normalizedData, parsed)) ∧
    (∀ normalizedData notes, NormalizeSlicerProfile lib p = some (normalizedData, notes) →
      notes = parsed ∧ (notes.ID ≠ "" ↔ parsed.ID ≠ "")) := by
  have hn := NormalizeSlicerProfile_of_parse lib p first rest parsed hcar hne hparse
  refine ⟨⟨_, hn⟩, ?_⟩
  intro normalizedData notes h
  rw [hn] at h
  have : parsed = notes := by
    simp only [Option.some.injEq, Prod.mk.injEq] at h
    exact h.2
  subst this
  exact ⟨rfl, Iff.rfl⟩

/-- Witness for the amended C16: a quoted document with an id. -/
theorem NormalizeSlicerProfile_returns_parsed_witness :
    exampleLib.jsonUnmarshalNotes (Trim "\"\x7b\"id\":\"F1\"\x7d\"" "\"")
      = some { ID := "F1" } ∧
    ∃ normalizedData,
      NormalizeSlicerProfile exampleLib
          { Name := "P", Version := "1", FilamentNotes := ["\"\x7b\"id\":\"F1\"\x7d\""] }
        = some (normalizedData, { ID := "F1" }) :=
  ⟨by decide,
   (NormalizeSlicerProfile_returns_parsed exampleLib
      { Name := "P", Version := "1", FilamentNotes := ["\"\x7b\"id\":\"F1\"\x7d\""] }
      "\"\x7b\"id\":\"F1\"\x7d\"" [] { ID := "F1" } rfl (by decide) (by decide)).1⟩

/-- C17. Every parameter field other than `filament_notes`, `filament_type` and
`filament_vendor` holds the value the normalized map stores under the field's
source key, and the empty string when the key is absent. Whether the
conversion returns an error depends on the marshalling of the notes alone:
no absent key causes one. -/
theorem ConvertToCrealityFormat_lookup (lib : StdLib) (m : List (String × String))
    (notes : FilamentNotes) :
    (ConvertToCrealityFormat lib m notes).isSome = (lib.jsonMarshalNotes notes).isSome ∧
    (∀ bytes, lib.jsonMarshalNotes notes = some bytes →
      ∃ entry, ConvertToCrealityFormat lib m notes = some entry ∧
        ∀ fk ∈ kvParamSourceKeys,
          (∀ v, mapGet m fk.2 = some v → fk.1 entry.KVParam = v) ∧
          (mapGet m fk.2 = none → fk.1 entry.KVParam = "")) := by
  constructor
  · cases hm : lib.jsonMarshalNotes notes with
    | none => simp [ConvertToCrealityFormat, hm]
    | some bytes =>
      obtain ⟨entry, he, _⟩ := ConvertToCrealityFormat_of_marshal lib m notes bytes hm
      simp [he]
  · intro bytes hm
    obtain ⟨entry, he, h⟩ := ConvertToCrealityFormat_of_marshal lib m notes bytes hm
    refine ⟨entry, he, ?_⟩
    intro fk hfk
    have hv := h.2.2.2.2.2.2.2.2.2.2.2.2.2.2.2.2 fk hfk
    constructor
    · intro v hg
      rw [hv]
      simp [assignKVParam, hg]
    · intro hg
      rw [hv]
      simp [assignKVParam, hg]

/-- Witness for C17: a map with one parameter key; the notes marshal. -/
theorem ConvertToCrealityFormat_lookup_witness :
    exampleLib.jsonMarshalNotes { ID := "F1", Vendor := "Acme", Type_ := "PLA", Name := "RedPLA" }
      = some "\x7b\"id\":\"F1\",\"vendor\":\"Acme\",\"type\":\"PLA\",\"name\":\"RedPLA\"\x7d" ∧
    ∃ entry,
      ConvertToCrealityFormat exampleLib [("fan_max_speed", "100")]
          { ID := "F1", Vendor := "Acme", Type_ := "PLA", Name := "RedPLA" } = some entry ∧
      ∀ fk ∈ kvParamSourceKeys,
        (∀ v, mapGet [("fan_max_speed", "100")] fk.2 = some v → fk.1 entry.KVParam = v) ∧
        (mapGet [("fan_max_speed", "100")] fk.2 = none → fk.1 entry.KVParam = "") :=
  ⟨by decide,
   (ConvertToCrealityFormat_lookup exampleLib [("fan_max_speed", "100")]
      { ID := "F1", Vendor := "Acme", Type_ := "PLA", Name := "RedPLA" }).2
     "\x7b\"id\":\"F1\",\"vendor\":\"Acme\",\"type\":\"PLA\",\"name\":\"RedPLA\"\x7d" (by decide)⟩

/-- C18. The identity fields of the converted entry are those of the metadata
block, whatever the normalized map holds. -/
theorem ConvertToCrealityFormat_identity (lib : StdLib) (m : List (String × String))
    (notes : FilamentNotes) (bytes : String)
    (hm : lib.jsonMarshalNotes notes = some bytes) :
    ∃ entry, ConvertToCrealityFormat lib m notes = some entry ∧
      entry.Base.ID = notes.ID ∧
      entry.Base.Brand = notes.Vendor ∧
      entry.Base.Name = notes.Name ∧
      entry.Base.MaterialType = notes.Type_ := by
  obtain ⟨entry, he, h⟩ := ConvertToCrealityFormat_of_marshal lib m notes bytes hm
  exact ⟨entry, he, h.2.2.2.1, h.2.2.2.2.1, h.2.2.2.2.2.1, h.2.2.2.2.2.2.1⟩

/-- Witness for C18: the map holds other values under `name`,
`filament_vendor` and `filament_type`. -/
theorem ConvertToCrealityFormat_identity_witness :
    exampleLib.jsonMarshalNotes { ID := "F1", Vendor := "Acme", Type_ := "PLA", Name := "RedPLA" }
      = some "\x7b\"id\":\"F1\",\"vendor\":\"Acme\",\"type\":\"PLA\",\"name\":\"RedPLA\"\x7d" ∧
    ∃ entry,
      ConvertToCrealityFormat exampleLib
          [("name", "other"), ("filament_vendor", "Generic"), ("filament_type", "ABS")]
          { ID := "F1", Vendor := "Acme", Type_ := "PLA", Name := "RedPLA" } = some entry ∧
      entry.Base.ID = "F1" ∧ entry.Base.Brand = "Acme" ∧
      entry.Base.Name = "RedPLA" ∧ entry.Base.MaterialType = "PLA" :=
  ⟨by decide,
   ConvertToCrealityFormat_identity exampleLib
     [("name", "other"), ("filament_vendor", "Generic"), ("filament_type", "ABS")]
     { ID := "F1", Vendor := "Acme", Type_ := "PLA", Name := "RedPLA" }
     "\x7b\"id\":\"F1\",\"vendor\":\"Acme\",\"type\":\"PLA\",\"name\":\"RedPLA\"\x7d" (by decide)⟩

/-- C19 as stated fails: a block with an empty type leaves the flattened
`filament_type` in place, although the two differ. -/
theorem ConvertToCrealityFormat_empty_type_keeps_flattened :
    (ConvertToCrealityFormat exampleLib [("filament_type", "PLA")]
        { ID := "F1", Vendor := "Acme", Type_ := "", Name := "RedPLA" }).map
        (fun entry => entry.KVParam.FilamentType) = some "PLA" ∧
    ("PLA" : String)
      ≠ ({ ID := "F1", Vendor := "Acme", Type_ := "", Name := "RedPLA" } : FilamentNotes).Type_ := by
  decide

/-- C19, amended. A non-empty type (vendor) of the metadata block takes the
place of the flattened `filament_type` (`filament_vendor`), whatever the map
holds; an empty one leaves the flattened value, or the empty string when the
key is absent. -/
theorem ConvertToCrealityFormat_precedence (lib : StdLib) (m : List (String × String))
    (notes : FilamentNotes) (bytes : String)
    (hm : lib.jsonMarshalNotes notes = some bytes) :
    ∃ entry, ConvertToCrealityFormat lib m notes = some entry ∧
      (notes.Type_ ≠ "" → entry.KVParam.FilamentType = notes.Type_) ∧
      (notes.Vendor ≠ "" → entry.KVParam.FilamentVendor = notes.Vendor) ∧
      (notes.Type_ = "" → entry.KVParam.FilamentType = assignKVParam m "filament_type") ∧
      (notes.Vendor = "" → entry.KVParam.FilamentVendor = assignKVParam m "filament_vendor") := by
  obtain ⟨entry, he, h⟩ := ConvertToCrealityFormat_of_marshal lib m notes bytes hm
  have ht := h.2.2.2.2.2.2.2.2.2.2.2.2.2.2.1
  have hv := h.2.2.2.2.2.2.2.2.2.2.2.2.2.2.2.1
  refine ⟨entry, he, ?_, ?_, ?_, ?_⟩
  · intro hne; rw [ht]; simp [hne]
  · intro hne; rw [hv]; simp [hne]
  · intro he'; rw [ht]; simp [he']
  · intro he'; rw [hv]; simp [he']

/-- Witness for the amended C19: the block's type and vendor differ from the
flattened ones. -/
theorem ConvertToCrealityFormat_precedence_witness :
    exampleLib.jsonMarshalNotes { ID := "F1", Vendor := "Acme", Type_ := "PLA", Name := "RedPLA" }
      = some "\x7b\"id\":\"F1\",\"vendor\":\"Acme\",\"type\":\"PLA\",\"name\":\"RedPLA\"\x7d" ∧
    ∃ entry,
      ConvertToCrealityFormat exampleLib
          [("filament_vendor", "Generic"), ("filament_type", "ABS")]
          { ID := "F1", Vendor := "Acme", Type_ := "PLA", Name := "RedPLA" } = some entry ∧
      entry.KVParam.FilamentType = "PLA" ∧ entry.KVParam.FilamentVendor = "Acme" :=
  ⟨by decide,
   (ConvertToCrealityFormat_precedence exampleLib
      [("filament_vendor", "Generic"), ("filament_type", "ABS")]
      { ID := "F1", Vendor := "Acme", Type_ := "PLA", Name := "RedPLA" }
      "\x7b\"id\":\"F1\",\"vendor\":\"Acme\",\"type\":\"PLA\",\"name\":\"RedPLA\"\x7d" (by decide)).imp
     (fun _ h => ⟨h.1, h.2.1 (by decide), h.2.2.1 (by decide)⟩)⟩

/-- C20 as stated fails: the integer 9223372036854775808 under `filament_cost`
is beyond the range of `int`, `Atoi` returns an error and the field stays
`0`. -/
theorem ConvertToCrealityFormat_integer_out_of_range :
    Atoi "9223372036854775808" = none ∧
    (ConvertToCrealityFormat exampleLib [("filament_cost", "9223372036854775808")]
        { ID := "F1", Vendor := "Acme", Type_ := "PLA", Name := "RedPLA" }).map
        (fun entry => entry.Base.CostPerMeter) = some 0 := by
  decide

/-- C20, amended. For an integer `n` within the range of a 64-bit `int`, the
decimal form of `n` is read back by `Atoi` as `n`, and any string `s` that
`Atoi` reads as `n`, placed under the source key of an integer field, makes
that field of the converted entry equal to `n`. -/
theorem ConvertToCrealityFormat_integer_round_trip (lib : StdLib)
    (m : List (String × String)) (notes : FilamentNotes) (bytes : String) (n : Int)
    (hm : lib.jsonMarshalNotes notes = some bytes)
    (hlo : -(2 ^ 63) ≤ n) (hhi : n < 2 ^ 63) :
    Atoi (toString n) = some n ∧
    ∃ entry, ConvertToCrealityFormat lib m notes = some entry ∧
      ∀ s, Atoi s = some n →
        (mapGet m "filament_cost" = some s → entry.Base.CostPerMeter = n) ∧
        (mapGet m "nozzle_temperature_range_low" = some s → entry.Base.MinTemp = n) ∧
        (mapGet m "nozzle_temperature_range_high" = some s → entry.Base.MaxTemp = n) ∧
        (mapGet m "temperature_vitrification" = some s → entry.Base.SofteningTemp = n) ∧
        (mapGet m "hot_plate_temp" = some s → entry.Base.DryingTemp = n) ∧
        (mapGet m "slow_down_layer_time" = some s → entry.Base.DryingTime = n) := by
  refine ⟨Atoi_toString n hlo hhi, ?_⟩
  obtain ⟨entry, he, h⟩ := ConvertToCrealityFormat_of_marshal lib m notes bytes hm
  refine ⟨entry, he, ?_⟩
  intro s hs
  refine ⟨?_, ?_, ?_, ?_, ?_, ?_⟩
  · intro hg; rw [h.2.2.2.2.2.2.2.1]; simp [assignKVParam, hg, atoiOrZero, hs]
  · intro hg; rw [h.2.2.2.2.2.2.2.2.1]; simp [assignKVParam, hg, atoiOrZero, hs]
  · intro hg; rw [h.2.2.2.2.2.2.2.2.2.1]; simp [assignKVParam, hg, atoiOrZero, hs]
  · intro hg; rw [h.2.2.2.2.2.2.2.2.2.2.1]; simp [assignKVParam, hg, atoiOrZero, hs]
  · intro hg; rw [h.2.2.2.2.2.2.2.2.2.2.2.1]; simp [assignKVParam, hg, atoiOrZero, hs]
  · intro hg; rw [h.2.2.2.2.2.2.2.2.2.2.2.2.1]; simp [assignKVParam, hg, atoiOrZero, hs]

/-- Witness for the amended C20: the integer 215 under
`nozzle_temperature_range_low`. -/
theorem ConvertToCrealityFormat_integer_round_trip_witness :
    exampleLib.jsonMarshalNotes { ID := "F1", Vendor := "Acme", Type_ := "PLA", Name := "RedPLA" }
      = some "\x7b\"id\":\"F1\",\"vendor\":\"Acme\",\"type\":\"PLA\",\"name\":\"RedPLA\"\x7d" ∧
    -(2 ^ 63) ≤ (215 : Int) ∧ (215 : Int) < 2 ^ 63 ∧
    Atoi (toString (215 : Int)) = some 215 :=
  ⟨by decide, by decide, by decide,
   (ConvertToCrealityFormat_integer_round_trip exampleLib
      [("nozzle_temperature_range_low", "215")]
      { ID := "F1", Vendor := "Acme", Type_ := "PLA", Name := "RedPLA" }
      "\x7b\"id\":\"F1\",\"vendor\":\"Acme\",\"type\":\"PLA\",\"name\":\"RedPLA\"\x7d" 215
      (by decide) (by decide) (by decide)).1⟩

/-! ## Lemmas for the conversion of the base fields -/

theorem parseDigits_eq_none_of_not_all : ∀ (cs : List Char) (acc : Nat),
    cs.all (fun d => decide ('0' ≤ d ∧ d ≤ '9')) = false → parseDigits acc cs = none := by
  intro cs
  induction cs with
  | nil => intro acc h; simp at h
  | cons c cs ih =>
    intro acc h
    by_cases hc : '0' ≤ c ∧ c ≤ '9'
    · have hrest : cs.all (fun d => decide ('0' ≤ d ∧ d ≤ '9')) = false := by
        simpa [List.all_cons, hc] using h
      simp only [parseDigits, hc, and_self, if_true]
      exact ih _ hrest
    · simp only [parseDigits, hc, if_false]

theorem Atoi_eq_none_of_not_decimal (s : String) (h : isDecimalInteger s = false) :
    Atoi s = none := by
  unfold isDecimalInteger at h
  unfold Atoi
  cases hd : s.data with
  | nil => simp
  | cons c rest =>
    simp only [hd] at h ⊢
    by_cases hp : c = '+'
    · subst hp
      simp only [true_or, if_true, Bool.and_eq_false_imp, decide_eq_true_eq] at h
      by_cases hr : rest = []
      · simp [hr]
      · simp [hr, parseDigits_eq_none_of_not_all rest 0 (h hr)]
    · by_cases hm : c = '-'
      · subst hm
        simp only [or_true, if_true, Bool.and_eq_false_imp, decide_eq_true_eq] at h
        by_cases hr : rest = []
        · simp [hr]
        · simp [hr, parseDigits_eq_none_of_not_all rest 0 (h hr)]
      · simp only [hp, hm, or_self, if_false] at h
        simp [hp, hm, parseDigits_eq_none_of_not_all (c :: rest) 0 h]

theorem TrimSuffix_append (t suffix : String) : TrimSuffix (t ++ suffix) suffix = t := by
  unfold TrimSuffix
  have hs : suffix.data.isSuffixOf (t ++ suffix).data = true := by
    rw [String.data_append]
    simp [List.isSuffixOf_iff_suffix]
  rw [if_pos hs]
  simp [String.data_append]

theorem ConvertToCrealityFormat_base (lib : StdLib) (m : List (String × String))
    (notes : FilamentNotes) (bytes : String) (hm : lib.jsonMarshalNotes notes = some bytes) :
    ∃ entry, ConvertToCrealityFormat lib m notes = some entry ∧
      entry.Base.IsSoluble = decide (assignKVParam m "filament_soluble" = "1") ∧
      entry.Base.IsSupport = decide (assignKVParam m "filament_is_support" = "1") ∧
      entry.Base.Density
        = (match lib.ParseFloat (assignKVParam m "filament_density") with
           | some density => density
           | none => {}) ∧
      entry.Base.ShrinkageRate
        = atoiOrZero (TrimSuffix (assignKVParam m "filament_shrink") "%") ∧
      entry.Base.WeightPerMeter = 0 ∧
      entry.Base.Rank = 0 ∧
      entry.KVParam.FilamentCost = assignKVParam m "filament_cost" ∧
      entry.KVParam.NozzleTemperatureRangeLow
        = assignKVParam m "nozzle_temperature_range_low" ∧
      entry.KVParam.NozzleTemperatureRangeHigh
        = assignKVParam m "nozzle_temperature_range_high" ∧
      entry.KVParam.FilamentShrink = assignKVParam m "filament_shrink" ∧
      entry.KVParam.TemperatureVitrification = assignKVParam m "temperature_vitrification" ∧
      entry.KVParam.HotPlateTemp = assignKVParam m "hot_plate_temp" ∧
      entry.KVParam.SlowDownLayerTime = assignKVParam m "slow_down_layer_time" := by
  unfold ConvertToCrealityFormat
  rw [hm]
  exact ⟨_, rfl, rfl, rfl, rfl, rfl, rfl, rfl, rfl, rfl, rfl, rfl, rfl, rfl, rfl⟩

theorem ConvertToCrealityFormat_unique (lib : StdLib) (m : List (String × String))
    (notes : FilamentNotes) (e1 e2 : FilamentProfileEntry)
    (h1 : ConvertToCrealityFormat lib m notes = some e1)
    (h2 : ConvertToCrealityFormat lib m notes = some e2) : e1 = e2 := by
  rw [h1] at h2
  exact Option.some.inj h2

theorem ConvertToCrealityFormat_marshalled (lib : StdLib) (m : List (String × String))
    (notes : FilamentNotes) (entry : FilamentProfileEntry)
    (h : ConvertToCrealityFormat lib m notes = some entry) :
    ∃ bytes, lib.jsonMarshalNotes notes = some bytes := by
  cases hm : lib.jsonMarshalNotes notes with
  | none => simp [ConvertToCrealityFormat, hm] at h
  | some bytes => exact ⟨bytes, rfl⟩

theorem assignKVParam_of_absent (m : List (String × String)) (key : String)
    (h : mapGet m key = none) : assignKVParam m key = "" := by
  simp [assignKVParam, h]

theorem assignKVParam_of_present (m : List (String × String)) (key s : String)
    (h : mapGet m key = some s) : assignKVParam m key = s := by
  simp [assignKVParam, h]

theorem atoiOrZero_of_none (s : String) (h : Atoi s = none) : atoiOrZero s = 0 := by
  simp [atoiOrZero, h]

theorem atoiOrZero_of_some (s : String) (n : Int) (h : Atoi s = some n) :
    atoiOrZero s = n := by
  simp [atoiOrZero, h]

theorem NormalizeSlicerProfile_mapGet_raw (lib : StdLib) (p : SlicerFilamentProfile)
    (m : List (String × String)) (n : FilamentNotes) (key : String) (value : JSON)
    (hok : NormalizeSlicerProfile lib p = some (m, n))
    (hkeys : (p.RawData.map Prod.fst).Nodup)
    (hmem : (key, value) ∈ p.RawData)
    (hres : key ∉ reservedKeys) (hnk : key ∉ notesKeys) :
    mapGet m key = some (flattenValue lib value) := by
  obtain ⟨f, r, _, _, _, hm⟩ := NormalizeSlicerProfile_eq_some lib p m n hok
  have h1 : key ≠ "name" := fun h => hres (by simp [reservedKeys, h])
  have h2 : key ≠ "version" := fun h => hres (by simp [reservedKeys, h])
  have h3 : key ≠ "filament_notes.id" := fun h => hnk (by simp [notesKeys, h])
  have h4 : key ≠ "filament_notes.vendor" := fun h => hnk (by simp [notesKeys, h])
  have h5 : key ≠ "filament_notes.type" := fun h => hnk (by simp [notesKeys, h])
  have h6 : key ≠ "filament_notes.name" := fun h => hnk (by simp [notesKeys, h])
  rw [hm, mapGet_mapSet_of_ne _ _ _ _ h6, mapGet_mapSet_of_ne _ _ _ _ h5,
    mapGet_mapSet_of_ne _ _ _ _ h4, mapGet_mapSet_of_ne _ _ _ _ h3,
    mapGet_mapSet_of_ne _ _ _ _ h2, mapGet_mapSet_of_ne _ _ _ _ h1,
    foldl_flattenStep_of_mem lib _ _ key _ hkeys hmem hres]

/-! ## Properties of the base fields, the constants and the per-profile step -/

/-- C21 as stated fails for the shrinkage rate: `"12%"` under `filament_shrink`
is not a decimal integer, and `ShrinkageRate` is `12`, not `0`. -/
theorem ConvertToCrealityFormat_shrink_not_zero :
    isDecimalInteger "12%" = false ∧
    (ConvertToCrealityFormat exampleLib [("filament_shrink", "12%")]
        { ID := "F1", Vendor := "Acme", Type_ := "PLA", Name := "RedPLA" }).map
        (fun entry => entry.Base.ShrinkageRate) = some 12 := by
  decide

/-- C21, amended. Whenever the notes marshal, the conversion succeeds and: each
of the six plain integer fields is `0` when its source key is absent or holds
a text that is not a decimal integer; `ShrinkageRate` is `0` when
`filament_shrink` is absent or its text, one trailing `%` stripped, is not a
decimal integer; `Density` is zero when `filament_density` is absent (the
library rejecting the empty text); `IsSoluble` and `IsSupport` are false when
their keys are absent. -/
theorem ConvertToCrealityFormat_zero_defaults (lib : StdLib) (m : List (String × String))
    (notes : FilamentNotes) (bytes : String)
    (hm : lib.jsonMarshalNotes notes = some bytes)
    (hpf : lib.ParseFloat "" = none) :
    ∃ entry, ConvertToCrealityFormat lib m notes = some entry ∧
      (∀ s, (mapGet m "filament_cost" = none ∨
          (mapGet m "filament_cost" = some s ∧ isDecimalInteger s = false)) →
        entry.Base.CostPerMeter = 0) ∧
      (∀ s, (mapGet m "nozzle_temperature_range_low" = none ∨
          (mapGet m "nozzle_temperature_range_low" = some s ∧ isDecimalInteger s = false)) →
        entry.Base.MinTemp = 0) ∧
      (∀ s, (mapGet m "nozzle_temperature_range_high" = none ∨
          (mapGet m "nozzle_temperature_range_high" = some s ∧ isDecimalInteger s = false)) →
        entry.Base.MaxTemp = 0) ∧
      (∀ s, (mapGet m "temperature_vitrification" = none ∨
          (mapGet m "temperature_vitrification" = some s ∧ isDecimalInteger s = false)) →
        entry.Base.SofteningTemp = 0) ∧
      (∀ s, (mapGet m "hot_plate_temp" = none ∨
          (mapGet m "hot_plate_temp" = some s ∧ isDecimalInteger s = false)) →
        entry.Base.DryingTemp = 0) ∧
      (∀ s, (mapGet m "slow_down_layer_time" = none ∨
          (mapGet m "slow_down_layer_time" = some s ∧ isDecimalInteger s = false)) →
        entry.Base.DryingTime = 0) ∧
      (∀ s, (mapGet m "filament_shrink" = none ∨
          (mapGet m "filament_shrink" = some s ∧
            isDecimalInteger (TrimSuffix s "%") = false)) →
        entry.Base.ShrinkageRate = 0) ∧
      (mapGet m "filament_density" = none → entry.Base.Density = {}) ∧
      (mapGet m "filament_soluble" = none → entry.Base.IsSoluble = false) ∧
      (mapGet m "filament_is_support" = none → entry.Base.IsSupport = false) := by
  obtain ⟨entry, he, h⟩ := ConvertToCrealityFormat_of_marshal lib m notes bytes hm
  obtain ⟨entry', he', hb⟩ := ConvertToCrealityFormat_base lib m notes bytes hm
  have hee := ConvertToCrealityFormat_unique lib m notes entry' entry he' he
  subst hee
  have hempty : Atoi "" = none := by decide
  have key : ∀ (k s : String), (mapGet m k = none ∨
      (mapGet m k = some s ∧ isDecimalInteger s = false)) →
      atoiOrZero (assignKVParam m k) = 0 := by
    intro k s hk
    rcases hk with hk | ⟨hk, hd⟩
    · rw [assignKVParam_of_absent m k hk]
      exact atoiOrZero_of_none _ hempty
    · rw [assignKVParam_of_present m k s hk]
      exact atoiOrZero_of_none _ (Atoi_eq_none_of_not_decimal s hd)
  refine ⟨entry', he', ?_, ?_, ?_, ?_, ?_, ?_, ?_, ?_, ?_, ?_⟩
  · intro s hs; rw [h.2.2.2.2.2.2.2.1]; exact key _ s hs
  · intro s hs; rw [h.2.2.2.2.2.2.2.2.1]; exact key _ s hs
  · intro s hs; rw [h.2.2.2.2.2.2.2.2.2.1]; exact key _ s hs
  · intro s hs; rw [h.2.2.2.2.2.2.2.2.2.2.1]; exact key _ s hs
  · intro s hs; rw [h.2.2.2.2.2.2.2.2.2.2.2.1]; exact key _ s hs
  · intro s hs; rw [h.2.2.2.2.2.2.2.2.2.2.2.2.1]; exact key _ s hs
  · intro s hs
    rw [hb.2.2.2.1]
    rcases hs with hk | ⟨hk, hd⟩
    · rw [assignKVParam_of_absent m _ hk]
      exact atoiOrZero_of_none _ (by decide)
    · rw [assignKVParam_of_present m _ s hk]
      exact atoiOrZero_of_none _ (Atoi_eq_none_of_not_decimal _ hd)
  · intro hk
    rw [hb.2.2.1, assignKVParam_of_absent m _ hk, hpf]
  · intro hk
    rw [hb.1, assignKVParam_of_absent m _ hk]
    decide
  · intro hk
    rw [hb.2.1, assignKVParam_of_absent m _ hk]
    decide

/-- Witness for the amended C21: the empty map. -/
theorem ConvertToCrealityFormat_zero_defaults_witness :
    exampleLib.jsonMarshalNotes { ID := "F1", Vendor := "Acme", Type_ := "PLA", Name := "RedPLA" }
      = some "\x7b\"id\":\"F1\",\"vendor\":\"Acme\",\"type\":\"PLA\",\"name\":\"RedPLA\"\x7d" ∧
    exampleLib.ParseFloat "" = none ∧
    ∃ entry, ConvertToCrealityFormat exampleLib []
        { ID := "F1", Vendor := "Acme", Type_ := "PLA", Name := "RedPLA" } = some entry ∧
      entry.Base.CostPerMeter = 0 ∧ entry.Base.Density = {} ∧ entry.Base.IsSoluble = false :=
  ⟨by decide, by decide,
   (ConvertToCrealityFormat_zero_defaults exampleLib []
      { ID := "F1", Vendor := "Acme", Type_ := "PLA", Name := "RedPLA" }
      "\x7b\"id\":\"F1\",\"vendor\":\"Acme\",\"type\":\"PLA\",\"name\":\"RedPLA\"\x7d"
      (by decide) (by decide)).imp
     (fun _ h => ⟨h.1, h.2.1 "" (Or.inl rfl), h.2.2.2.2.2.2.2.2.1 rfl,
       h.2.2.2.2.2.2.2.2.2.1 rfl⟩)⟩

/-- C22 as stated fails beyond the range of `int`: the decimal form of
9223372036854775808 followed by `%` gives `ShrinkageRate = 0`. -/
theorem ConvertToCrealityFormat_shrink_out_of_range :
    (ConvertToCrealityFormat exampleLib
        [("filament_shrink", toString (9223372036854775808 : Int) ++ "%")]
        { ID := "F1", Vendor := "Acme", Type_ := "PLA", Name := "RedPLA" }).map
        (fun entry => entry.Base.ShrinkageRate) = some 0 := by
  decide

/-- C22, amended. For an integer `n` within the range of a 64-bit `int`, the
decimal form of `n` followed by `%` under `filament_shrink` gives
`ShrinkageRate = n`; a text `t` that is not a decimal integer, followed by
`%`, gives `0`. -/
theorem ConvertToCrealityFormat_shrink_percent (lib : StdLib) (m : List (String × String))
    (notes : FilamentNotes) (bytes : String) (n : Int)
    (hm : lib.jsonMarshalNotes notes = some bytes)
    (hlo : -(2 ^ 63) ≤ n) (hhi : n < 2 ^ 63) :
    ∃ entry, ConvertToCrealityFormat lib m notes = some entry ∧
      (mapGet m "filament_shrink" = some (toString n ++ "%") →
        entry.Base.ShrinkageRate = n) ∧
      (∀ t, isDecimalInteger t = false → mapGet m "filament_shrink" = some (t ++ "%") →
        entry.Base.ShrinkageRate = 0) := by
  obtain ⟨entry, he, hb⟩ := ConvertToCrealityFormat_base lib m notes bytes hm
  refine ⟨entry, he, ?_, ?_⟩
  · intro hk
    rw [hb.2.2.2.1, assignKVParam_of_present m _ _ hk, TrimSuffix_append]
    exact atoiOrZero_of_some _ _ (Atoi_toString n hlo hhi)
  · intro t ht hk
    rw [hb.2.2.2.1, assignKVParam_of_present m _ _ hk, TrimSuffix_append]
    exact atoiOrZero_of_none _ (Atoi_eq_none_of_not_decimal t ht)

/-- Witness for the amended C22: `"12%"` gives 12 and `"abc%"` gives 0. -/
theorem ConvertToCrealityFormat_shrink_percent_witness :
    exampleLib.jsonMarshalNotes { ID := "F1", Vendor := "Acme", Type_ := "PLA", Name := "RedPLA" }
      = some "\x7b\"id\":\"F1\",\"vendor\":\"Acme\",\"type\":\"PLA\",\"name\":\"RedPLA\"\x7d" ∧
    -(2 ^ 63) ≤ (12 : Int) ∧ (12 : Int) < 2 ^ 63 ∧
    mapGet [("filament_shrink", "12%")] "filament_shrink" = some (toString (12 : Int) ++ "%") ∧
    (∃ entry, ConvertToCrealityFormat exampleLib [("filament_shrink", "12%")]
        { ID := "F1", Vendor := "Acme", Type_ := "PLA", Name := "RedPLA" } = some entry ∧
      entry.Base.ShrinkageRate = 12) ∧
    isDecimalInteger "abc" = false ∧
    (∃ entry, ConvertToCrealityFormat exampleLib [("filament_shrink", "abc%")]
        { ID := "F1", Vendor := "Acme", Type_ := "PLA", Name := "RedPLA" } = some entry ∧
      entry.Base.ShrinkageRate = 0) :=
  ⟨by decide, by decide, by decide, by decide,
   (ConvertToCrealityFormat_shrink_percent exampleLib [("filament_shrink", "12%")]
      { ID := "F1", Vendor := "Acme", Type_ := "PLA", Name := "RedPLA" }
      "\x7b\"id\":\"F1\",\"vendor\":\"Acme\",\"type\":\"PLA\",\"name\":\"RedPLA\"\x7d" 12
      (by decide) (by decide) (by decide)).imp (fun _ h => ⟨h.1, h.2.1 (by decide)⟩),
   by decide,
   (ConvertToCrealityFormat_shrink_percent exampleLib [("filament_shrink", "abc%")]
      { ID := "F1", Vendor := "Acme", Type_ := "PLA", Name := "RedPLA" }
      "\x7b\"id\":\"F1\",\"vendor\":\"Acme\",\"type\":\"PLA\",\"name\":\"RedPLA\"\x7d" 12
      (by decide) (by decide) (by decide)).imp
     (fun _ h => ⟨h.1, h.2.2 "abc" (by decide) (by decide)⟩)⟩

/-- C23. `IsSoluble` is true exactly when the map holds the string `"1"` under
`filament_soluble`, and `IsSupport` exactly when it holds `"1"` under
`filament_is_support`; any other value, or none, gives false. -/
theorem ConvertToCrealityFormat_flags (lib : StdLib) (m : List (String × String))
    (notes : FilamentNotes) (bytes : String)
    (hm : lib.jsonMarshalNotes notes = some bytes) :
    ∃ entry, ConvertToCrealityFormat lib m notes = some entry ∧
      (entry.Base.IsSoluble = true ↔ mapGet m "filament_soluble" = some "1") ∧
      (entry.Base.IsSupport = true ↔ mapGet m "filament_is_support" = some "1") := by
  obtain ⟨entry, he, hb⟩ := ConvertToCrealityFormat_base lib m notes bytes hm
  have key : ∀ k : String, (decide (assignKVParam m k = "1") = true ↔ mapGet m k = some "1") := by
    intro k
    cases hk : mapGet m k with
    | none => simp [assignKVParam, hk]
    | some v => simp [assignKVParam, hk]
  refine ⟨entry, he, ?_, ?_⟩
  · rw [hb.1]; exact key _
  · rw [hb.2.1]; exact key _

/-- Witness for C23: `"1"` under one key and `"true"` under the other. -/
theorem ConvertToCrealityFormat_flags_witness :
    exampleLib.jsonMarshalNotes { ID := "F1", Vendor := "Acme", Type_ := "PLA", Name := "RedPLA" }
      = some "\x7b\"id\":\"F1\",\"vendor\":\"Acme\",\"type\":\"PLA\",\"name\":\"RedPLA\"\x7d" ∧
    ∃ entry, ConvertToCrealityFormat exampleLib
        [("filament_soluble", "1"), ("filament_is_support", "true")]
        { ID := "F1", Vendor := "Acme", Type_ := "PLA", Name := "RedPLA" } = some entry ∧
      entry.Base.IsSoluble = true ∧ ¬ entry.Base.IsSupport = true :=
  ⟨by decide,
   (ConvertToCrealityFormat_flags exampleLib
      [("filament_soluble", "1"), ("filament_is_support", "true")]
      { ID := "F1", Vendor := "Acme", Type_ := "PLA", Name := "RedPLA" }
      "\x7b\"id\":\"F1\",\"vendor\":\"Acme\",\"type\":\"PLA\",\"name\":\"RedPLA\"\x7d"
      (by decide)).imp
     (fun _ h => ⟨h.1, h.2.1.mpr (by decide), fun hs => absurd (h.2.2.mp hs) (by decide)⟩)⟩

/-- C24. The converted entry has `PrinterIntName = "F008"` and
`NozzleDiameter = ["0.4"]`, whatever the map and the block are. -/
theorem ConvertToCrealityFormat_constants (lib : StdLib) (m : List (String × String))
    (notes : FilamentNotes) (bytes : String)
    (hm : lib.jsonMarshalNotes notes = some bytes) :
    ∃ entry, ConvertToCrealityFormat lib m notes = some entry ∧
      entry.PrinterIntName = "F008" ∧ entry.NozzleDiameter = ["0.4"] := by
  obtain ⟨entry, he, h⟩ := ConvertToCrealityFormat_of_marshal lib m notes bytes hm
  exact ⟨entry, he, h.2.1, h.2.2.1⟩

/-- Witness for C24: a map that names other hardware. -/
theorem ConvertToCrealityFormat_constants_witness :
    exampleLib.jsonMarshalNotes { ID := "F1", Vendor := "Acme", Type_ := "PLA", Name := "RedPLA" }
      = some "\x7b\"id\":\"F1\",\"vendor\":\"Acme\",\"type\":\"PLA\",\"name\":\"RedPLA\"\x7d" ∧
    ∃ entry, ConvertToCrealityFormat exampleLib
        [("printerIntName", "K1"), ("nozzleDiameter", "0.6"), ("nozzle_diameter", "0.6")]
        { ID := "F1", Vendor := "Acme", Type_ := "PLA", Name := "RedPLA" } = some entry ∧
      entry.PrinterIntName = "F008" ∧ entry.NozzleDiameter = ["0.4"] :=
  ⟨by decide,
   ConvertToCrealityFormat_constants exampleLib
     [("printerIntName", "K1"), ("nozzleDiameter", "0.6"), ("nozzle_diameter", "0.6")]
     { ID := "F1", Vendor := "Acme", Type_ := "PLA", Name := "RedPLA" }
     "\x7b\"id\":\"F1\",\"vendor\":\"Acme\",\"type\":\"PLA\",\"name\":\"RedPLA\"\x7d"
     (by decide)⟩

/-- C27. A round of the loop on a profile for which normalization or
conversion returns an error leaves both stores as they were; a profile with
an empty carrier, in particular, leaves empty stores empty. -/
theorem processProfile_failed_profile (lib : StdLib) (currentTimestamp : String)
    (materialDB : MaterialDatabase) (materialOptions : MaterialOptions)
    (slicerProfile : SlicerFilamentProfile)
    (h : NormalizeSlicerProfile lib slicerProfile = none ∨
      ∃ normalizedData notes,
        NormalizeSlicerProfile lib slicerProfile = some (normalizedData, notes) ∧
        ConvertToCrealityFormat lib normalizedData notes = none) :
    processProfile lib currentTimestamp materialDB materialOptions (some slicerProfile)
      = some (materialDB, materialOptions) ∧
    (slicerProfile.FilamentNotes = [] →
      processProfile lib currentTimestamp { Result := { List := [], Count := 0 } } (some [])
        (some slicerProfile)
        = some ({ Result := { List := [], Count := 0 } }, some [])) := by
  constructor
  · rcases h with h | ⟨normalizedData, notes, hn, hc⟩
    · simp [processProfile, h]
    · simp [processProfile, hn, hc]
  · intro hfn
    have hn : NormalizeSlicerProfile lib slicerProfile = none := by
      unfold NormalizeSlicerProfile
      simp [hfn]
    simp [processProfile, hn]

/-- Witness for C27: a profile without carrier against one stored entry. -/
theorem processProfile_failed_profile_witness :
    (NormalizeSlicerProfile exampleLib { Name := "P", FilamentNotes := [] } = none ∨
      ∃ normalizedData notes,
        NormalizeSlicerProfile exampleLib { Name := "P", FilamentNotes := [] }
          = some (normalizedData, notes) ∧
        ConvertToCrealityFormat exampleLib normalizedData notes = none) ∧
    processProfile exampleLib "1700000000"
        { Result := { List := [{ Base := { ID := "A" } }], Count := 1 } }
        (some [("Acme", some [("PLA", "RedPLA")])])
        (some { Name := "P", FilamentNotes := [] })
      = some ({ Result := { List := [{ Base := { ID := "A" } }], Count := 1 } },
              some [("Acme", some [("PLA", "RedPLA")])]) :=
  ⟨Or.inl (by decide),
   (processProfile_failed_profile exampleLib "1700000000"
      { Result := { List := [{ Base := { ID := "A" } }], Count := 1 } }
      (some [("Acme", some [("PLA", "RedPLA")])])
      { Name := "P", FilamentNotes := [] } (Or.inl (by decide))).1⟩

/-- C28. A profile whose raw field `filament_density` is `["1.24"]` and whose
carrier decodes to the block (F1, Acme, PLA, RedPLA) normalizes and converts
to an entry with `Base.Density` the float64 1.24 (bit pattern
`0x3FF3D70A3D70A3D7`, as the library reads the text `1.24`),
`Base.Brand = "Acme"` and `Base.ID = "F1"`; merged into a store with an empty
list (whatever its count, `0` included) it gives a list of length 1 and
`Count = 1`. -/
theorem pipeline_scenario (lib : StdLib) (p : SlicerFilamentProfile)
    (first : String) (rest : List String) (bytes version : String) (db : MaterialDatabase)
    (hkeys : (p.RawData.map Prod.fst).Nodup)
    (hmem : ("filament_density", JSON.array [JSON.string "1.24"]) ∈ p.RawData)
    (hcar : p.FilamentNotes = first :: rest) (hne : first ≠ "")
    (hparse : lib.jsonUnmarshalNotes (Trim first "\"")
      = some { ID := "F1", Vendor := "Acme", Type_ := "PLA", Name := "RedPLA" })
    (hm : lib.jsonMarshalNotes { ID := "F1", Vendor := "Acme", Type_ := "PLA", Name := "RedPLA" }
      = some bytes)
    (hpf : lib.ParseFloat "1.24" = some { bits := 4608263282710586327 })
    (hlist : db.Result.List = []) :
    ∃ normalizedData entry,
      NormalizeSlicerProfile lib p
        = some (normalizedData,
            { ID := "F1", Vendor := "Acme", Type_ := "PLA", Name := "RedPLA" }) ∧
      ConvertToCrealityFormat lib normalizedData
          { ID := "F1", Vendor := "Acme", Type_ := "PLA", Name := "RedPLA" } = some entry ∧
      entry.Base.Density = { bits := 4608263282710586327 } ∧
      entry.Base.Brand = "Acme" ∧
      entry.Base.ID = "F1" ∧
      (AddProfileToDatabase db entry version).Result.List.length = 1 ∧
      (AddProfileToDatabase db entry version).Result.Count = 1 := by
  have hn := NormalizeSlicerProfile_of_parse lib p first rest _ hcar hne hparse
  obtain ⟨entry, he, h⟩ := ConvertToCrealityFormat_of_marshal lib _ _ bytes hm
  obtain ⟨entry', he', hb⟩ := ConvertToCrealityFormat_base lib _ _ bytes hm
  have hee := ConvertToCrealityFormat_unique lib _ _ entry' entry he' he
  subst hee
  have hd := NormalizeSlicerProfile_mapGet_raw lib p _ _ "filament_density" _ hn hkeys hmem
    (by decide) (by decide)
  have hflat : flattenValue lib (JSON.array [JSON.string "1.24"]) = "1.24" := rfl
  rw [hflat] at hd
  have hloop : replaceLoop entry' db.Result.List = ([], false) := by
    rw [hlist]
    rfl
  refine ⟨_, entry', hn, he', ?_, h.2.2.2.2.1, h.2.2.2.1, ?_, ?_⟩
  · rw [hb.2.2.1, assignKVParam_of_present _ _ _ hd, hpf]
  · rw [AddProfileToDatabase_list, hloop]
    simp
  · rw [AddProfileToDatabase_count, hloop]
    simp

/-- Witness for C28: the scenario's profile and an empty store. -/
theorem pipeline_scenario_witness :
    exampleLib.jsonUnmarshalNotes
        (Trim "\x7b\"id\":\"F1\",\"vendor\":\"Acme\",\"type\":\"PLA\",\"name\":\"RedPLA\"\x7d" "\"")
      = some { ID := "F1", Vendor := "Acme", Type_ := "PLA", Name := "RedPLA" } ∧
    exampleLib.ParseFloat "1.24" = some { bits := 4608263282710586327 } ∧
    ∃ normalizedData entry,
      NormalizeSlicerProfile exampleLib
          { Name := "Red", Version := "1",
            FilamentNotes :=
              ["\x7b\"id\":\"F1\",\"vendor\":\"Acme\",\"type\":\"PLA\",\"name\":\"RedPLA\"\x7d"],
            RawData := [("filament_density", .array [.string "1.24"]),
                        ("name", .string "Red")] }
        = some (normalizedData,
            { ID := "F1", Vendor := "Acme", Type_ := "PLA", Name := "RedPLA" }) ∧
      ConvertToCrealityFormat exampleLib normalizedData
          { ID := "F1", Vendor := "Acme", Type_ := "PLA", Name := "RedPLA" } = some entry ∧
      entry.Base.Density = { bits := 4608263282710586327 } ∧
      entry.Base.Brand = "Acme" ∧
      entry.Base.ID = "F1" ∧
      (AddProfileToDatabase { Result := { List := [], Count := 0 } } entry "1700000000"
        ).Result.List.length = 1 ∧
      (AddProfileToDatabase { Result := { List := [], Count := 0 } } entry "1700000000"
        ).Result.Count = 1 :=
  ⟨by decide, by decide,
   pipeline_scenario exampleLib
     { Name := "Red", Version := "1",
       FilamentNotes :=
         ["\x7b\"id\":\"F1\",\"vendor\":\"Acme\",\"type\":\"PLA\",\"name\":\"RedPLA\"\x7d"],
       RawData := [("filament_density", .array [.string "1.24"]),
                   ("name", .string "Red")] }
     "\x7b\"id\":\"F1\",\"vendor\":\"Acme\",\"type\":\"PLA\",\"name\":\"RedPLA\"\x7d" []
     "\x7b\"id\":\"F1\",\"vendor\":\"Acme\",\"type\":\"PLA\",\"name\":\"RedPLA\"\x7d"
     "1700000000" { Result := { List := [], Count := 0 } }
     (by decide) (List.mem_cons_self _ _) rfl (by decide) (by decide) (by decide) (by decide)
     rfl⟩

/-- C29. In every converted entry the integer base fields are the integer
parse (or `0`) of the corresponding parameter strings of the same entry, the
shrinkage after one trailing `%` is stripped, and `WeightPerMeter` and `Rank`
are `0`. -/
theorem ConvertToCrealityFormat_numeric_from_params (lib : StdLib)
    (m : List (String × String)) (notes : FilamentNotes) (entry : FilamentProfileEntry)
    (hconv : ConvertToCrealityFormat lib m notes = some entry) :
    entry.Base.CostPerMeter = atoiOrZero entry.KVParam.FilamentCost ∧
    entry.Base.MinTemp = atoiOrZero entry.KVParam.NozzleTemperatureRangeLow ∧
    entry.Base.MaxTemp = atoiOrZero entry.KVParam.NozzleTemperatureRangeHigh ∧
    entry.Base.ShrinkageRate = atoiOrZero (TrimSuffix entry.KVParam.FilamentShrink "%") ∧
    entry.Base.SofteningTemp = atoiOrZero entry.KVParam.TemperatureVitrification ∧
    entry.Base.DryingTemp = atoiOrZero entry.KVParam.HotPlateTemp ∧
    entry.Base.DryingTime = atoiOrZero entry.KVParam.SlowDownLayerTime ∧
    entry.Base.WeightPerMeter = 0 ∧
    entry.Base.Rank = 0 ∧
    (∀ s, atoiOrZero s = (match Atoi s with | some v => v | none => 0)) := by
  obtain ⟨bytes, hm⟩ := ConvertToCrealityFormat_marshalled lib m notes entry hconv
  obtain ⟨e1, he1, h⟩ := ConvertToCrealityFormat_of_marshal lib m notes bytes hm
  obtain ⟨e2, he2, hb⟩ := ConvertToCrealityFormat_base lib m notes bytes hm
  have h1 := ConvertToCrealityFormat_unique lib m notes e1 entry he1 hconv
  have h2 := ConvertToCrealityFormat_unique lib m notes e2 entry he2 hconv
  subst h1
  subst h2
  refine ⟨?_, ?_, ?_, ?_, ?_, ?_, ?_, hb.2.2.2.2.1, hb.2.2.2.2.2.1, fun s => rfl⟩
  · rw [h.2.2.2.2.2.2.2.1, hb.2.2.2.2.2.2.1]
  · rw [h.2.2.2.2.2.2.2.2.1, hb.2.2.2.2.2.2.2.1]
  · rw [h.2.2.2.2.2.2.2.2.2.1, hb.2.2.2.2.2.2.2.2.1]
  · rw [hb.2.2.2.1, hb.2.2.2.2.2.2.2.2.2.1]
  · rw [h.2.2.2.2.2.2.2.2.2.2.1, hb.2.2.2.2.2.2.2.2.2.2.1]
  · rw [h.2.2.2.2.2.2.2.2.2.2.2.1, hb.2.2.2.2.2.2.2.2.2.2.2.1]
  · rw [h.2.2.2.2.2.2.2.2.2.2.2.2.1, hb.2.2.2.2.2.2.2.2.2.2.2.2]

/-- Witness for C29: an entry converted from a map with a cost and a
shrinkage. -/
theorem ConvertToCrealityFormat_numeric_from_params_witness :
    ∃ entry,
      ConvertToCrealityFormat exampleLib [("filament_cost", "25"), ("filament_shrink", "3%")]
          { ID := "F1", Vendor := "Acme", Type_ := "PLA", Name := "RedPLA" } = some entry ∧
      entry.Base.CostPerMeter = atoiOrZero entry.KVParam.FilamentCost ∧
      entry.Base.ShrinkageRate = atoiOrZero (TrimSuffix entry.KVParam.FilamentShrink "%") :=
  match hc : ConvertToCrealityFormat exampleLib
      [("filament_cost", "25"), ("filament_shrink", "3%")]
      { ID := "F1", Vendor := "Acme", Type_ := "PLA", Name := "RedPLA" } with
  | some entry =>
    ⟨entry, rfl,
     (ConvertToCrealityFormat_numeric_from_params exampleLib
        [("filament_cost", "25"), ("filament_shrink", "3%")]
        { ID := "F1", Vendor := "Acme", Type_ := "PLA", Name := "RedPLA" } entry hc).1,
     (ConvertToCrealityFormat_numeric_from_params exampleLib
        [("filament_cost", "25"), ("filament_shrink", "3%")]
        { ID := "F1", Vendor := "Acme", Type_ := "PLA", Name := "RedPLA" } entry hc).2.2.2.1⟩
  | none => absurd hc (by decide)

/-- C30. For every parameter field filled by lookup alone, the source key of
the lookup is the field's JSON name: the table of source keys is the table of
the `json` tags without `filament_notes`, `filament_type` and
`filament_vendor`. Hence each of those fields of a converted entry holds the
value of the normalized map under the field's JSON name, or the empty string
when the map has none. -/
theorem ConvertToCrealityFormat_source_key_is_json_name (lib : StdLib)
    (m : List (String × String)) (notes : FilamentNotes) :
    kvParamSourceKeys
      = kvParamJSONNames.filter (fun fk => decide (fk.2 ∉ overriddenNames)) ∧
    (∀ bytes, lib.jsonMarshalNotes notes = some bytes →
      ∃ entry, ConvertToCrealityFormat lib m notes = some entry ∧
        ∀ fk ∈ kvParamJSONNames, fk.2 ∉ overriddenNames →
          fk.1 entry.KVParam
            = (match mapGet m fk.2 with
               | some v => v
               | none => "")) := by
  have htab : kvParamSourceKeys
      = kvParamJSONNames.filter (fun fk => decide (fk.2 ∉ overriddenNames)) := by
    rfl
  refine ⟨htab, ?_⟩
  intro bytes hm
  obtain ⟨entry, he, h⟩ := ConvertToCrealityFormat_of_marshal lib m notes bytes hm
  refine ⟨entry, he, ?_⟩
  intro fk hfk hname
  have hin : fk ∈ kvParamSourceKeys := by
    rw [htab, List.mem_filter]
    exact ⟨hfk, by simpa using hname⟩
  have hv := h.2.2.2.2.2.2.2.2.2.2.2.2.2.2.2.2 fk hin
  rw [hv]
  rfl

/-- Witness for C30: a map holding one of the target names. -/
theorem ConvertToCrealityFormat_source_key_is_json_name_witness :
    exampleLib.jsonMarshalNotes { ID := "F1", Vendor := "Acme", Type_ := "PLA", Name := "RedPLA" }
      = some "\x7b\"id\":\"F1\",\"vendor\":\"Acme\",\"type\":\"PLA\",\"name\":\"RedPLA\"\x7d" ∧
    ∃ entry, ConvertToCrealityFormat exampleLib [("fan_max_speed", "100")]
        { ID := "F1", Vendor := "Acme", Type_ := "PLA", Name := "RedPLA" } = some entry ∧
      ∀ fk ∈ kvParamJSONNames, fk.2 ∉ overriddenNames →
        fk.1 entry.KVParam
          = (match mapGet [("fan_max_speed", "100")] fk.2 with
             | some v => v
             | none => "") :=
  ⟨by decide,
   (ConvertToCrealityFormat_source_key_is_json_name exampleLib [("fan_max_speed", "100")]
      { ID := "F1", Vendor := "Acme", Type_ := "PLA", Name := "RedPLA" }).2
     "\x7b\"id\":\"F1\",\"vendor\":\"Acme\",\"type\":\"PLA\",\"name\":\"RedPLA\"\x7d"
     (by decide)⟩

/-! ## Lemmas on the library models -/

theorem hexValue_digitChar : ∀ d : Nat, d < 16 → hexValue (Nat.digitChar d) = some d := by
  decide

theorem hexDigits_two (n : Nat) :
    hexDigits 2 n = [Nat.digitChar (n / 16 % 16), Nat.digitChar (n % 16)] := by
  simp [hexDigits]

theorem hexDigits_four (n : Nat) :
    hexDigits 4 n = [Nat.digitChar (n / 16 / 16 / 16 % 16), Nat.digitChar (n / 16 / 16 % 16),
      Nat.digitChar (n / 16 % 16), Nat.digitChar (n % 16)] := by
  simp [hexDigits]

theorem hexDigits_eight (n : Nat) :
    hexDigits 8 n = [Nat.digitChar (n / 16 / 16 / 16 / 16 / 16 / 16 / 16 % 16),
      Nat.digitChar (n / 16 / 16 / 16 / 16 / 16 / 16 % 16),
      Nat.digitChar (n / 16 / 16 / 16 / 16 / 16 % 16),
      Nat.digitChar (n / 16 / 16 / 16 / 16 % 16),
      Nat.digitChar (n / 16 / 16 / 16 % 16), Nat.digitChar (n / 16 / 16 % 16),
      Nat.digitChar (n / 16 % 16), Nat.digitChar (n % 16)] := by
  simp [hexDigits]

theorem hexRun_two (n : Nat) (h : n < 256) :
    hexRun 0 [Nat.digitChar (n / 16 % 16), Nat.digitChar (n % 16)] = some n := by
  simp only [hexRun, hexValue_digitChar _ (Nat.mod_lt _ (by decide : 0 < 16))]
  congr 1
  omega

theorem hexRun_four (n : Nat) (h : n < 65536) :
    hexRun 0 [Nat.digitChar (n / 16 / 16 / 16 % 16), Nat.digitChar (n / 16 / 16 % 16),
      Nat.digitChar (n / 16 % 16), Nat.digitChar (n % 16)] = some n := by
  simp only [hexRun, hexValue_digitChar _ (Nat.mod_lt _ (by decide : 0 < 16))]
  congr 1
  omega

theorem hexRun_eight (n : Nat) (h : n < 4294967296) :
    hexRun 0 [Nat.digitChar (n / 16 / 16 / 16 / 16 / 16 / 16 / 16 % 16),
      Nat.digitChar (n / 16 / 16 / 16 / 16 / 16 / 16 % 16),
      Nat.digitChar (n / 16 / 16 / 16 / 16 / 16 % 16),
      Nat.digitChar (n / 16 / 16 / 16 / 16 % 16),
      Nat.digitChar (n / 16 / 16 / 16 % 16), Nat.digitChar (n / 16 / 16 % 16),
      Nat.digitChar (n / 16 % 16), Nat.digitChar (n % 16)] = some n := by
  simp only [hexRun, hexValue_digitChar _ (Nat.mod_lt _ (by decide : 0 < 16))]
  congr 1
  omega

theorem char_toNat_lt (c : Char) : c.toNat < 1114112 := by
  have h := c.valid
  have h' : c.val.toNat < 55296 ∨ (57343 < c.val.toNat ∧ c.val.toNat < 1114112) := h
  show c.val.toNat < 1114112
  omega

theorem char_toNat_not_surrogate (c : Char) : c.toNat < 55296 ∨ 57344 ≤ c.toNat := by
  have h := c.valid
  have h' : c.val.toNat < 55296 ∨ (57343 < c.val.toNat ∧ c.val.toNat < 1114112) := h
  show c.val.toNat < 55296 ∨ 57344 ≤ c.val.toNat
  omega

theorem char_eq_of_toNat_eq (c : Char) (n : Nat) (h : c.toNat = n) : Char.ofNat n = c := by
  rw [← h]
  exact Char.ofNat_toNat c

theorem char_eq_of_toNat (c d : Char) (h : c.toNat = d.toNat) : c = d := by
  have h1 := Char.ofNat_toNat c
  have h2 := Char.ofNat_toNat d
  rw [h] at h1
  rw [← h1, h2]

theorem scanStringUnits_escape (c : Char) (tail : List Char) :
    ∃ b, scanStringUnits (jsonEscapeChar c ++ tail)
      = (scanStringUnits tail).map (fun p => ((b, c.toNat) :: p.1, p.2)) := by
  unfold jsonEscapeChar
  by_cases h1 : c = '"'
  · subst h1; exact ⟨false, by rw [scanStringUnits.eq_def]; simp⟩
  by_cases h2 : c = '\\'
  · subst h2; exact ⟨false, by rw [scanStringUnits.eq_def]; simp⟩
  by_cases h3 : c = Char.ofNat 8
  · subst h3; exact ⟨false, by rw [scanStringUnits.eq_def]; simp⟩
  by_cases h4 : c = Char.ofNat 12
  · subst h4; exact ⟨false, by rw [scanStringUnits.eq_def]; simp⟩
  by_cases h5 : c = '\n'
  · subst h5; exact ⟨false, by rw [scanStringUnits.eq_def]; simp⟩
  by_cases h6 : c = '\r'
  · subst h6; exact ⟨false, by rw [scanStringUnits.eq_def]; simp⟩
  by_cases h7 : c = '\t'
  · subst h7; exact ⟨false, by rw [scanStringUnits.eq_def]; simp⟩
  simp only [h1, h2, h3, h4, h5, h6, h7, if_false]
  have hu : ∀ (n : Nat), n < 65536 →
      scanStringUnits ('\\' :: 'u' :: hexDigits 4 n ++ tail)
        = (scanStringUnits tail).map (fun p => ((true, n) :: p.1, p.2)) := by
    intro n hn
    rw [hexDigits_four, scanStringUnits.eq_def]
    simp [hexRun_four n hn]
  by_cases h8 : c.toNat < 32 ∨ c = '<' ∨ c = '>' ∨ c = '&'
  · rw [if_pos h8]
    refine ⟨true, hu c.toNat ?_⟩
    rcases h8 with h | h | h | h
    · omega
    · subst h; decide
    · subst h; decide
    · subst h; decide
  · rw [if_neg h8]
    by_cases h9 : c = Char.ofNat 8232 ∨ c = Char.ofNat 8233
    · rw [if_pos h9]
      refine ⟨true, hu c.toNat ?_⟩
      rcases h9 with h | h
      · subst h; decide
      · subst h; decide
    · rw [if_neg h9]
      refine ⟨false, ?_⟩
      have hge : ¬ c.toNat < 32 := fun h => h8 (Or.inl h)
      rw [scanStringUnits.eq_def]
      simp [h1, h2, hge]

theorem scanStringUnits_quoted (cs tail : List Char) :
    ∃ units, scanStringUnits (cs.flatMap jsonEscapeChar ++ '"' :: tail) = some (units, tail) ∧
      units.map Prod.snd = cs.map Char.toNat := by
  induction cs with
  | nil => exact ⟨[], by rw [scanStringUnits.eq_def]; simp, rfl⟩
  | cons c cs ih =>
    obtain ⟨units, hu, hmap⟩ := ih
    obtain ⟨b, hb⟩ := scanStringUnits_escape c (cs.flatMap jsonEscapeChar ++ '"' :: tail)
    refine ⟨(b, c.toNat) :: units, ?_, by simp [hmap]⟩
    rw [List.flatMap_cons, List.append_assoc, hb, hu]
    rfl

theorem decodeUnits_of_chars (cs : List Char) :
    ∀ units : List (Bool × Nat), units.map Prod.snd = cs.map Char.toNat →
      decodeUnits none units = cs := by
  induction cs with
  | nil =>
    intro units h
    have : units = [] := by simpa using h
    subst this
    rfl
  | cons c cs ih =>
    intro units h
    cases units with
    | nil => simp at h
    | cons unit rest =>
      simp only [List.map_cons, List.cons.injEq] at h
      obtain ⟨hc, hrest⟩ := h
      have hns := char_toNat_not_surrogate c
      have h1 : ¬ (unit.1 = true ∧ 55296 ≤ unit.2 ∧ unit.2 < 56320) := by
        rw [hc]; omega
      have h2 : ¬ (unit.1 = true ∧ 56320 ≤ unit.2 ∧ unit.2 < 57344) := by
        rw [hc]; omega
      simp only [decodeUnits, h1, h2, if_false, flushSurrogate, List.nil_append]
      rw [ih rest hrest, hc, Char.ofNat_toNat]

theorem scanString_quoted (cs tail : List Char) :
    scanString (cs.flatMap jsonEscapeChar ++ '"' :: tail) = some (cs, tail) := by
  obtain ⟨units, hu, hmap⟩ := scanStringUnits_quoted cs tail
  unfold scanString
  rw [hu]
  simp [decodeUnits_of_chars cs units hmap]

theorem scanValue_string (fuel depth : Nat) (v tail : List Char) :
    scanValue (fuel + 1) depth (quotedThen v tail)
      = some ({ kind := .string (String.mk v) }, tail) := by
  have hs := scanString_quoted v tail
  rw [scanValue.eq_def]
  simp [quotedThen, skipSpace, hs]

theorem skipSpace_quotedThen (v tail : List Char) :
    skipSpace (quotedThen v tail) = quotedThen v tail := by
  simp [quotedThen, skipSpace]

theorem scanMembers_quotedThen (fuel depth : Nat) (k rest : List Char) :
    scanMembers (fuel + 1) depth (quotedThen k (':' :: rest))
      = (match scanValue fuel depth rest with
        | none => none
        | some (value, afterValue) =>
          match skipSpace afterValue with
          | [] => none
          | sep :: afterSep =>
            if sep = ',' then
              match scanMembers fuel depth (skipSpace afterSep) with
              | some (members, after) => some ((String.mk k, value.kind) :: members, after)
              | none => none
            else if sep = '\x7d' then some ([(String.mk k, value.kind)], afterSep)
            else none) := by
  have hk := scanString_quoted k (':' :: rest)
  rw [scanMembers.eq_def]
  simp [quotedThen, skipSpace, hk]

theorem scanMembers_last (fuel depth : Nat) (k v tail : List Char) :
    scanMembers (fuel + 2) depth (quotedThen k (':' :: quotedThen v ('\x7d' :: tail)))
      = some ([(String.mk k, .string (String.mk v))], tail) := by
  rw [scanMembers_quotedThen, scanValue_string]
  simp [skipSpace]

theorem scanMembers_more (fuel depth : Nat) (k v k2 tail : List Char) :
    scanMembers (fuel + 2) depth (quotedThen k (':' :: quotedThen v (',' :: quotedThen k2 tail)))
      = (scanMembers (fuel + 1) depth (quotedThen k2 tail)).map
          (fun p => ((String.mk k, .string (String.mk v)) :: p.1, p.2)) := by
  rw [scanMembers_quotedThen, scanValue_string]
  have hsp : skipSpace (',' :: quotedThen k2 tail) = ',' :: quotedThen k2 tail := by
    simp [skipSpace]
  simp only [hsp, skipSpace_quotedThen, if_true]
  cases scanMembers (fuel + 1) depth (quotedThen k2 tail) <;> rfl

theorem goMarshalNotes_data (notes : FilamentNotes) :
    (goMarshalNotes notes).data
      = '\x7b' :: quotedThen ['i', 'd'] (':' :: quotedThen notes.ID.data (','
        :: quotedThen ['v', 'e', 'n', 'd', 'o', 'r'] (':' :: quotedThen notes.Vendor.data (','
        :: quotedThen ['t', 'y', 'p', 'e'] (':' :: quotedThen notes.Type_.data (','
        :: quotedThen ['n', 'a', 'm', 'e'] (':' :: quotedThen notes.Name.data ['\x7d']))))))) := by
  simp [goMarshalNotes, jsonQuoteChars, jsonEscapeChar, quotedThen]

theorem scanValue_object (fuel : Nat) (k tail : List Char) :
    scanValue (fuel + 1) 0 ('\x7b' :: quotedThen k tail)
      = (match scanMembers fuel 1 (quotedThen k tail) with
        | some (members, after) => some ({ kind := .object, members := members }, after)
        | none => none) := by
  rw [scanValue.eq_def]
  simp [skipSpace, quotedThen]

theorem scanValue_marshalled (fuel : Nat) (notes : FilamentNotes) :
    scanValue (fuel + 6) 0 (goMarshalNotes notes).data
      = some ({ kind := .object,
                members := [("id", .string notes.ID), ("vendor", .string notes.Vendor),
                  ("type", .string notes.Type_), ("name", .string notes.Name)] }, []) := by
  rw [goMarshalNotes_data, scanValue_object, scanMembers_more (fuel + 3),
    scanMembers_more (fuel + 2), scanMembers_more (fuel + 1), scanMembers_last fuel]
  rfl

theorem assignMembers_marshalled (notes : FilamentNotes) :
    assignMembers {} [("id", .string notes.ID), ("vendor", .string notes.Vendor),
      ("type", .string notes.Type_), ("name", .string notes.Name)] = some notes := by
  have h1 : foldKey "id" = "id" := by decide
  have h2 : foldKey "vendor" = "vendor" := by decide
  have h3 : foldKey "type" = "type" := by decide
  have h4 : foldKey "name" = "name" := by decide
  simp [assignMembers, assignMember, h1, h2, h3, h4]

theorem goUnmarshalNotes_goMarshalNotes (notes : FilamentNotes) :
    goUnmarshalNotes (goMarshalNotes notes) = some notes := by
  have hlen : ∃ fuel, (goMarshalNotes notes).data.length + 1 = fuel + 6 := by
    rw [goMarshalNotes_data]
    exact ⟨_, by simp [quotedThen]; rfl⟩
  obtain ⟨fuel, hfuel⟩ := hlen
  unfold goUnmarshalNotes
  rw [hfuel, scanValue_marshalled]
  simp [skipSpace, assignMembers_marshalled]

theorem scalarChar_toNat (c : Char) : scalarChar c.toNat = some c := by
  unfold scalarChar
  have hv : c.toNat.isValidChar := c.valid
  rw [dif_pos hv]
  congr 1

theorem goIsPrint_ne (isPrint : Char → Bool) (c : Char) (h : goIsPrint isPrint c = true) :
    c ≠ '\n' := by
  intro hc
  subst hc
  revert h
  simp [goIsPrint]

theorem unquoteRun_escape (isPrint : Char → Bool) (c : Char) (tail : List Char) :
    unquoteRun .plain (goQuoteChar isPrint c ++ tail)
      = (unquoteRun .plain tail).map (fun p => (c :: p.1, p.2)) := by
  unfold goQuoteChar
  by_cases h1 : c = '"'
  · subst h1; simp [unquoteRun]
  by_cases h2 : c = '\\'
  · subst h2; simp [unquoteRun]
  have h12 : ¬ (c = '"' ∨ c = '\\') := fun h => h.elim h1 h2
  rw [if_neg h12]
  by_cases hp : goIsPrint isPrint c = true
  · rw [if_pos hp]
    simp [unquoteRun, h1, h2, goIsPrint_ne isPrint c hp]
  rw [if_neg hp]
  by_cases h3 : c = Char.ofNat 7
  · subst h3; simp [unquoteRun]
  by_cases h4 : c = Char.ofNat 8
  · subst h4; simp [unquoteRun]
  by_cases h5 : c = Char.ofNat 12
  · subst h5; simp [unquoteRun]
  by_cases h6 : c = '\n'
  · subst h6; simp [unquoteRun]
  by_cases h7 : c = '\r'
  · subst h7; simp [unquoteRun]
  by_cases h8 : c = '\t'
  · subst h8; simp [unquoteRun]
  by_cases h9 : c = Char.ofNat 11
  · subst h9; simp [unquoteRun]
  simp only [h3, h4, h5, h6, h7, h8, h9, if_false]
  by_cases hx : c.toNat < 32 ∨ c.toNat = 127
  · rw [if_pos hx, hexDigits_two]
    have hlt2 : c.toNat < 128 := by omega
    have hval : (c.toNat / 16 % 16) * 16 + c.toNat % 16 = c.toNat := by omega
    simp [unquoteRun, hexValue_digitChar _ (Nat.mod_lt _ (by decide : 0 < 16)), hval, hlt2,
      Char.ofNat_toNat]
  rw [if_neg hx]
  by_cases hu : c.toNat < 65536
  · rw [if_pos hu, hexDigits_four]
    have hval : ((c.toNat / 16 / 16 / 16 % 16 * 16 + c.toNat / 16 / 16 % 16) * 16
        + c.toNat / 16 % 16) * 16 + c.toNat % 16 = c.toNat := by omega
    simp [unquoteRun, hexValue_digitChar _ (Nat.mod_lt _ (by decide : 0 < 16)), hval,
      scalarChar_toNat]
  · rw [if_neg hu, hexDigits_eight]
    have hlt : c.toNat < 4294967296 := by
      have := char_toNat_lt c
      omega
    have hval : ((((((c.toNat / 16 / 16 / 16 / 16 / 16 / 16 / 16 % 16 * 16
        + c.toNat / 16 / 16 / 16 / 16 / 16 / 16 % 16) * 16
        + c.toNat / 16 / 16 / 16 / 16 / 16 % 16) * 16
        + c.toNat / 16 / 16 / 16 / 16 % 16) * 16
        + c.toNat / 16 / 16 / 16 % 16) * 16 + c.toNat / 16 / 16 % 16) * 16
        + c.toNat / 16 % 16) * 16 + c.toNat % 16 = c.toNat := by omega
    simp [unquoteRun, hexValue_digitChar _ (Nat.mod_lt _ (by decide : 0 < 16)), hval,
      scalarChar_toNat]

theorem unquoteRun_quoted (isPrint : Char → Bool) (cs tail : List Char) :
    unquoteRun .plain (cs.flatMap (goQuoteChar isPrint) ++ '"' :: tail) = some (cs, tail) := by
  induction cs with
  | nil => simp [unquoteRun]
  | cons c cs ih =>
    rw [List.flatMap_cons, List.append_assoc, unquoteRun_escape, ih]
    rfl

theorem goUnquote_goQuote (isPrint : Char → Bool) (s : String) :
    goUnquote (goQuote isPrint s) = some s := by
  have h := unquoteRun_quoted isPrint s.data []
  unfold goUnquote goQuote
  simp only [h]
  simp

theorem goQuote_shape (isPrint : Char → Bool) (s : String) :
    (goQuote isPrint s).data.head? = some '"' ∧
    (goQuote isPrint s).data.getLast? = some '"' ∧
    2 ≤ (goQuote isPrint s).data.length := by
  unfold goQuote
  refine ⟨rfl, ?_, ?_⟩
  · simp [List.getLast?_cons, List.getLast?_append]
  · simp

theorem scanValue_goMarshalNotes (notes : FilamentNotes) :
    scanValue ((goMarshalNotes notes).data.length + 1) 0 (goMarshalNotes notes).data
      = some ({ kind := .object,
                members := [("id", .string notes.ID), ("vendor", .string notes.Vendor),
                  ("type", .string notes.Type_), ("name", .string notes.Name)] }, []) := by
  have hlen : ∃ fuel, (goMarshalNotes notes).data.length + 1 = fuel + 6 := by
    rw [goMarshalNotes_data]
    exact ⟨_, by simp [quotedThen]; rfl⟩
  obtain ⟨fuel, hfuel⟩ := hlen
  rw [hfuel, scanValue_marshalled]

theorem ConvertToCrealityFormat_goLib (formatFloat : Float64 → String)
    (ParseFloat : String → Option Float64) (isPrint : Char → Bool)
    (m : List (String × String)) (notes : FilamentNotes) :
    ∃ entry, ConvertToCrealityFormat (goLib formatFloat ParseFloat isPrint) m notes = some entry ∧
      entry.KVParam.FilamentNotes = goQuote isPrint (goMarshalNotes notes) := by
  obtain ⟨entry, he, hrest⟩ := ConvertToCrealityFormat_of_marshal
    (goLib formatFloat ParseFloat isPrint) m notes (goMarshalNotes notes) rfl
  exact ⟨entry, he, hrest.2.2.2.2.2.2.2.2.2.2.2.2.2.1⟩

/-! ## Properties of the embedded notes and totality of the conversion -/

/-- C25: with the library models `goMarshalNotes` (`json.Marshal`) and `goQuote`
(`strconv.Quote`), for every normalized map and every metadata block the
conversion returns an entry whose `KVParam.FilamentNotes` is the quoted form
of the block's JSON serialization. That text begins and ends with a double
quote; unquoting it (`goUnquote`) gives the serialization, which reads as an
object with exactly the members `id`, `vendor`, `type`, `name` carrying the
four strings of the block and which decodes (`goUnmarshalNotes`) to the same
block; and the field is the same for every other normalized map. -/
theorem ConvertToCrealityFormat_embedded_notes (formatFloat : Float64 → String)
    (ParseFloat : String → Option Float64) (isPrint : Char → Bool)
    (m : List (String × String)) (notes : FilamentNotes) :
    ∃ entry,
      ConvertToCrealityFormat (goLib formatFloat ParseFloat isPrint) m notes = some entry ∧
      entry.KVParam.FilamentNotes = goQuote isPrint (goMarshalNotes notes) ∧
      entry.KVParam.FilamentNotes.data.head? = some '"' ∧
      entry.KVParam.FilamentNotes.data.getLast? = some '"' ∧
      2 ≤ entry.KVParam.FilamentNotes.data.length ∧
      goUnquote entry.KVParam.FilamentNotes = some (goMarshalNotes notes) ∧
      scanValue ((goMarshalNotes notes).data.length + 1) 0 (goMarshalNotes notes).data
        = some ({ kind := .object,
                  members := [("id", .string notes.ID), ("vendor", .string notes.Vendor),
                    ("type", .string notes.Type_), ("name", .string notes.Name)] }, []) ∧
      goUnmarshalNotes (goMarshalNotes notes) = some notes ∧
      ∀ m2 : List (String × String), ∃ entry2,
        ConvertToCrealityFormat (goLib formatFloat ParseFloat isPrint) m2 notes = some entry2 ∧
        entry2.KVParam.FilamentNotes = entry.KVParam.FilamentNotes := by
  obtain ⟨entry, he, hq⟩ := ConvertToCrealityFormat_goLib formatFloat ParseFloat isPrint m notes
  have hshape := goQuote_shape isPrint (goMarshalNotes notes)
  refine ⟨entry, he, hq, ?_, ?_, ?_, ?_, scanValue_goMarshalNotes notes,
    goUnmarshalNotes_goMarshalNotes notes, ?_⟩
  · rw [hq]; exact hshape.1
  · rw [hq]; exact hshape.2.1
  · rw [hq]; exact hshape.2.2
  · rw [hq]; exact goUnquote_goQuote isPrint (goMarshalNotes notes)
  · intro m2
    obtain ⟨entry2, he2, hq2⟩ :=
      ConvertToCrealityFormat_goLib formatFloat ParseFloat isPrint m2 notes
    exact ⟨entry2, he2, by rw [hq2, hq]⟩

/-- C26: the conversion has one error return, the one taken when `json.Marshal`
fails: for every library, every normalized map (the empty map and maps with
unparsable numeric strings among them) and every metadata block, it returns
an entry exactly when the serialization of the block succeeds. With the model
`goMarshalNotes` of `json.Marshal`, which returns no error for a block of four
strings, it returns an entry for every map and every block. -/
theorem ConvertToCrealityFormat_total (formatFloat : Float64 → String)
    (ParseFloat : String → Option Float64) (isPrint : Char → Bool)
    (m : List (String × String)) (notes : FilamentNotes) :
    (∃ entry,
      ConvertToCrealityFormat (goLib formatFloat ParseFloat isPrint) m notes = some entry) ∧
    ∀ lib : StdLib,
      (ConvertToCrealityFormat lib m notes).isSome = (lib.jsonMarshalNotes notes).isSome := by
  refine ⟨?_, ?_⟩
  · obtain ⟨entry, he, _⟩ := ConvertToCrealityFormat_of_marshal
      (goLib formatFloat ParseFloat isPrint) m notes (goMarshalNotes notes) rfl
    exact ⟨entry, he⟩
  · intro lib
    cases hm : lib.jsonMarshalNotes notes with
    | none => simp [ConvertToCrealityFormat, hm]
    | some bytes =>
      obtain ⟨entry, he, _⟩ := ConvertToCrealityFormat_of_marshal lib m notes bytes hm
      simp [he]

/-! ## Properties of the normalized map and the frame of UpdateOptions -/

theorem foldl_flattenStep_filament_notes (lib : StdLib) (raw : List (String × JSON)) :
    ∀ acc : List (String × String),
      mapGet (raw.foldl (flattenStep lib) acc) "filament_notes" = mapGet acc "filament_notes" := by
  induction raw with
  | nil => intro acc; rfl
  | cons kv rest ih =>
    intro acc
    rw [List.foldl_cons, ih]
    unfold flattenStep
    split
    · rfl
    · rename_i h
      have hk : "filament_notes" ≠ kv.1 := fun hk => h (Or.inr (Or.inr hk.symm))
      exact mapGet_mapSet_of_ne _ _ _ _ hk

/-- C33: whenever normalization succeeds, the normalized map holds the ID,
Vendor, Type and Name of the returned block under `filament_notes.id`,
`filament_notes.vendor`, `filament_notes.type` and `filament_notes.name`,
whatever the raw document holds under those names, and it has no key
`filament_notes`. -/
theorem NormalizeSlicerProfile_exposes_notes (lib : StdLib) (p : SlicerFilamentProfile)
    (m : List (String × String)) (notes : FilamentNotes)
    (h : NormalizeSlicerProfile lib p = some (m, notes)) :
    mapGet m "filament_notes.id" = some notes.ID ∧
    mapGet m "filament_notes.vendor" = some notes.Vendor ∧
    mapGet m "filament_notes.type" = some notes.Type_ ∧
    mapGet m "filament_notes.name" = some notes.Name ∧
    mapGet m "filament_notes" = none := by
  obtain ⟨first, rest, _, _, _, hm⟩ := NormalizeSlicerProfile_eq_some lib p m notes h
  subst hm
  refine ⟨?_, ?_, ?_, ?_, ?_⟩
  · simp [mapGet_mapSet]
  · simp [mapGet_mapSet]
  · simp [mapGet_mapSet]
  · simp [mapGet_mapSet]
  · simp [mapGet_mapSet, foldl_flattenStep_filament_notes, mapGet]

/-- Witness for C33: the raw document has fields named `filament_notes.id` and
`filament_notes`; the first is overridden, the second is not copied. -/
theorem NormalizeSlicerProfile_exposes_notes_witness :
    NormalizeSlicerProfile exampleLib
        { Name := "P", Version := "1", FilamentNotes := ["\x7b\"id\":\"F1\"\x7d"],
          RawData := [("filament_notes.id", JSON.string "raw"),
            ("filament_notes", JSON.array [JSON.string "x"]),
            ("filament_cost", JSON.string "20")] }
      = some ([("filament_notes.id", "F1"), ("filament_cost", "20"), ("name", "P"),
          ("version", "1"), ("filament_notes.vendor", ""), ("filament_notes.type", ""),
          ("filament_notes.name", "")], { ID := "F1" }) ∧
    mapGet [("filament_notes.id", "F1"), ("filament_cost", "20"), ("name", "P"),
        ("version", "1"), ("filament_notes.vendor", ""), ("filament_notes.type", ""),
        ("filament_notes.name", "")] "filament_notes.id" = some "F1" ∧
    mapGet [("filament_notes.id", "F1"), ("filament_cost", "20"), ("name", "P"),
        ("version", "1"), ("filament_notes.vendor", ""), ("filament_notes.type", ""),
        ("filament_notes.name", "")] "filament_notes" = none :=
  ⟨by decide,
   (NormalizeSlicerProfile_exposes_notes exampleLib
      { Name := "P", Version := "1", FilamentNotes := ["\x7b\"id\":\"F1\"\x7d"],
        RawData := [("filament_notes.id", JSON.string "raw"),
          ("filament_notes", JSON.array [JSON.string "x"]),
          ("filament_cost", JSON.string "20")] }
      _ { ID := "F1" } (by decide)).1,
   (NormalizeSlicerProfile_exposes_notes exampleLib
      { Name := "P", Version := "1", FilamentNotes := ["\x7b\"id\":\"F1\"\x7d"],
        RawData := [("filament_notes.id", JSON.string "raw"),
          ("filament_notes", JSON.array [JSON.string "x"]),
          ("filament_cost", JSON.string "20")] }
      _ { ID := "F1" } (by decide)).2.2.2.2⟩

theorem typesAt_mapSet (opts : List (String × TypeMap)) (v v' : String) (inner : TypeMap) :
    typesAt (some (mapSet opts v inner)) v' = if v' = v then some inner else typesAt (some opts) v' := by
  simp [typesAt, mapGet_mapSet]

theorem UpdateOptions_typesAt (opts : List (String × TypeMap)) (notes : FilamentNotes)
    (options' : MaterialOptions) (h : UpdateOptions (some opts) notes = some options')
    (v : String) (inner : TypeMap) (hv : typesAt (some opts) v = some inner) :
    ∃ inner', typesAt options' v = some inner' := by
  rw [UpdateOptions_some] at h
  cases hvk : mapGet opts (vendorKey notes) with
  | none =>
    rw [hvk] at h
    dsimp only at h
    have h' := Option.some.inj h
    subst h'
    rw [typesAt_mapSet, typesAt_mapSet]
    by_cases hvv : v = vendorKey notes
    · simp [hvv]
    · simp [hvv, hv]
  | some tm =>
    rw [hvk] at h
    cases tm with
    | none => simp at h
    | some innerMap =>
      dsimp only at h
      cases ht : mapGet innerMap (typeKey notes) with
      | none =>
        rw [ht] at h
        dsimp only at h
        have h' := Option.some.inj h
        subst h'
        rw [typesAt_mapSet]
        by_cases hvv : v = vendorKey notes
        · simp [hvv]
        · simp [hvv, hv]
      | some s =>
        rw [ht] at h
        dsimp only at h
        by_cases hmem : displayName notes ∈ Split s
        · rw [if_pos hmem] at h
          have h' := Option.some.inj h
          subst h'
          exact ⟨inner, hv⟩
        · rw [if_neg hmem] at h
          have h' := Option.some.inj h
          subst h'
          rw [typesAt_mapSet]
          by_cases hvv : v = vendorKey notes
          · simp [hvv]
          · simp [hvv, hv]

/-- C35: when `UpdateOptions` returns, every (vendor, type) pair other than the
one addressed by the block's defaulted vendor and type reads as before the
call; no pair and no vendor that had an entry before is without one after;
and any two pairs whose value changed are the same pair. -/
theorem UpdateOptions_frame (options options' : MaterialOptions) (notes : FilamentNotes)
    (h : UpdateOptions options notes = some options') :
    (∀ v t, ¬ (v = vendorKey notes ∧ t = typeKey notes) →
      namesAt options' v t = namesAt options v t) ∧
    (∀ v t s, namesAt options v t = some s → ∃ s', namesAt options' v t = some s') ∧
    (∀ v inner, typesAt options v = some inner → ∃ inner', typesAt options' v = some inner') ∧
    (∀ v1 t1 v2 t2, namesAt options' v1 t1 ≠ namesAt options v1 t1 →
      namesAt options' v2 t2 ≠ namesAt options v2 t2 → v1 = v2 ∧ t1 = t2) := by
  cases options with
  | none =>
    rw [UpdateOptions_nil] at h
    have h' := Option.some.inj h
    subst h'
    refine ⟨fun _ _ _ => rfl, fun v t s hs => ⟨s, hs⟩, fun v inner hi => ⟨inner, hi⟩, ?_⟩
    intro v1 t1 v2 t2 h1
    exact absurd rfl h1
  | some opts =>
    have hnil : hasNilTypeMap (some opts) (vendorKey notes) = false := by
      cases hn : hasNilTypeMap (some opts) (vendorKey notes) with
      | false => rfl
      | true =>
        rw [(UpdateOptions_eq_none_iff (some opts) notes).mpr hn] at h
        exact Option.noConfusion h
    obtain ⟨o, ho, hread⟩ := UpdateOptions_namesAt opts notes hnil
    rw [ho] at h
    have h' := Option.some.inj h
    subst h'
    have hframe : ∀ v t, ¬ (v = vendorKey notes ∧ t = typeKey notes) →
        namesAt (some o) v t = namesAt (some opts) v t := by
      intro v t hvt
      rw [hread, if_neg hvt]
    refine ⟨hframe, ?_, ?_, ?_⟩
    · intro v t s hs
      by_cases hvt : v = vendorKey notes ∧ t = typeKey notes
      · rw [hread, if_pos hvt]
        exact ⟨_, rfl⟩
      · rw [hframe v t hvt]
        exact ⟨s, hs⟩
    · intro v inner hi
      exact UpdateOptions_typesAt opts notes (some o) ho v inner hi
    · intro v1 t1 v2 t2 h1 h2
      have e1 : v1 = vendorKey notes ∧ t1 = typeKey notes := by
        by_contra hc
        exact h1 (hframe v1 t1 hc)
      have e2 : v2 = vendorKey notes ∧ t2 = typeKey notes := by
        by_contra hc
        exact h2 (hframe v2 t2 hc)
      exact ⟨e1.1.trans e2.1.symm, e1.2.trans e2.2.symm⟩

/-- Witness for C35: a new name filed under ("Acme", "PLA") next to the pairs
("Acme", "PETG") and ("Generic", "PLA"). -/
theorem UpdateOptions_frame_witness :
    UpdateOptions (some [("Acme", some [("PLA", "Red"), ("PETG", "Clear")]),
        ("Generic", some [("PLA", "Basic")])])
        { ID := "F2", Vendor := "Acme", Type_ := "PLA", Name := "Blue" }
      = some (some [("Acme", some [("PLA", "Red\nBlue"), ("PETG", "Clear")]),
        ("Generic", some [("PLA", "Basic")])]) ∧
    namesAt (some [("Acme", some [("PLA", "Red\nBlue"), ("PETG", "Clear")]),
        ("Generic", some [("PLA", "Basic")])]) "Acme" "PETG"
      = namesAt (some [("Acme", some [("PLA", "Red"), ("PETG", "Clear")]),
        ("Generic", some [("PLA", "Basic")])]) "Acme" "PETG" :=
  ⟨by decide,
   (UpdateOptions_frame _ _ { ID := "F2", Vendor := "Acme", Type_ := "PLA", Name := "Blue" }
      (by decide : UpdateOptions (some [("Acme", some [("PLA", "Red"), ("PETG", "Clear")]),
        ("Generic", some [("PLA", "Basic")])])
        { ID := "F2", Vendor := "Acme", Type_ := "PLA", Name := "Blue" }
      = some (some [("Acme", some [("PLA", "Red\nBlue"), ("PETG", "Clear")]),
        ("Generic", some [("PLA", "Basic")])]))).1 "Acme" "PETG" (by decide)⟩

/-! ## Properties of the keys the conversion reads and of boolean flags -/

theorem assignKVParam_congr (m1 m2 : List (String × String)) (key : String)
    (h : mapGet m1 key = mapGet m2 key) : assignKVParam m1 key = assignKVParam m2 key := by
  simp [assignKVParam, h]

theorem ConvertToCrealityFormat_congr (lib : StdLib) (m1 m2 : List (String × String))
    (notes : FilamentNotes)
    (h : ∀ key ∈ consultedKeys, assignKVParam m1 key = assignKVParam m2 key) :
    ConvertToCrealityFormat lib m1 notes = ConvertToCrealityFormat lib m2 notes := by
  simp only [consultedKeys, kvParamSourceKeys, List.map, List.mem_cons, List.mem_nil_iff,
    or_false, forall_eq_or_imp, forall_eq] at h
  simp only [ConvertToCrealityFormat, h]

theorem mapGet_mapSet_unconsulted (m : List (String × String)) (key value : String)
    (hkey : key ∈ unconsultedKeys) :
    ∀ k ∈ consultedKeys, mapGet (mapSet m key value) k = mapGet m k := by
  intro k hk
  apply mapGet_mapSet_of_ne
  intro hkk
  subst hkk
  revert hk
  simp only [unconsultedKeys, List.mem_cons, List.mem_nil_iff, or_false] at hkey
  rcases hkey with hkey | hkey | hkey | hkey | hkey <;> subst hkey <;> decide

/-- C36: for every library, every metadata block and every two normalized maps
that agree on every consulted key (`"version"` and the source keys of the
parameter literal), the conversion gives the same result; in particular a
new value under `name`, `filament_notes.id`, `filament_notes.vendor`,
`filament_notes.type` or `filament_notes.name` does not change it. -/
theorem ConvertToCrealityFormat_ignores_unconsulted (lib : StdLib)
    (m1 m2 : List (String × String)) (notes : FilamentNotes)
    (h : ∀ key ∈ consultedKeys, mapGet m1 key = mapGet m2 key) :
    ConvertToCrealityFormat lib m1 notes = ConvertToCrealityFormat lib m2 notes ∧
    ∀ key ∈ unconsultedKeys, ∀ value : String,
      ConvertToCrealityFormat lib (mapSet m1 key value) notes
        = ConvertToCrealityFormat lib m1 notes := by
  refine ⟨ConvertToCrealityFormat_congr lib m1 m2 notes
    (fun key hk => assignKVParam_congr m1 m2 key (h key hk)), ?_⟩
  intro key hkey value
  exact ConvertToCrealityFormat_congr lib _ _ notes
    (fun k hk => assignKVParam_congr _ _ k (mapGet_mapSet_unconsulted m1 key value hkey k hk))

/-- Witness for C36: two maps that differ in the order of their keys, in
`name` and in a key that is never read. -/
theorem ConvertToCrealityFormat_ignores_unconsulted_witness :
    (∀ key ∈ consultedKeys,
      mapGet [("version", "1"), ("filament_cost", "20"), ("name", "A")] key
        = mapGet [("filament_cost", "20"), ("name", "B"), ("version", "1"), ("extra", "x")]
            key) ∧
    ConvertToCrealityFormat exampleLib
        [("version", "1"), ("filament_cost", "20"), ("name", "A")] { ID := "F1" }
      = ConvertToCrealityFormat exampleLib
        [("filament_cost", "20"), ("name", "B"), ("version", "1"), ("extra", "x")]
        { ID := "F1" } :=
  ⟨by decide,
   (ConvertToCrealityFormat_ignores_unconsulted exampleLib
      [("version", "1"), ("filament_cost", "20"), ("name", "A")]
      [("filament_cost", "20"), ("name", "B"), ("version", "1"), ("extra", "x")]
      { ID := "F1" } (by decide)).1⟩

theorem ConvertToCrealityFormat_marshalled_some (lib : StdLib) (m : List (String × String))
    (notes : FilamentNotes) (bytes : String) (hm : lib.jsonMarshalNotes notes = some bytes) :
    ∃ entry, ConvertToCrealityFormat lib m notes = some entry := by
  obtain ⟨entry, he, _⟩ := ConvertToCrealityFormat_of_marshal lib m notes bytes hm
  exact ⟨entry, he⟩

theorem flattenValue_bool_true (lib : StdLib) (rest : List JSON) :
    flattenValue lib (.bool true) = "true" ∧
    flattenValue lib (.array (.bool true :: rest)) = "true" := by
  constructor <;> simp [flattenValue, SprintfV]

/-- C37: for every raw profile (one binding per key) whose value under
`filament_soluble` or `filament_is_support` is the JSON boolean `true`, bare
or as the first element of an array, a successful normalization stores the
string `"true"` under that key, and the entry converted from the normalized
map has `Base.IsSoluble`, respectively `Base.IsSupport`, equal to false. -/
theorem pipeline_bool_flag_not_set (lib : StdLib) (p : SlicerFilamentProfile)
    (m : List (String × String)) (notes : FilamentNotes) (entry : FilamentProfileEntry)
    (key : String) (rest : List JSON)
    (hkeys : (p.RawData.map Prod.fst).Nodup)
    (hkey : key = "filament_soluble" ∨ key = "filament_is_support")
    (hraw : (key, JSON.bool true) ∈ p.RawData ∨
      (key, JSON.array (JSON.bool true :: rest)) ∈ p.RawData)
    (hn : NormalizeSlicerProfile lib p = some (m, notes))
    (hc : ConvertToCrealityFormat lib m notes = some entry) :
    mapGet m key = some "true" ∧
    (key = "filament_soluble" → entry.Base.IsSoluble = false) ∧
    (key = "filament_is_support" → entry.Base.IsSupport = false) := by
  have hres : key ∉ reservedKeys := by
    rcases hkey with hkey | hkey <;> subst hkey <;> decide
  have hnk : key ∉ notesKeys := by
    rcases hkey with hkey | hkey <;> subst hkey <;> decide
  have hget : mapGet m key = some "true" := by
    rcases hraw with hraw | hraw
    · rw [NormalizeSlicerProfile_mapGet_raw lib p m notes key _ hn hkeys hraw hres hnk,
        (flattenValue_bool_true lib rest).1]
    · rw [NormalizeSlicerProfile_mapGet_raw lib p m notes key _ hn hkeys hraw hres hnk,
        (flattenValue_bool_true lib rest).2]
  obtain ⟨bytes, hb⟩ := ConvertToCrealityFormat_marshalled lib m notes entry hc
  obtain ⟨entry', he', hbase⟩ := ConvertToCrealityFormat_base lib m notes bytes hb
  have hee : entry' = entry := ConvertToCrealityFormat_unique lib m notes entry' entry he' hc
  subst hee
  refine ⟨hget, ?_, ?_⟩
  · intro hk
    subst hk
    rw [hbase.1, assignKVParam_of_present m _ _ hget]
    decide
  · intro hk
    subst hk
    rw [hbase.2.1, assignKVParam_of_present m _ _ hget]
    decide

/-- Witness for C37: `filament_soluble` is a bare `true`, `filament_is_support`
holds `true` as the first element of an array. -/
theorem pipeline_bool_flag_not_set_witness :
    NormalizeSlicerProfile exampleLib
        { Name := "P", Version := "1", FilamentNotes := ["\x7b\"id\":\"F1\"\x7d"],
          RawData := [("filament_soluble", JSON.bool true),
            ("filament_is_support", JSON.array [JSON.bool true, JSON.null])] }
      = some ([("filament_soluble", "true"), ("filament_is_support", "true"), ("name", "P"),
          ("version", "1"), ("filament_notes.id", "F1"), ("filament_notes.vendor", ""),
          ("filament_notes.type", ""), ("filament_notes.name", "")], { ID := "F1" }) ∧
    ∃ entry, ConvertToCrealityFormat exampleLib
        [("filament_soluble", "true"), ("filament_is_support", "true"), ("name", "P"),
          ("version", "1"), ("filament_notes.id", "F1"), ("filament_notes.vendor", ""),
          ("filament_notes.type", ""), ("filament_notes.name", "")] { ID := "F1" }
        = some entry ∧ entry.Base.IsSoluble = false ∧ entry.Base.IsSupport = false :=
  ⟨by decide,
   (ConvertToCrealityFormat_marshalled_some exampleLib
      [("filament_soluble", "true"), ("filament_is_support", "true"), ("name", "P"),
        ("version", "1"), ("filament_notes.id", "F1"), ("filament_notes.vendor", ""),
        ("filament_notes.type", ""), ("filament_notes.name", "")] { ID := "F1" }
      "\x7b\"id\":\"F1\",\"vendor\":\"\",\"type\":\"\",\"name\":\"\"\x7d" (by decide)).imp
     (fun entry hc =>
      ⟨hc,
       (pipeline_bool_flag_not_set exampleLib
          { Name := "P", Version := "1", FilamentNotes := ["\x7b\"id\":\"F1\"\x7d"],
            RawData := [("filament_soluble", JSON.bool true),
              ("filament_is_support", JSON.array [JSON.bool true, JSON.null])] }
          _ { ID := "F1" } entry "filament_soluble" []
          (by decide) (Or.inl rfl) (Or.inl (by simp)) (by decide) hc).2.1 rfl,
       (pipeline_bool_flag_not_set exampleLib
          { Name := "P", Version := "1", FilamentNotes := ["\x7b\"id\":\"F1\"\x7d"],
            RawData := [("filament_soluble", JSON.bool true),
              ("filament_is_support", JSON.array [JSON.bool true, JSON.null])] }
          _ { ID := "F1" } entry "filament_is_support" [JSON.null]
          (by decide) (Or.inr rfl) (Or.inr (by simp)) (by decide) hc).2.2 rfl⟩)⟩

/-! ## The quotes NormalizeSlicerProfile trims -/

theorem dropWhile_replicate_append (p : Char → Bool) (q : Char) (hq : p q = true) (j : Nat)
    (l : List Char) : (List.replicate j q ++ l).dropWhile p = l.dropWhile p := by
  induction j with
  | zero => simp
  | succ j ih => simp [List.replicate_succ, List.dropWhile_cons, hq, ih]

theorem dropWhile_of_head (p : Char → Bool) (l : List Char)
    (h : ∀ c, l.head? = some c → p c = false) : l.dropWhile p = l := by
  cases l with
  | nil => rfl
  | cons c cs => simp [List.dropWhile_cons, h c rfl]

theorem trimBoth_wrapped (p : Char → Bool) (q : Char) (hq : p q = true) (t : List Char)
    (hh : ∀ c, t.head? = some c → p c = false) (hl : ∀ c, t.getLast? = some c → p c = false)
    (j k : Nat) :
    (((List.replicate j q ++ t ++ List.replicate k q).dropWhile p).reverse.dropWhile p).reverse
      = t := by
  rw [List.append_assoc, dropWhile_replicate_append p q hq]
  cases t with
  | nil =>
    have h0 := dropWhile_replicate_append p q hq k []
    rw [List.append_nil] at h0
    rw [List.nil_append, h0]
    rfl
  | cons c cs =>
    rw [dropWhile_of_head p (c :: cs ++ List.replicate k q) (fun d hd => hh d (by simpa using hd)),
      List.reverse_append, List.reverse_replicate, dropWhile_replicate_append p q hq,
      dropWhile_of_head p (c :: cs).reverse
        (fun d hd => hl d (by rw [← List.head?_reverse]; exact hd)),
      List.reverse_reverse]

theorem Trim_wrapped (t : List Char) (j k : Nat) (hh : t.head? ≠ some '"')
    (hl : t.getLast? ≠ some '"') :
    Trim (String.mk (List.replicate j '"' ++ t ++ List.replicate k '"')) "\"" = String.mk t := by
  have hp : ∀ c : Char, c ≠ '"' → (fun c => decide (c ∈ "\"".data)) c = false := by
    intro c hc
    have hnot : c ∉ "\"".data := by
      intro hmem
      have hcq : c = '"' := by simpa using hmem
      exact hc hcq
    simpa using hnot
  unfold Trim
  congr 1
  exact trimBoth_wrapped (fun c => decide (c ∈ "\"".data)) '"' (by decide) t
    (fun c hc => hp c (fun hcq => hh (by rw [hc, hcq])))
    (fun c hc => hp c (fun hcq => hl (by rw [hc, hcq]))) j k

theorem NormalizeSlicerProfile_notes_eq (lib : StdLib) (p : SlicerFilamentProfile)
    (first : String) (rest : List String) (hcar : p.FilamentNotes = first :: rest)
    (hne : first ≠ "") :
    (NormalizeSlicerProfile lib p).map (fun r => r.2)
      = lib.jsonUnmarshalNotes (Trim first "\"") := by
  cases hparse : lib.jsonUnmarshalNotes (Trim first "\"") with
  | none =>
    unfold NormalizeSlicerProfile
    simp only [hcar, hne, if_false, hparse]
    rfl
  | some n =>
    rw [NormalizeSlicerProfile_of_parse lib p first rest n hcar hne hparse]
    rfl

/-- C31 as stated fails: a first element that wraps a valid metadata document
in two layers of double quotes is not rejected; both layers are stripped and
the document is parsed. -/
theorem NormalizeSlicerProfile_double_quoted_accepted :
    (NormalizeSlicerProfile goExampleLib
        { Name := "P", Version := "1",
          FilamentNotes := ["\"\"\x7b\"id\":\"F1\"\x7d\"\""] }).map (fun r => r.2)
      = some { ID := "F1" } := by
  decide

/-- C31, amended. `NormalizeSlicerProfile` strips every leading and every
trailing double quote of the first element before parsing: for a non-empty
first element made of `j` double quotes, a text `t` that neither begins nor
ends with a double quote, and `k` double quotes, the text that is parsed is
`t`, and normalization succeeds exactly when `t` parses, returning the parsed
block. -/
theorem NormalizeSlicerProfile_trims_every_quote (lib : StdLib) (p : SlicerFilamentProfile)
    (first t : String) (rest : List String) (j k : Nat)
    (hcar : p.FilamentNotes = first :: rest) (hne : first ≠ "")
    (hfirst : first = String.mk (List.replicate j '"' ++ t.data ++ List.replicate k '"'))
    (hh : t.data.head? ≠ some '"') (hl : t.data.getLast? ≠ some '"') :
    Trim first "\"" = t ∧
    (NormalizeSlicerProfile lib p).map (fun r => r.2) = lib.jsonUnmarshalNotes t := by
  have htrim : Trim first "\"" = t := by
    rw [hfirst, Trim_wrapped t.data j k hh hl]
  refine ⟨htrim, ?_⟩
  rw [NormalizeSlicerProfile_notes_eq lib p first rest hcar hne, htrim]

/-- Witness for C31, amended: two layers of quotes around a document. -/
theorem NormalizeSlicerProfile_trims_every_quote_witness :
    Trim "\"\"\x7b\"id\":\"F1\"\x7d\"\"" "\"" = "\x7b\"id\":\"F1\"\x7d" ∧
    (NormalizeSlicerProfile exampleLib
        { Name := "P", Version := "1",
          FilamentNotes := ["\"\"\x7b\"id\":\"F1\"\x7d\"\""] }).map (fun r => r.2)
      = exampleLib.jsonUnmarshalNotes "\x7b\"id\":\"F1\"\x7d" :=
  NormalizeSlicerProfile_trims_every_quote exampleLib
    { Name := "P", Version := "1", FilamentNotes := ["\"\"\x7b\"id\":\"F1\"\x7d\"\""] }
    "\"\"\x7b\"id\":\"F1\"\x7d\"\"" "\x7b\"id\":\"F1\"\x7d" [] 2 2 rfl (by decide) (by decide)
    (by decide) (by decide)

/-! ## The embedded notes through NormalizeSlicerProfile -/

theorem scanMembers_backslash (fuel depth : Nat) (rest : List Char) :
    scanMembers fuel depth ('\\' :: rest) = none := by
  cases fuel with
  | zero => simp [scanMembers]
  | succ fuel => simp [scanMembers]

theorem scanValue_brace_backslash (fuel depth : Nat) (rest : List Char) :
    scanValue fuel depth ('\x7b' :: '\\' :: rest) = none := by
  cases fuel with
  | zero => simp [scanValue]
  | succ fuel =>
    rw [scanValue]
    simp [skipSpace, scanMembers_backslash]

theorem goUnmarshalNotes_brace_backslash (rest : List Char) :
    goUnmarshalNotes (String.mk ('\x7b' :: '\\' :: rest)) = none := by
  unfold goUnmarshalNotes
  rw [scanValue_brace_backslash]

theorem goQuoteChar_brace (isPrint : Char → Bool) :
    goQuoteChar isPrint '\x7b' = ['\x7b'] ∧ goQuoteChar isPrint '\x7d' = ['\x7d'] ∧
    goQuoteChar isPrint '"' = ['\\', '"'] := by
  refine ⟨?_, ?_, ?_⟩ <;> simp [goQuoteChar, goIsPrint]

/-- The quoted serialization of a block: a double quote, an opening brace, a
backslash, a body that does not end with a double quote, a double quote. -/
theorem goQuote_goMarshalNotes_data (isPrint : Char → Bool) (notes : FilamentNotes) :
    ∃ body : List Char, body.getLast? ≠ some '"' ∧
      (goQuote isPrint (goMarshalNotes notes)).data
        = List.replicate 1 '"' ++ ('\x7b' :: '\\' :: body) ++ List.replicate 1 '"' := by
  obtain ⟨inner, hinner⟩ : ∃ inner : List Char,
      (goMarshalNotes notes).data = '\x7b' :: '"' :: (inner ++ ['\x7d']) := by
    exact ⟨"id\":".data ++ jsonQuoteChars notes.ID.data
      ++ ",\"vendor\":".data ++ jsonQuoteChars notes.Vendor.data
      ++ ",\"type\":".data ++ jsonQuoteChars notes.Type_.data
      ++ ",\"name\":".data ++ jsonQuoteChars notes.Name.data, rfl⟩
  refine ⟨'"' :: (inner.flatMap (goQuoteChar isPrint) ++ ['\x7d']), ?_, ?_⟩
  · simp [List.getLast?_cons, List.getLast?_append]
  · simp only [goQuote, hinner, List.flatMap_cons, List.flatMap_append, List.flatMap_nil,
      (goQuoteChar_brace isPrint).1, (goQuoteChar_brace isPrint).2.1,
      (goQuoteChar_brace isPrint).2.2]
    simp

theorem Trim_goQuote_goMarshalNotes (isPrint : Char → Bool) (notes : FilamentNotes) :
    ∃ body : List Char,
      Trim (goQuote isPrint (goMarshalNotes notes)) "\"" = String.mk ('\x7b' :: '\\' :: body) := by
  obtain ⟨body, hlast, hdata⟩ := goQuote_goMarshalNotes_data isPrint notes
  refine ⟨body, ?_⟩
  have hs : goQuote isPrint (goMarshalNotes notes)
      = String.mk (List.replicate 1 '"' ++ ('\x7b' :: '\\' :: body) ++ List.replicate 1 '"') := by
    rw [← hdata]
  rw [hs]
  apply Trim_wrapped
  · simp
  · cases body with
    | nil => decide
    | cons b bs => simpa [List.getLast?_cons_cons] using hlast

theorem NormalizeSlicerProfile_goQuote_goMarshalNotes (formatFloat : Float64 → String)
    (ParseFloat : String → Option Float64) (isPrint : Char → Bool)
    (p : SlicerFilamentProfile) (rest : List String) (notes : FilamentNotes)
    (hcar : p.FilamentNotes = goQuote isPrint (goMarshalNotes notes) :: rest) :
    NormalizeSlicerProfile (goLib formatFloat ParseFloat isPrint) p = none := by
  obtain ⟨body, hbody⟩ := Trim_goQuote_goMarshalNotes isPrint notes
  have hne : goQuote isPrint (goMarshalNotes notes) ≠ "" := by
    intro h
    have h2 := (goQuote_shape isPrint (goMarshalNotes notes)).2.2
    rw [h] at h2
    simp at h2
  have h := NormalizeSlicerProfile_notes_eq (goLib formatFloat ParseFloat isPrint) p _ rest hcar hne
  have hparse : (goLib formatFloat ParseFloat isPrint).jsonUnmarshalNotes
      (Trim (goQuote isPrint (goMarshalNotes notes)) "\"") = none := by
    rw [hbody]
    exact goUnmarshalNotes_brace_backslash body
  rw [hparse] at h
  cases hn : NormalizeSlicerProfile (goLib formatFloat ParseFloat isPrint) p with
  | none => rfl
  | some r => rw [hn] at h; simp at h

/-- C38 as stated fails: the text the conversion stores for the block with ID
`F1`, taken as the first element of a carrier, is rejected by
`NormalizeSlicerProfile`. -/
theorem NormalizeSlicerProfile_embedded_notes_rejected :
    (ConvertToCrealityFormat goExampleLib []
        { ID := "F1" }).map (fun entry => entry.KVParam.FilamentNotes)
      = some "\"\x7b\\\"id\\\":\\\"F1\\\",\\\"vendor\\\":\\\"\\\",\\\"type\\\":\\\"\\\",\\\"name\\\":\\\"\\\"\x7d\"" ∧
    NormalizeSlicerProfile goExampleLib
        { Name := "P", Version := "1",
          FilamentNotes := ["\"\x7b\\\"id\\\":\\\"F1\\\",\\\"vendor\\\":\\\"\\\",\\\"type\\\":\\\"\\\",\\\"name\\\":\\\"\\\"\x7d\""] }
      = none := by
  decide

/-- C38, amended. For every normalized map and every metadata block, the text
the conversion stores in `KVParam.FilamentNotes`, taken as the first element
of a profile's carrier, makes `NormalizeSlicerProfile` return an error:
trimming the surrounding quotes leaves the backslashes that quoting put before
the inner quotes, and the text is not JSON. The block is recovered by
unquoting the text (`goUnquote`) and decoding the result
(`goUnmarshalNotes`). -/
theorem NormalizeSlicerProfile_rejects_embedded_notes (formatFloat : Float64 → String)
    (ParseFloat : String → Option Float64) (isPrint : Char → Bool)
    (m : List (String × String)) (notes : FilamentNotes) :
    ∃ entry,
      ConvertToCrealityFormat (goLib formatFloat ParseFloat isPrint) m notes = some entry ∧
      (∀ (p : SlicerFilamentProfile) (rest : List String),
        p.FilamentNotes = entry.KVParam.FilamentNotes :: rest →
        NormalizeSlicerProfile (goLib formatFloat ParseFloat isPrint) p = none) ∧
      (goUnquote entry.KVParam.FilamentNotes).bind goUnmarshalNotes = some notes := by
  obtain ⟨entry, he, hq⟩ := ConvertToCrealityFormat_goLib formatFloat ParseFloat isPrint m notes
  refine ⟨entry, he, ?_, ?_⟩
  · intro p rest hcar
    rw [hq] at hcar
    exact NormalizeSlicerProfile_goQuote_goMarshalNotes formatFloat ParseFloat isPrint p rest
      notes hcar
  · rw [hq, goUnquote_goQuote]
    exact goUnmarshalNotes_goMarshalNotes notes

/-! ## Properties of the pre-check of LoadCustomProfiles -/

theorem containsChars_mem (sub : List Char) (c : Char) (hc : c ∈ sub) :
    ∀ cs : List Char, containsChars sub cs = true → c ∈ cs := by
  intro cs
  induction cs with
  | nil =>
    intro h
    cases sub with
    | nil => simp at hc
    | cons a as => simp [containsChars] at h
  | cons d ds ih =>
    intro h
    rw [containsChars, Bool.or_eq_true] at h
    rcases h with h | h
    · have hp : sub <+: (d :: ds) := List.isPrefixOf_iff_prefix.mp h
      exact hp.subset hc
    · exact List.mem_cons_of_mem _ (ih h)

theorem TrimSpace_ne_empty (s : String) (c : Char) (hc : c ∈ s.data) (hsp : isSpace c = false) :
    TrimSpace s ≠ "" := by
  intro h
  have hd : ((s.data.dropWhile isSpace).reverse.dropWhile isSpace).reverse = [] := by
    have := congrArg String.data h
    simpa [TrimSpace] using this
  have h1 : (s.data.dropWhile isSpace).reverse.dropWhile isSpace = [] := by
    simpa using hd
  have h2 : ∀ x ∈ s.data.dropWhile isSpace, isSpace x = true := by
    intro x hx
    have := (List.dropWhile_eq_nil_iff.mp h1) x (by simpa using hx)
    exact this
  have h3 : s.data.dropWhile isSpace = [] := by
    cases hdw : s.data.dropWhile isSpace with
    | nil => rfl
    | cons a as =>
      have ha : isSpace a = true := h2 a (by rw [hdw]; simp)
      have hhead := List.head_dropWhile_not isSpace s.data (by rw [hdw]; simp)
      simp only [hdw, List.head_cons] at hhead
      rw [ha] at hhead
      exact absurd hhead (by simp)
  have h4 := (List.dropWhile_eq_nil_iff.mp h3) c hc
  rw [hsp] at h4
  exact absurd h4 (by simp)

theorem Contains_marker (noteStr : String) (h : Contains noteStr "\"id\":" = true) :
    TrimSpace noteStr ≠ "" ∧ noteStr ≠ "" := by
  have hmem : '"' ∈ noteStr.data := containsChars_mem _ '"' (by decide) _ h
  refine ⟨TrimSpace_ne_empty noteStr '"' hmem (by decide), ?_⟩
  intro he
  rw [he] at hmem
  simp at hmem

/-- What the test of `LoadCustomProfiles` accepts. -/
theorem acceptsProfile_iff (lib : StdLib) (rawProfile : List (String × JSON)) :
    acceptsProfile lib rawProfile = true ↔
      ∃ noteStr rest tempNotes,
        mapGet rawProfile "filament_notes" = some (.array (.string noteStr :: rest)) ∧
        Contains noteStr "\"id\":" = true ∧
        lib.jsonUnmarshalNotes (Trim noteStr "\"") = some tempNotes ∧
        tempNotes.ID ≠ "" := by
  constructor
  · intro h
    unfold acceptsProfile at h
    cases hget : mapGet rawProfile "filament_notes" with
    | none => simp [hget] at h
    | some notesVal =>
      rw [hget] at h
      cases notesVal with
      | array elems =>
        cases elems with
        | nil => simp at h
        | cons first rest =>
          cases first with
          | string noteStr =>
            dsimp only at h
            by_cases hc : TrimSpace noteStr ≠ "" ∧ Contains noteStr "\"id\":" = true
            · rw [if_pos hc] at h
              cases hp : lib.jsonUnmarshalNotes (Trim noteStr "\"") with
              | none => simp [hp] at h
              | some tempNotes =>
                rw [hp] at h
                exact ⟨noteStr, rest, tempNotes, rfl, hc.2, hp, by simpa using h⟩
            · rw [if_neg hc] at h
              exact absurd h (by simp)
          | null => simp at h
          | bool b => simp at h
          | number f => simp at h
          | array l => simp at h
          | object l => simp at h
      | null => simp at h
      | bool b => simp at h
      | number f => simp at h
      | string s => simp at h
      | object l => simp at h
  · rintro ⟨noteStr, rest, tempNotes, hget, hc, hp, hid⟩
    unfold acceptsProfile
    rw [hget]
    dsimp only
    rw [if_pos ⟨(Contains_marker noteStr hc).1, hc⟩, hp]
    simpa using hid

theorem mem_LoadCustomProfiles (lib : StdLib) (join : String → String → String) (dir : String)
    (files : List FileInfo) (path : String) :
    path ∈ LoadCustomProfiles lib join dir files ↔
      ∃ file ∈ files, file.IsDir = false ∧ HasSuffix file.Name ".json" = true ∧
        (∃ rawProfile, file.rawProfile = some rawProfile ∧ acceptsProfile lib rawProfile = true) ∧
        path = join dir file.Name := by
  unfold LoadCustomProfiles
  rw [List.mem_filterMap]
  constructor
  · rintro ⟨file, hmem, h⟩
    refine ⟨file, hmem, ?_⟩
    by_cases hskip : file.IsDir = true ∨ HasSuffix file.Name ".json" = false
    · rw [if_pos hskip] at h
      exact absurd h (by simp)
    · rw [if_neg hskip] at h
      have hd : file.IsDir = false := by
        cases hb : file.IsDir with
        | false => rfl
        | true => exact absurd (Or.inl hb) hskip
      have hs : HasSuffix file.Name ".json" = true := by
        cases hb : HasSuffix file.Name ".json" with
        | true => rfl
        | false => exact absurd (Or.inr hb) hskip
      cases hr : file.rawProfile with
      | none => simp [hr] at h
      | some rawProfile =>
        rw [hr] at h
        dsimp only at h
        by_cases ha : acceptsProfile lib rawProfile = true
        · rw [if_pos ha] at h
          exact ⟨hd, hs, ⟨rawProfile, rfl, ha⟩, (Option.some.inj h).symm⟩
        · rw [if_neg ha] at h
          exact absurd h (by simp)
  · rintro ⟨file, hmem, hd, hs, ⟨rawProfile, hr, ha⟩, hpath⟩
    refine ⟨file, hmem, ?_⟩
    have hskip : ¬ (file.IsDir = true ∨ HasSuffix file.Name ".json" = false) := by
      rw [hd, hs]
      simp
    rw [if_neg hskip, hr]
    dsimp only
    rw [if_pos ha, hpath]

/-- C32 as stated fails: a document whose `filament_notes` array holds a number
after its first element is accepted, although the field is not an array of
strings. -/
theorem acceptsProfile_not_string_array :
    acceptsProfile goExampleLib
        [("filament_notes", .array [.string "\x7b\"id\":\"F1\"\x7d", .number {}])] = true ∧
    isStringArray (.array [.string "\x7b\"id\":\"F1\"\x7d", .number {}]) = false := by
  decide

/-- C32, amended. The test of `LoadCustomProfiles` accepts a decoded document
exactly when its `filament_notes` field is a non-empty array whose first
element is a string that contains the marker `"id":` and, with its leading and
trailing double quotes trimmed, decodes without error to a block with a
non-empty ID; the elements after the first are not looked at. The returned
list holds the paths of the `.json` files, directories apart, whose decoded
document is accepted, and no other path. -/
theorem LoadCustomProfiles_accepts (lib : StdLib) (join : String → String → String)
    (dir : String) (files : List FileInfo) (rawProfile : List (String × JSON))
    (path : String) :
    (acceptsProfile lib rawProfile = true ↔
      ∃ noteStr rest tempNotes,
        mapGet rawProfile "filament_notes" = some (.array (.string noteStr :: rest)) ∧
        Contains noteStr "\"id\":" = true ∧
        lib.jsonUnmarshalNotes (Trim noteStr "\"") = some tempNotes ∧
        tempNotes.ID ≠ "") ∧
    (path ∈ LoadCustomProfiles lib join dir files ↔
      ∃ file ∈ files, file.IsDir = false ∧ HasSuffix file.Name ".json" = true ∧
        (∃ doc, file.rawProfile = some doc ∧ acceptsProfile lib doc = true) ∧
        path = join dir file.Name) :=
  ⟨acceptsProfile_iff lib rawProfile, mem_LoadCustomProfiles lib join dir files path⟩

/-! ## The pre-check and the normalization of a decoded document -/

theorem decodeObject_append (init : List (String × JSON)) (kv : String × JSON) :
    decodeObject (init ++ [kv]) = mapSet (decodeObject init) kv.1 kv.2 := by
  simp [decodeObject, List.foldl_append]

theorem assignProfileMembers_append (init : List (String × JSON)) (kv : String × JSON) :
    ∀ st : SlicerFilamentProfile × List String,
      assignProfileMembers st (init ++ [kv])
        = (assignProfileMembers st init).bind (fun st' => assignProfileMember st' kv) := by
  induction init with
  | nil =>
    intro st
    simp only [List.nil_append, assignProfileMembers, Option.some_bind]
    cases assignProfileMember st kv <;> rfl
  | cons member rest ih =>
    intro st
    simp only [List.cons_append, assignProfileMembers]
    cases assignProfileMember st member with
    | none => rfl
    | some st' => exact ih st'

theorem decodeStringElems_head (backing : List String) (i : Nat) (s : String)
    (rest : List JSON) (strs : List String)
    (h : decodeStringElems backing i (.string s :: rest) = some strs) :
    ∃ tail, strs = s :: tail := by
  rw [decodeStringElems] at h
  cases hr : decodeStringElems backing (i + 1) rest with
  | none => simp [hr] at h
  | some tail =>
    rw [hr] at h
    exact ⟨tail, (Option.some.inj h).symm⟩

theorem assignProfileMember_of_other_key (st st' : SlicerFilamentProfile × List String)
    (member : String × JSON) (hkey : foldFieldKey member.1 ≠ "filament_notes")
    (h : assignProfileMember st member = some st') :
    st'.1.FilamentNotes = st.1.FilamentNotes := by
  unfold assignProfileMember at h
  by_cases h1 : foldFieldKey member.1 = "name"
  · rw [if_pos h1] at h
    cases hv : member.2 <;> rw [hv] at h <;> simp at h <;> subst h <;> rfl
  · rw [if_neg h1] at h
    by_cases h2 : foldFieldKey member.1 = "version"
    · rw [if_pos h2] at h
      cases hv : member.2 <;> rw [hv] at h <;> simp at h <;> subst h <;> rfl
    · rw [if_neg h2, if_neg hkey] at h
      rw [← Option.some.inj h]

theorem assignProfileMember_of_notes_key (st st' : SlicerFilamentProfile × List String)
    (noteStr : String) (rest : List JSON)
    (h : assignProfileMember st ("filament_notes", .array (.string noteStr :: rest)) = some st') :
    ∃ tail, st'.1.FilamentNotes = noteStr :: tail := by
  have h1 : foldFieldKey "filament_notes" ≠ "name" := by decide
  have h2 : foldFieldKey "filament_notes" ≠ "version" := by decide
  have h3 : foldFieldKey "filament_notes" = "filament_notes" := by decide
  unfold assignProfileMember at h
  simp only [h1, h2, h3, if_false, if_true] at h
  cases hd : decodeStringElems st.2 0 (.string noteStr :: rest) with
  | none => simp [hd] at h
  | some strs =>
    rw [hd] at h
    obtain ⟨tail, htail⟩ := decodeStringElems_head st.2 0 noteStr rest strs hd
    refine ⟨tail, ?_⟩
    rw [← Option.some.inj h, ← htail]

/-- When no key of the document other than `filament_notes` itself matches the
field `filament_notes`, the first string of the carrier the typed decoding
leaves is the first element of the array the raw decoding holds under
`filament_notes`. -/
theorem assignProfileMembers_carrier (members : List (String × JSON)) :
    (∀ kv ∈ members, foldFieldKey kv.1 = "filament_notes" → kv.1 = "filament_notes") →
    ∀ (st : SlicerFilamentProfile × List String) (noteStr : String) (rest : List JSON),
      assignProfileMembers ({}, []) members = some st →
      mapGet (decodeObject members) "filament_notes" = some (.array (.string noteStr :: rest)) →
      ∃ tail, st.1.FilamentNotes = noteStr :: tail := by
  induction members using List.reverseRecOn with
  | nil =>
    intro _ st noteStr rest _ hget
    simp [decodeObject, mapGet] at hget
  | append_singleton init kv ih =>
    intro hkeys st noteStr rest hst hget
    rw [assignProfileMembers_append] at hst
    cases h0 : assignProfileMembers ({}, []) init with
    | none => simp [h0] at hst
    | some st0 =>
      rw [h0, Option.some_bind] at hst
      rw [decodeObject_append, mapGet_mapSet] at hget
      by_cases hk : "filament_notes" = kv.1
      · rw [if_pos hk] at hget
        have hv : kv.2 = .array (.string noteStr :: rest) := Option.some.inj hget
        have hkv : kv = ("filament_notes", .array (.string noteStr :: rest)) := by
          rw [← hv, hk]
        rw [hkv] at hst
        exact assignProfileMember_of_notes_key st0 st noteStr rest hst
      · rw [if_neg hk] at hget
        have hfold : foldFieldKey kv.1 ≠ "filament_notes" := fun hf =>
          hk (hkeys kv (by simp) hf).symm
        rw [assignProfileMember_of_other_key st0 st kv hfold hst]
        exact ih (fun kv' hm => hkeys kv' (by simp [hm])) st0 noteStr rest h0 hget

/-- C34 as stated fails: a document with the carrier under `filament_notes` and
an empty array under `FILAMENT_NOTES` passes the test of `LoadCustomProfiles`
and is decoded by the Reader, the later key resetting the typed carrier, and
`NormalizeSlicerProfile` returns an error. -/
theorem NormalizeSlicerProfile_fails_after_precheck :
    acceptsProfile goExampleLib
        (decodeObject [("filament_notes", .array [.string "\x7b\"id\":\"F1\"\x7d"]),
          ("FILAMENT_NOTES", .array [])]) = true ∧
    (UnmarshalJSON [("filament_notes", .array [.string "\x7b\"id\":\"F1\"\x7d"]),
        ("FILAMENT_NOTES", .array [])]).map (fun p => p.FilamentNotes) = some [] ∧
    (UnmarshalJSON [("filament_notes", .array [.string "\x7b\"id\":\"F1\"\x7d"]),
        ("FILAMENT_NOTES", .array [])]).bind (NormalizeSlicerProfile goExampleLib) = none := by
  decide

/-- C34, amended. For every document in which no key other than
`filament_notes` itself matches the field `filament_notes`, that the test of
`LoadCustomProfiles` accepts and that the Reader decodes into a profile,
`NormalizeSlicerProfile` returns no error, and the block it returns is the
one the test decoded from the first element of the carrier, whose ID is not
empty. -/
theorem NormalizeSlicerProfile_after_precheck (lib : StdLib)
    (members : List (String × JSON)) (p : SlicerFilamentProfile)
    (hkeys : ∀ kv ∈ members, foldFieldKey kv.1 = "filament_notes" → kv.1 = "filament_notes")
    (hacc : acceptsProfile lib (decodeObject members) = true)
    (hread : UnmarshalJSON members = some p) :
    ∃ noteStr rest normalizedData notes,
      mapGet (decodeObject members) "filament_notes" = some (.array (.string noteStr :: rest)) ∧
      lib.jsonUnmarshalNotes (Trim noteStr "\"") = some notes ∧
      NormalizeSlicerProfile lib p = some (normalizedData, notes) ∧
      notes.ID ≠ "" := by
  obtain ⟨noteStr, rest, notes, hget, hc, hp, hid⟩ :=
    (acceptsProfile_iff lib (decodeObject members)).mp hacc
  unfold UnmarshalJSON at hread
  cases hst : assignProfileMembers ({}, []) members with
  | none => simp [hst] at hread
  | some st =>
    rw [hst] at hread
    have hpe : p = { st.1 with RawData := decodeObject members } := (Option.some.inj hread).symm
    obtain ⟨tail, htail⟩ := assignProfileMembers_carrier members hkeys st noteStr rest hst hget
    have hcar : p.FilamentNotes = noteStr :: tail := by
      rw [hpe]
      exact htail
    exact ⟨noteStr, rest, _, notes, hget, hp,
      NormalizeSlicerProfile_of_parse lib p noteStr tail notes hcar (Contains_marker noteStr hc).2 hp,
      hid⟩

/-- Witness for C34, amended: a document with a name, a repeated
`filament_notes` key and one more field. -/
theorem NormalizeSlicerProfile_after_precheck_witness :
    acceptsProfile goExampleLib
        (decodeObject [("name", .string "P"), ("filament_notes", .array [.string "x"]),
          ("filament_cost", .array [.string "20"]),
          ("filament_notes", .array [.string "\x7b\"id\":\"F1\"\x7d", .null])]) = true ∧
    ∃ noteStr rest normalizedData notes,
      mapGet (decodeObject [("name", .string "P"), ("filament_notes", .array [.string "x"]),
          ("filament_cost", .array [.string "20"]),
          ("filament_notes", .array [.string "\x7b\"id\":\"F1\"\x7d", .null])])
        "filament_notes" = some (.array (.string noteStr :: rest)) ∧
      goExampleLib.jsonUnmarshalNotes (Trim noteStr "\"") = some notes ∧
      NormalizeSlicerProfile goExampleLib
          { Name := "P", FilamentNotes := ["\x7b\"id\":\"F1\"\x7d", ""],
            RawData := decodeObject [("name", .string "P"),
              ("filament_notes", .array [.string "x"]),
              ("filament_cost", .array [.string "20"]),
              ("filament_notes", .array [.string "\x7b\"id\":\"F1\"\x7d", .null])] }
        = some (normalizedData, notes) ∧
      notes.ID ≠ "" :=
  ⟨by decide,
   NormalizeSlicerProfile_after_precheck goExampleLib
      [("name", .string "P"), ("filament_notes", .array [.string "x"]),
        ("filament_cost", .array [.string "20"]),
        ("filament_notes", .array [.string "\x7b\"id\":\"F1\"\x7d", .null])]
      { Name := "P", FilamentNotes := ["\x7b\"id\":\"F1\"\x7d", ""],
        RawData := decodeObject [("name", .string "P"),
          ("filament_notes", .array [.string "x"]),
          ("filament_cost", .array [.string "20"]),
          ("filament_notes", .array [.string "\x7b\"id\":\"F1\"\x7d", .null])] }
      (by decide) (by decide) rfl⟩

end FilamentSync
